import Mathlib

/-!
# The select(2) backend of the sudo event loop

A shallow embedding of `common/event_select.c` together with the declarations
of `include/sudo_event.h` it relies on, and a verification of the dispatch
loop `sudo_ev_loop_impl`.

Conventions of the embedding.

* C `int` values (descriptors, `maxfd`, `nevents`, `nready`, `errno`) are
  integers; arithmetic on them is assumed not to overflow.
* Flag words (`short events`, `unsigned int flags`, the `int flags` argument
  of the loop, the `int what` handed to callbacks) are represented by their
  bit pattern, a natural number, and are only combined with bitwise operators.
* An event is identified by the address of its `struct sudo_event`; the tail
  queue of a base is the list of the addresses of its members, head first.
* An `fd_set` is the list of its `fd_mask` words.  The width `NFDBITS` of a
  word, the values of `EINTR` and `ENOMEM`, the system call `select` and the
  code behind the callback pointers are parameters, collected in `Env`.
* Every call of `select` and every invocation of a callback is appended to a
  log, which the program itself cannot read or write.
* The loop need not terminate; the embedding counts loop iterations against a
  supply and reports `none` together with the state reached when the supply
  is exhausted.
-/

namespace SudoEvent

/-! ## Constants of `sudo_event.h` -/

def SUDO_EV_READ : Nat := 0x01
def SUDO_EV_WRITE : Nat := 0x02
def SUDO_EV_PERSIST : Nat := 0x04
def SUDO_EV_DELETE : Nat := 0x08

def SUDO_EVLOOP_ONCE : Nat := 0x01
def SUDO_EVLOOP_NONBLOCK : Nat := 0x02

def SUDO_EVBASE_LOOPEXIT : Nat := 0x01
def SUDO_EVBASE_LOOPBREAK : Nat := 0x02
def SUDO_EVBASE_LOOPCONT : Nat := 0x04
def SUDO_EVBASE_GOT_EXIT : Nat := 0x10
def SUDO_EVBASE_GOT_BREAK : Nat := 0x20
def SUDO_EVBASE_GOT_MASK : Nat := 0xf0

/-! ## Flag macros -/

/-- Modelled from the spec: the macro `ISSET(t, f)` of `missing.h`, which is
not among the sources; it tests whether a flag word and a mask have a bit in
common, `((t) & (f))` used as a condition. -/
def ISSET (t f : Nat) : Bool := (t &&& f) != 0

/-- Modelled from the spec: the macro `SET(t, f)` of `missing.h`, `((t) |= (f))`;
the function returns the new value of `t`. -/
def SET (t f : Nat) : Nat := t ||| f

/-- The largest `unsigned int`. -/
def UINT_MAX : Nat := 0xffffffff

/-- Modelled from the spec: the macro `CLR(t, f)` of `missing.h`,
`((t) &= ~(f))`, on a 32-bit word; the function returns the new value of `t`. -/
def CLR (t f : Nat) : Nat := t &&& (UINT_MAX ^^^ f)

/-- The macro `howmany(x, y)` of `compat.h`: `(((x) + ((y) - 1)) / (y))` with
C integer division. -/
def howmany (x y : Int) : Int := Int.tdiv (x + (y - 1)) y

/-! ## Descriptor sets -/

/-- An `fd_set` as the list of its `fd_mask` words. -/
abbrev fd_set := List Nat

/-- The system macro `FD_ISSET(fd, set)`: bit `fd % NFDBITS` of word
`fd / NFDBITS`.  A negative descriptor or a word beyond the end of the set is
outside the storage; the embedding reads it as clear. -/
def FD_ISSET (NFDBITS : Nat) (fd : Int) (set : fd_set) : Bool :=
  if fd < 0 then false
  else (set.getD (fd.toNat / NFDBITS) 0).testBit (fd.toNat % NFDBITS)

/-- The system macro `FD_SET(fd, set)`.  Outside the storage the embedding
leaves the set unchanged. -/
def FD_SET (NFDBITS : Nat) (fd : Int) (set : fd_set) : fd_set :=
  if fd < 0 then set
  else set.set (fd.toNat / NFDBITS)
    (set.getD (fd.toNat / NFDBITS) 0 ||| (1 <<< (fd.toNat % NFDBITS)))

/-- The system macro `FD_CLR(fd, set)`: the word is and-ed with the complement,
within `NFDBITS` bits, of the bit of `fd`.  Outside the storage the embedding
leaves the set unchanged. -/
def FD_CLR (NFDBITS : Nat) (fd : Int) (set : fd_set) : fd_set :=
  if fd < 0 then set
  else set.set (fd.toNat / NFDBITS)
    (set.getD (fd.toNat / NFDBITS) 0 &&&
      ((2 ^ NFDBITS - 1) ^^^ (1 <<< (fd.toNat % NFDBITS))))

/-- The effect of `memset(set, 0, n * sizeof(fd_mask))`: the first `n` words
become zero. -/
def memset_zero (set : fd_set) (n : Int) : fd_set :=
  List.replicate (min n.toNat set.length) 0 ++ set.drop n.toNat

/-- The effect of `ecalloc(n, sizeof(fd_mask))`: `n` zero words. -/
def ecalloc (n : Int) : fd_set := List.replicate n.toNat 0

/-! ## Data model -/

/-- The fields of `struct sudo_event` used by the select backend.  `callback`
is the function pointer and `closure` the data pointer; the list linkage is
kept in the base. -/
structure sudo_event where
  fd : Int
  events : Nat
  callback : Nat
  closure : Nat

/-- The fields of `struct sudo_event_base` of the select backend. `events` is
the tail queue (addresses of the member events, head first) and `pending` the
cursor of the dispatch traversal (`none` is `NULL`). -/
structure sudo_event_base where
  events : List Nat
  pending : Option Nat
  readfds : fd_set
  writefds : fd_set
  maxfd : Int
  nevents : Int
  flags : Nat

/-- The memory of the program: the base, the event records by address, and
whatever else the callbacks keep. -/
structure State where
  base : sudo_event_base
  evs : Nat → sudo_event
  user : Nat

/-- What one call of `select` hands back: the return value, `errno`, and the
two descriptor sets as the call left them. -/
structure SelectResult where
  nready : Int
  errno : Int
  readfds : fd_set
  writefds : fd_set

/-- One entry of the log: a call of `select` (arguments and result), or the
invocation of the callback of the event at address `ev`, with the three
arguments passed and the memory as it is when the callback is entered. -/
inductive Call where
  | select (nfds : Int) (readfds writefds : fd_set) (nonblock : Bool)
      (res : SelectResult)
  | callback (ev : Nat) (fd : Int) (what : Nat) (closure : Nat) (mem : State)

/-- The surroundings of the backend: system constants, the `select` system
call (its answer may depend on everything that happened before) and the code
of the callbacks, by function pointer. -/
structure Env where
  NFDBITS : Nat
  EINTR : Int
  ENOMEM : Int
  select : List Call → Int → fd_set → fd_set → Bool → SelectResult
  callback : Nat → Int → Nat → Nat → State → State

/-- The memory together with the log. -/
structure Run where
  st : State
  log : List Call

/-! ## Tail queue -/

/-- The macro `TAILQ_FIRST`. -/
def TAILQ_FIRST (q : List Nat) : Option Nat := q.head?

/-- The macro `TAILQ_NEXT`: the member following `ev` in the queue. -/
def TAILQ_NEXT : List Nat → Nat → Option Nat
  | [], _ => none
  | x :: xs, ev => if x = ev then xs.head? else TAILQ_NEXT xs ev

/-! ## The backend operations -/

/-- The function `sudo_ev_base_alloc_impl`; `old` supplies the fields the
function does not assign. -/
def sudo_ev_base_alloc_impl (NFDBITS : Nat) (old : sudo_event_base) :
    Int × sudo_event_base :=
  (0, { old with
          maxfd := (NFDBITS : Int) - 1
          nevents := 0
          readfds := ecalloc 1
          writefds := ecalloc 1 })

/-- The function `sudo_ev_add_impl`. -/
def sudo_ev_add_impl (NFDBITS : Nat) (base : sudo_event_base) (ev : sudo_event) :
    Int × sudo_event_base :=
  let base1 :=
    if ev.fd > base.maxfd then
      let n := howmany (ev.fd + 1) NFDBITS
      let readfds := ecalloc n
      let writefds := ecalloc n
      { base with readfds := readfds, writefds := writefds, maxfd := (n * NFDBITS) - 1 }
    else base
  let nevents := base1.nevents + 1
  (0, { base1 with nevents := nevents })

/-- The function `sudo_ev_del_impl`. -/
def sudo_ev_del_impl (NFDBITS : Nat) (base : sudo_event_base) (ev : sudo_event) :
    Int × sudo_event_base :=
  let readfds := FD_CLR NFDBITS ev.fd base.readfds
  let writefds := FD_CLR NFDBITS ev.fd base.writefds
  let nevents := base.nevents - 1
  (0, { base with readfds := readfds, writefds := writefds, nevents := nevents })

/-- Modelled from the spec: `sudo_ev_del` of `event.c`, which is not among the
sources.  Delete "clears its interest from the Backend adapter's tracked
state, decrements the registration count, and removes the Event from the
collection" and is safe for the event being serviced, for another event and
for one that never fired; the cursor of the traversal in progress must not be
left on a removed event, so it moves on to the successor when the event it
designates is removed.  An event that is not in the collection of the base is
left alone (an event is "either absent from every collection or present in
exactly one"). -/
def sudo_ev_del (NFDBITS : Nat) (s : State) (ev : Nat) : Int × State :=
  if ev ∈ s.base.events then
    let base1 := (sudo_ev_del_impl NFDBITS s.base (s.evs ev)).2
    let events := s.base.events.erase ev
    let pending :=
      if s.base.pending = some ev then TAILQ_NEXT s.base.events ev else s.base.pending
    (0, { s with base := { base1 with events := events, pending := pending } })
  else (0, s)

/-! ## The dispatch loop -/

/-- How the body of the dispatch traversal is left: to the next event, by
`goto done`, or by `goto rescan`. -/
inductive Flow where
  | next
  | done
  | rescan
  deriving DecidableEq, Repr

/-- The build phase for one event (the body of the first `TAILQ_FOREACH` of
`sudo_ev_loop_impl`), on the triple of the two sets and `highfd`. -/
def build_one (NFDBITS : Nat) (e : sudo_event) (acc : fd_set × fd_set × Int) :
    fd_set × fd_set × Int :=
  let acc1 :=
    if ISSET e.events SUDO_EV_READ then
      (FD_SET NFDBITS e.fd acc.1, acc.2.1, if e.fd > acc.2.2 then e.fd else acc.2.2)
    else acc
  if ISSET e.events SUDO_EV_WRITE then
    (acc1.1, FD_SET NFDBITS e.fd acc1.2.1, if e.fd > acc1.2.2 then e.fd else acc1.2.2)
  else acc1

/-- The build phase: both sets are zeroed over `howmany(maxfd + 1, NFDBITS)`
words, then every event of the queue marks its interest. -/
def build (NFDBITS : Nat) (s : State) : fd_set × fd_set × Int :=
  let n := howmany (s.base.maxfd + 1) NFDBITS
  s.base.events.foldl (fun acc ev => build_one NFDBITS (s.evs ev) acc)
    (memset_zero s.base.readfds n, memset_zero s.base.writefds n, 0)

/-- The mask `what` the dispatch traversal computes for an event from the two
sets of the base. -/
def fired (NFDBITS : Nat) (e : sudo_event) (base : sudo_event_base) : Nat :=
  let what := 0
  let what := if FD_ISSET NFDBITS e.fd base.readfds
    then what ||| (e.events &&& SUDO_EV_READ) else what
  if FD_ISSET NFDBITS e.fd base.writefds
    then what ||| (e.events &&& SUDO_EV_WRITE) else what

/-- The body of the dispatch traversal (`TAILQ_FOREACH_SAFE` of
`sudo_ev_loop_impl`) for the event at address `ev`. -/
def service (env : Env) (ev : Nat) (r : Run) : Flow × Run :=
  let e := r.st.evs ev
  let what := fired env.NFDBITS e r.st.base
  if what != 0 then
    let s1 : State :=
      if !ISSET e.events SUDO_EV_PERSIST then
        let marked : sudo_event := { e with events := SET e.events SUDO_EV_DELETE }
        let evs := Function.update r.st.evs ev marked
        { r.st with evs := evs }
      else r.st
    let log1 := r.log ++ [Call.callback ev e.fd what e.closure s1]
    let s2 := env.callback e.callback e.fd what e.closure s1
    let s3 :=
      if ISSET (s2.evs ev).events SUDO_EV_DELETE then (sudo_ev_del env.NFDBITS s2 ev).2
      else s2
    if ISSET s3.base.flags SUDO_EVBASE_LOOPBREAK then
      let flags := s3.base.flags ||| SUDO_EVBASE_GOT_BREAK
      (Flow.done,
        { st := { s3 with base := { s3.base with flags := flags, pending := none } }
          log := log1 })
    else if ISSET s3.base.flags SUDO_EVBASE_LOOPCONT then
      let flags := CLR s3.base.flags SUDO_EVBASE_LOOPCONT
      (Flow.rescan,
        { st := { s3 with base := { s3.base with flags := flags, pending := none } }
          log := log1 })
    else (Flow.next, { st := s3, log := log1 })
  else (Flow.next, r)

/-- The dispatch traversal `TAILQ_FOREACH_SAFE(ev, &base->events, entries,
base->pending)` from the event `cur` on: while `cur` is not `NULL`, the
successor of `cur` is stored in `base->pending`, the body runs, and `cur`
becomes `base->pending`.  The first component is `none` when the supply of
steps is exhausted before the traversal ends. -/
def dispatch (env : Env) : Nat → Option Nat → Run → Option Flow × Run
  | _, none, r => (some Flow.next, r)
  | 0, some _, r => (none, r)
  | fuel + 1, some ev, r =>
    let next := TAILQ_NEXT r.st.base.events ev
    let r1 : Run :=
      { r with st := { r.st with base := { r.st.base with pending := next } } }
    match service env ev r1 with
    | (Flow.next, r2) => dispatch env fuel r2.st.base.pending r2
    | (fl, r2) => (some fl, r2)

/-- How one iteration of the `while` loop of `sudo_ev_loop_impl` ends: the
function returns `v`, or control is back at the loop test (by `continue`, by
`goto rescan` or by reaching the end of the body), or the supply of steps was
exhausted inside the dispatch traversal. -/
inductive Iter where
  | ret (v : Int)
  | again
  | out

/-- The body of the `while` loop of `sudo_ev_loop_impl` (build, wait,
dispatch, post-pass checks).  `flags` is the argument of the call and `fuel`
the supply of steps of the dispatch traversal. -/
def iteration (env : Env) (flags : Nat) (fuel : Nat) (r : Run) : Iter × Run :=
  let nonblock := ISSET flags SUDO_EVLOOP_NONBLOCK
  let b := build env.NFDBITS r.st
  let res := env.select r.log (b.2.2 + 1) b.1 b.2.1 nonblock
  let log1 := r.log ++ [Call.select (b.2.2 + 1) b.1 b.2.1 nonblock res]
  let r1 : Run :=
    { st := { r.st with base := { r.st.base with
                readfds := res.readfds
                writefds := res.writefds } }
      log := log1 }
  if res.nready = -1 then
    if res.errno = env.EINTR ∨ res.errno = env.ENOMEM then (Iter.again, r1)
    else (Iter.ret (-1), r1)
  else if res.nready = 0 then
    if (flags &&& (SUDO_EVLOOP_ONCE ||| SUDO_EVLOOP_NONBLOCK)) != 0 then (Iter.ret 0, r1)
    else (Iter.again, r1)
  else
    match dispatch env fuel (TAILQ_FIRST r1.st.base.events) r1 with
    | (none, r2) => (Iter.out, r2)
    | (some Flow.done, r2) => (Iter.ret 0, r2)
    | (some Flow.rescan, r2) => (Iter.again, r2)
    | (some Flow.next, r2) =>
      let r3 : Run :=
        { r2 with st := { r2.st with base := { r2.st.base with pending := none } } }
      if ISSET r3.st.base.flags SUDO_EVBASE_LOOPEXIT then
        let flags1 := r3.st.base.flags ||| SUDO_EVBASE_GOT_EXIT
        (Iter.ret 0,
          { r3 with st := { r3.st with base := { r3.st.base with flags := flags1 } } })
      else if (flags &&& (SUDO_EVLOOP_ONCE ||| SUDO_EVLOOP_NONBLOCK)) != 0 then
        (Iter.ret 0, r3)
      else (Iter.again, r3)

/-- The function `sudo_ev_loop_impl`.  `flags` is the argument of the call;
the first component of the result is the value returned, or `none` when the
supply of iterations is exhausted before the function returns.  The test of
the `while` loop comes first whatever the supply, so that a run that finds no
event registered returns 0 without any. -/
def sudo_ev_loop_impl (env : Env) (flags : Nat) : Nat → Run → Option Int × Run
  | 0, r => if r.st.base.nevents = 0 then (some 0, r) else (none, r)
  | fuel + 1, r =>
    if r.st.base.nevents = 0 then (some 0, r)
    else
      match iteration env flags fuel r with
      | (Iter.ret v, r1) => (some v, r1)
      | (Iter.again, r1) => sudo_ev_loop_impl env flags fuel r1
      | (Iter.out, r1) => (none, r1)

/-! ## Notions used in the statements -/

/-- The run in which `p` has been stored in `base->pending`. -/
def with_pending (r : Run) (p : Option Nat) : Run :=
  { r with st := { r.st with base := { r.st.base with pending := p } } }

/-- The memory handed to the callback of the event at `ev` when it fires from
memory `s`: an event without `SUDO_EV_PERSIST` has been marked with
`SUDO_EV_DELETE`. -/
def entry (ev : Nat) (s : State) : State :=
  if !ISSET (s.evs ev).events SUDO_EV_PERSIST then
    let e := s.evs ev
    let marked : sudo_event := { e with events := SET e.events SUDO_EV_DELETE }
    let evs := Function.update s.evs ev marked
    { s with evs := evs }
  else s

/-- The memory when the callback of the event at `ev`, fired from memory `s`,
returns. -/
def returned (env : Env) (ev : Nat) (s : State) : State :=
  env.callback (s.evs ev).callback (s.evs ev).fd (fired env.NFDBITS (s.evs ev) s.base)
    (s.evs ev).closure (entry ev s)

/-- The memory after the callback of the event at `ev` has returned and the
loop has unregistered the event if it is marked with `SUDO_EV_DELETE`. -/
def settled (env : Env) (ev : Nat) (s : State) : State :=
  if ISSET ((returned env ev s).evs ev).events SUDO_EV_DELETE then
    (sudo_ev_del env.NFDBITS (returned env ev s) ev).2
  else returned env ev s

/-- The log entry of the invocation of the event at `ev` fired from memory `s`. -/
def invocation (env : Env) (ev : Nat) (s : State) : Call :=
  Call.callback ev (s.evs ev).fd (fired env.NFDBITS (s.evs ev) s.base) (s.evs ev).closure
    (entry ev s)

/-- The memory after the loop has recorded a break: `SUDO_EVBASE_GOT_BREAK` is
set and `base->pending` is `NULL`. -/
def broken (s : State) : State :=
  { s with base := { s.base with
      flags := s.base.flags ||| SUDO_EVBASE_GOT_BREAK
      pending := none } }

/-- The memory after the loop has honoured a continue request:
`SUDO_EVBASE_LOOPCONT` is cleared and `base->pending` is `NULL`. -/
def resumed (s : State) : State :=
  { s with base := { s.base with
      flags := CLR s.base.flags SUDO_EVBASE_LOOPCONT
      pending := none } }

/-- The answer of `select` to the wait of an iteration started in run `r`. -/
def answer (env : Env) (flags : Nat) (r : Run) : SelectResult :=
  env.select r.log ((build env.NFDBITS r.st).2.2 + 1) (build env.NFDBITS r.st).1
    (build env.NFDBITS r.st).2.1 (ISSET flags SUDO_EVLOOP_NONBLOCK)

/-- The log entry of the wait of an iteration started in run `r`. -/
def wait_call (env : Env) (flags : Nat) (r : Run) : Call :=
  Call.select ((build env.NFDBITS r.st).2.2 + 1) (build env.NFDBITS r.st).1
    (build env.NFDBITS r.st).2.1 (ISSET flags SUDO_EVLOOP_NONBLOCK) (answer env flags r)

/-- The run right after the wait of an iteration started in run `r`: the two
sets are what `select` left in them and the call is logged. -/
def waited (env : Env) (flags : Nat) (r : Run) : Run :=
  { st := { r.st with base := { r.st.base with
              readfds := (answer env flags r).readfds
              writefds := (answer env flags r).writefds } }
    log := r.log ++ [Call.select ((build env.NFDBITS r.st).2.2 + 1) (build env.NFDBITS r.st).1
              (build env.NFDBITS r.st).2.1 (ISSET flags SUDO_EVLOOP_NONBLOCK)
              (answer env flags r)] }

/-- The memory when the callback logged in a log entry returns (`none` for a
call of `select`). -/
def Call.after (env : Env) : Call → Option State
  | Call.select _ _ _ _ _ => none
  | Call.callback ev fd what closure mem =>
    some (env.callback (mem.evs ev).callback fd what closure mem)

/-- The log entry is an invocation whose callback returns with
`SUDO_EVBASE_LOOPBREAK` set. -/
def asks_break (env : Env) (c : Call) : Bool :=
  match Call.after env c with
  | some s => ISSET s.base.flags SUDO_EVBASE_LOOPBREAK
  | none => false

/-- The log entry is an invocation whose callback returns with
`SUDO_EVBASE_LOOPCONT` set and `SUDO_EVBASE_LOOPBREAK` clear. -/
def asks_continue (env : Env) (c : Call) : Bool :=
  match Call.after env c with
  | some s => !ISSET s.base.flags SUDO_EVBASE_LOOPBREAK && ISSET s.base.flags SUDO_EVBASE_LOOPCONT
  | none => false

/-- The log entry is a call of `select` that returned -1 with an `errno` other
than `EINTR` and `ENOMEM`. -/
def fatal_wait (env : Env) : Call → Bool
  | Call.select _ _ _ _ res =>
    decide (res.nready = -1) && !decide (res.errno = env.EINTR) && !decide (res.errno = env.ENOMEM)
  | Call.callback _ _ _ _ _ => false

/-- The log entry is the invocation of a callback. -/
def is_callback : Call → Bool
  | Call.select _ _ _ _ _ => false
  | Call.callback _ _ _ _ _ => true

/-- The invocations of a log in order: address of the event, descriptor and
`what` passed. -/
def invocations : List Call → List (Nat × Int × Nat)
  | [] => []
  | Call.select _ _ _ _ _ :: l => invocations l
  | Call.callback ev fd what _ _ :: l => (ev, fd, what) :: invocations l

/-- The number of calls of `select` in a log. -/
def waits : List Call → Nat
  | [] => 0
  | Call.select _ _ _ _ _ :: l => waits l + 1
  | Call.callback _ _ _ _ _ :: l => waits l

/-- What P1 says of one log entry: the `what` passed to a callback is not
zero, is the union of the read interest of the event if its descriptor is in
the read set and of its write interest if its descriptor is in the write set,
lies within the read and write interest of the event, and has neither
`SUDO_EV_PERSIST` nor `SUDO_EV_DELETE`; the descriptor passed is the one of
the event. -/
def mask_ok (NFDBITS : Nat) : Call → Prop
  | Call.select _ _ _ _ _ => True
  | Call.callback ev fd what _ mem =>
    what ≠ 0 ∧
    what =
      ((if FD_ISSET NFDBITS (mem.evs ev).fd mem.base.readfds
          then (mem.evs ev).events &&& SUDO_EV_READ else 0) |||
       (if FD_ISSET NFDBITS (mem.evs ev).fd mem.base.writefds
          then (mem.evs ev).events &&& SUDO_EV_WRITE else 0)) ∧
    what &&& ((mem.evs ev).events &&& (SUDO_EV_READ ||| SUDO_EV_WRITE)) = what ∧
    what &&& (SUDO_EV_PERSIST ||| SUDO_EV_DELETE) = 0 ∧
    fd = (mem.evs ev).fd

/-- The answer of `select` is a failure other than `EINTR` and `ENOMEM`. -/
def fatal_answer (env : Env) (res : SelectResult) : Prop :=
  res.nready = -1 ∧ res.errno ≠ env.EINTR ∧ res.errno ≠ env.ENOMEM

instance (env : Env) (res : SelectResult) : Decidable (fatal_answer env res) := by
  unfold fatal_answer; infer_instance


/-! ## Concrete scenarios -/

/-- The callbacks of the scenarios.  Each counts its invocations in the
memory of the program; the callback at pointer 1 requests a break, the one at
2 an exit, the one at 3 a continue, any other does nothing else. -/
def scenario_callback (cb : Nat) (_fd : Int) (_what : Nat) (_closure : Nat) (s : State) :
    State :=
  let user := s.user + 1
  let flags :=
    if cb = 1 then s.base.flags ||| SUDO_EVBASE_LOOPBREAK
    else if cb = 2 then s.base.flags ||| SUDO_EVBASE_LOOPEXIT
    else if cb = 3 then s.base.flags ||| SUDO_EVBASE_LOOPCONT
    else s.base.flags
  { s with base := { s.base with flags := flags }, user := user }

/-- A `select` that times out: it returns 0 and leaves both sets empty. -/
def timeout_answer (rs ws : fd_set) : SelectResult :=
  { nready := 0, errno := 0, readfds := rs.map (fun _ => 0), writefds := ws.map (fun _ => 0) }

/-- A `select` that follows a script: the call number `k` of a run gets the
answer number `k` of the script, and the calls after the end of the script
time out. -/
def scripted (answers : List SelectResult) (log : List Call) (_nfds : Int) (rs ws : fd_set)
    (_nonblock : Bool) : SelectResult :=
  (answers.get? (waits log)).getD (timeout_answer rs ws)

/-- The surroundings of the scenarios: 64-bit words, `EINTR` is 4 and
`ENOMEM` is 12. -/
def scenario_env (answers : List SelectResult) : Env :=
  { NFDBITS := 64, EINTR := 4, ENOMEM := 12, select := scripted answers,
    callback := scenario_callback }

/-- Event records laid out at the addresses 0, 1, 2, ... -/
def heap (l : List sudo_event) (a : Nat) : sudo_event :=
  l.getD a { fd := 0, events := 0, callback := 0, closure := 0 }

/-- A base with one word per set, holding the events at the addresses given,
before any run. -/
def scenario_base (events : List Nat) : sudo_event_base :=
  { events := events, pending := none, readfds := [0], writefds := [0], maxfd := 63,
    nevents := events.length, flags := 0 }

/-- The start of a run on such a base. -/
def scenario (l : List sudo_event) (events : List Nat) : Run :=
  { st := { base := scenario_base events, evs := heap l, user := 0 }, log := [] }

/-- A run on a base without events in which an exit and a break are already
requested. -/
def empty_run : Run :=
  { st := { base := { scenario_base [] with
                flags := SUDO_EVBASE_LOOPEXIT ||| SUDO_EVBASE_LOOPBREAK },
            evs := heap [], user := 0 },
    log := [] }

/-- One READ event without `SUDO_EV_PERSIST` on descriptor 3, at address 0. -/
def one_shot_reader : Run :=
  scenario [{ fd := 3, events := SUDO_EV_READ, callback := 0, closure := 7 }] [0]

/-- The answer of `select` that reports descriptor 3 readable. -/
def fd3_readable : SelectResult :=
  { nready := 1, errno := 0, readfds := [8], writefds := [0] }

/-- The answer of `select` that fails with `errno` 9 (`EBADF`). -/
def wait_fails : SelectResult :=
  { nready := -1, errno := 9, readfds := [8], writefds := [0] }

/-- No entry of the list is an invocation whose callback returns with a break
or a continue requested. -/
def quiet (env : Env) (l : List Call) : Prop :=
  ∀ c ∈ l, asks_break env c = false ∧ asks_continue env c = false

/-- Scenario C: two READ events on the descriptors 3 and 4; the callback of
the first requests a break. -/
def two_readers_first_breaks : Run :=
  scenario [{ fd := 3, events := SUDO_EV_READ, callback := 1, closure := 0 },
            { fd := 4, events := SUDO_EV_READ, callback := 0, closure := 0 }] [0, 1]

/-- The answer of `select` that reports the descriptors 3 and 4 readable. -/
def fd3_fd4_readable : SelectResult :=
  { nready := 2, errno := 0, readfds := [24], writefds := [0] }

/-- Scenario D: one READ event with `SUDO_EV_PERSIST` on descriptor 3 whose
callback requests a continue. -/
def persistent_reader_continues : Run :=
  scenario [{ fd := 3, events := SUDO_EV_READ ||| SUDO_EV_PERSIST, callback := 3,
              closure := 0 }] [0]

/-- The callback of the event at `ev`, fired from memory `s`, leaves the
registration alone: it returns with the queue, `nevents`, the cursor and the
mask of the event as they were when it was entered. -/
def leaves_registration (env : Env) (ev : Nat) (s : State) : Prop :=
  (returned env ev s).base.events = s.base.events ∧
  (returned env ev s).base.nevents = s.base.nevents ∧
  (returned env ev s).base.pending = s.base.pending ∧
  ((returned env ev s).evs ev).events = ((entry ev s).evs ev).events

instance (env : Env) (ev : Nat) (s : State) : Decidable (leaves_registration env ev s) := by
  unfold leaves_registration; infer_instance

/-- No callback adds an event to the queue, removes one from it or moves the
cursor. -/
def keeps_queue (env : Env) : Prop :=
  ∀ cb fd what closure s,
    (env.callback cb fd what closure s).base.events = s.base.events ∧
    (env.callback cb fd what closure s).base.pending = s.base.pending

/-- Two READ events with `SUDO_EV_PERSIST` on the descriptors 3 and 4; the
callback of the first requests an exit. -/
def two_readers_first_exits : Run :=
  scenario [{ fd := 3, events := SUDO_EV_READ ||| SUDO_EV_PERSIST, callback := 2, closure := 0 },
            { fd := 4, events := SUDO_EV_READ ||| SUDO_EV_PERSIST, callback := 0, closure := 0 }]
    [0, 1]

/-- Scenario B: one READ event with `SUDO_EV_PERSIST` on descriptor 3, at
address 0, whose callback makes no request. -/
def persistent_reader : Run :=
  scenario [{ fd := 3, events := SUDO_EV_READ ||| SUDO_EV_PERSIST, callback := 0,
              closure := 0 }] [0]

/-- One READ event without `SUDO_EV_PERSIST` on descriptor 3 whose callback
requests a continue. -/
def one_shot_reader_continues : Run :=
  scenario [{ fd := 3, events := SUDO_EV_READ, callback := 3, closure := 0 }] [0]

/-- A READ event and a WRITE event on the same descriptor 3, at the addresses
0 and 1, both without `SUDO_EV_PERSIST`; their callbacks make no request. -/
def reader_and_writer : Run :=
  scenario [{ fd := 3, events := SUDO_EV_READ, callback := 0, closure := 0 },
            { fd := 3, events := SUDO_EV_WRITE, callback := 0, closure := 0 }] [0, 1]

/-- The answer of `select` that reports descriptor 3 readable and writable. -/
def fd3_readable_writable : SelectResult :=
  { nready := 2, errno := 0, readfds := [8], writefds := [8] }

/-- The intersection of the interest of an event record with the readiness
held in a read set and a write set, as P1 words it. -/
def intersection (NFDBITS : Nat) (e : sudo_event) (rs ws : fd_set) : Nat :=
  (if FD_ISSET NFDBITS e.fd rs then e.events &&& SUDO_EV_READ else 0) |||
  (if FD_ISSET NFDBITS e.fd ws then e.events &&& SUDO_EV_WRITE else 0)

/-- The sets `rs` and `ws` are the sets `rs0` and `ws0` from which some
descriptors may have been cleared, each from both sets at once. -/
def faded (NFDBITS : Nat) (rs0 ws0 rs ws : fd_set) : Prop :=
  ∀ d : Int,
    (FD_ISSET NFDBITS d rs = FD_ISSET NFDBITS d rs0 ∧
      FD_ISSET NFDBITS d ws = FD_ISSET NFDBITS d ws0) ∨
    (FD_ISSET NFDBITS d rs = false ∧ FD_ISSET NFDBITS d ws = false)

/-- No callback changes the two descriptor sets of the base other than by
clearing descriptors from both, which is what deleting an event or growing
the sets does. -/
def spares_sets (env : Env) : Prop :=
  ∀ cb fd what closure s,
    faded env.NFDBITS s.base.readfds s.base.writefds
      (env.callback cb fd what closure s).base.readfds
      (env.callback cb fd what closure s).base.writefds

/-- The answer of the latest call of `select` in a log read after `cur`. -/
def last_answer : Option SelectResult → List Call → Option SelectResult
  | cur, [] => cur
  | _, Call.select _ _ _ _ res :: l => last_answer (some res) l
  | cur, Call.callback _ _ _ _ _ :: l => last_answer cur l

/-- Every invocation of the log passes a `what` that is the intersection of
the interest of its event with the sets returned by the latest call of
`select` before it (`cur` holds the answer of the latest call before the
log). -/
def follows_answer (NFDBITS : Nat) : Option SelectResult → List Call → Prop
  | _, [] => True
  | _, Call.select _ _ _ _ res :: l => follows_answer NFDBITS (some res) l
  | none, Call.callback _ _ _ _ _ :: l => follows_answer NFDBITS none l
  | some res, Call.callback ev _ what _ mem :: l =>
    what = intersection NFDBITS (mem.evs ev) res.readfds res.writefds ∧
      follows_answer NFDBITS (some res) l

/-- The answer of `select` is a failure with `errno` equal to `EINTR` or to
`ENOMEM`. -/
def transient_answer (env : Env) (res : SelectResult) : Prop :=
  res.nready = -1 ∧ (res.errno = env.EINTR ∨ res.errno = env.ENOMEM)

instance (env : Env) (res : SelectResult) : Decidable (transient_answer env res) := by
  unfold transient_answer; infer_instance

/-- The answer of `select` that fails with `errno` 4 (`EINTR`) and leaves both
sets of one word empty. -/
def wait_interrupted : SelectResult :=
  { nready := -1, errno := 4, readfds := [0], writefds := [0] }

/-- A base with one word per set in which descriptor 3 is marked in the read
set and the descriptors 3 and 4 in the write set. -/
def marked_base : sudo_event_base :=
  { events := [0, 1], pending := none, readfds := [8], writefds := [24], maxfd := 63,
    nevents := 2, flags := SUDO_EVBASE_LOOPEXIT }

/-- An event record on descriptor 3. -/
def fd3_event : sudo_event :=
  { fd := 3, events := SUDO_EV_READ ||| SUDO_EV_WRITE, callback := 0, closure := 0 }

/-- An event record on descriptor 64, the first descriptor beyond one word of
64 bits. -/
def fd64_event : sudo_event :=
  { fd := 64, events := SUDO_EV_READ, callback := 0, closure := 0 }

/-- Modelled from the spec: `sudo_ev_add` of `event.c`, which is not among the
sources (`int sudo_ev_add(struct sudo_event_base *head, struct sudo_event *ev,
bool tohead)` in `sudo_event.h`).  Add lets the backend grow its storage
(`sudo_ev_add_impl`); "on success the Event is appended to the Event
collection (at the head if the caller requests priority scheduling, otherwise
at the tail), and the registration count increments". -/
def sudo_ev_add (NFDBITS : Nat) (s : State) (ev : Nat) (tohead : Bool) : Int × State :=
  let base1 := (sudo_ev_add_impl NFDBITS s.base (s.evs ev)).2
  let events := if tohead then ev :: s.base.events else s.base.events ++ [ev]
  (0, { s with base := { base1 with events := events } })

/-- A registration operation on a base: add the event at an address, at the
head or at the tail, or delete the event at an address. -/
inductive Op where
  | add (ev : Nat) (tohead : Bool)
  | del (ev : Nat)

/-- The memory after a registration operation. -/
def Op.apply (NFDBITS : Nat) (s : State) : Op → State
  | Op.add ev tohead => (sudo_ev_add NFDBITS s ev tohead).2
  | Op.del ev => (sudo_ev_del NFDBITS s ev).2

/-- The memory after a sequence of registration operations. -/
def run_ops (NFDBITS : Nat) (s : State) (ops : List Op) : State :=
  ops.foldl (Op.apply NFDBITS) s

/-- Every operation of the sequence, at the time it is made, adds an event
that is not in the collection or deletes an event that is in it. -/
def admissible (NFDBITS : Nat) : State → List Op → Prop
  | _, [] => True
  | s, Op.add ev tohead :: ops =>
    ev ∉ s.base.events ∧ admissible NFDBITS (Op.apply NFDBITS s (Op.add ev tohead)) ops
  | s, Op.del ev :: ops =>
    ev ∈ s.base.events ∧ admissible NFDBITS (Op.apply NFDBITS s (Op.del ev)) ops

/-- The memory in which the base has just been set up by
`sudo_ev_base_alloc_impl` and its collection is empty; `old` supplies the
flags of the base, `evs` the event records and `user` the rest of the
memory. -/
def fresh (NFDBITS : Nat) (old : sudo_event_base) (evs : Nat → sudo_event) (user : Nat) :
    State :=
  let base := (sudo_ev_base_alloc_impl NFDBITS old).2
  { base := { base with events := [], pending := none }, evs := evs, user := user }

/-- Three event records: a READ event and a WRITE event on the same
descriptor 3, and a READ event on descriptor 64. -/
def three_events : List sudo_event :=
  [{ fd := 3, events := SUDO_EV_READ, callback := 0, closure := 0 },
   { fd := 3, events := SUDO_EV_WRITE, callback := 0, closure := 0 },
   { fd := 64, events := SUDO_EV_READ, callback := 0, closure := 0 }]

/-- A sequence of registrations on these records: the two events on
descriptor 3 are added, the second at the head, the first is deleted, the
event on descriptor 64 is added, and the second is deleted. -/
def five_ops : List Op :=
  [Op.add 0 false, Op.add 1 true, Op.del 0, Op.add 2 false, Op.del 1]

/-- The answer of `select` that reports nothing ready on sets of one word. -/
def nothing_ready : SelectResult :=
  { nready := 0, errno := 0, readfds := [0], writefds := [0] }

/-- One READ event with `SUDO_EV_PERSIST` on descriptor 3 whose callback makes
no request, on a base in which an exit is already requested
(`SUDO_EVBASE_LOOPEXIT` is set) when the loop is entered. -/
def exit_requested : Run :=
  { st := { base := { scenario_base [0] with flags := SUDO_EVBASE_LOOPEXIT },
            evs := heap [{ fd := 3, events := SUDO_EV_READ ||| SUDO_EV_PERSIST, callback := 0,
                           closure := 0 }],
            user := 0 },
    log := [] }

/-- Three READ events on the descriptors 3, 4 and 5: the first is without
`SUDO_EV_PERSIST` and its callback requests a break; the two others have
`SUDO_EV_PERSIST` and their callbacks make no request. -/
def three_readers_first_breaks : Run :=
  scenario [{ fd := 3, events := SUDO_EV_READ, callback := 1, closure := 0 },
            { fd := 4, events := SUDO_EV_READ ||| SUDO_EV_PERSIST, callback := 0, closure := 0 },
            { fd := 5, events := SUDO_EV_READ ||| SUDO_EV_PERSIST, callback := 0, closure := 0 }]
    [0, 1, 2]

/-- The answer of `select` that reports the descriptors 3, 4 and 5 readable. -/
def fd3_fd4_fd5_readable : SelectResult :=
  { nready := 3, errno := 0, readfds := [56], writefds := [0] }

/-- The ways `sudo_ev_loop_impl` returns: the loop test finds `nevents == 0`
(line 130), `select` fails for good (`return -1`, line 160), a break is seen
after a callback (`goto done`, line 182), an exit is seen at the end of the
dispatch traversal (`goto done`, line 196), or one of the run flags
`SUDO_EVLOOP_ONCE` and `SUDO_EVLOOP_NONBLOCK` ends the loop (`break`, line
201). -/
inductive Stop where
  | empty
  | error
  | broke
  | exited
  | once
  deriving DecidableEq, Repr

/-- The way the iteration started in run `r` makes the function return, if it
does (`none` when the loop goes on or the supply is exhausted). -/
def iteration_stop (env : Env) (flags : Nat) (fuel : Nat) (r : Run) : Option Stop :=
  if (answer env flags r).nready = -1 then
    if (answer env flags r).errno = env.EINTR ∨ (answer env flags r).errno = env.ENOMEM then none
    else some Stop.error
  else if (answer env flags r).nready = 0 then
    if (flags &&& (SUDO_EVLOOP_ONCE ||| SUDO_EVLOOP_NONBLOCK)) != 0 then some Stop.once
    else none
  else
    match dispatch env fuel (TAILQ_FIRST (waited env flags r).st.base.events)
        (waited env flags r) with
    | (none, _) => none
    | (some Flow.done, _) => some Stop.broke
    | (some Flow.rescan, _) => none
    | (some Flow.next, r2) =>
      if ISSET r2.st.base.flags SUDO_EVBASE_LOOPEXIT then some Stop.exited
      else if (flags &&& (SUDO_EVLOOP_ONCE ||| SUDO_EVLOOP_NONBLOCK)) != 0 then some Stop.once
      else none

/-- The way a run of `sudo_ev_loop_impl` returns (`none` when the supply is
exhausted before it does). -/
def why (env : Env) (flags : Nat) : Nat → Run → Option Stop
  | 0, r => if r.st.base.nevents = 0 then some Stop.empty else none
  | fuel + 1, r =>
    if r.st.base.nevents = 0 then some Stop.empty
    else
      match iteration env flags fuel r with
      | (Iter.ret _, _) => iteration_stop env flags fuel r
      | (Iter.again, r1) => why env flags fuel r1
      | (Iter.out, _) => none

/-- No callback changes `SUDO_EVBASE_GOT_EXIT` or `SUDO_EVBASE_GOT_BREAK` in
`base->flags`. -/
def keeps_outcome (env : Env) : Prop :=
  ∀ cb fd what closure s,
    ISSET (env.callback cb fd what closure s).base.flags SUDO_EVBASE_GOT_EXIT =
      ISSET s.base.flags SUDO_EVBASE_GOT_EXIT ∧
    ISSET (env.callback cb fd what closure s).base.flags SUDO_EVBASE_GOT_BREAK =
      ISSET s.base.flags SUDO_EVBASE_GOT_BREAK

/-- Both `SUDO_EVBASE_GOT_EXIT` and `SUDO_EVBASE_GOT_BREAK` are clear. -/
def no_outcome (s : State) : Prop :=
  ISSET s.base.flags SUDO_EVBASE_GOT_EXIT = false ∧
  ISSET s.base.flags SUDO_EVBASE_GOT_BREAK = false

instance (s : State) : Decidable (no_outcome s) := by
  unfold no_outcome; infer_instance

/-- The value an iteration makes the function return, if it does. -/
def Iter.value : Iter → Option Int
  | Iter.ret v => some v
  | Iter.again => none
  | Iter.out => none

/-- What a way of returning means for the value returned (`none`: not
returned) and for the memory on return, for a run entered with both outcome
flags clear: the value is -1 for a failed wait and 0 otherwise; a break
leaves `SUDO_EVBASE_GOT_BREAK` set, `SUDO_EVBASE_GOT_EXIT` clear and
`SUDO_EVBASE_LOOPBREAK` set; an exit leaves `SUDO_EVBASE_GOT_EXIT` set,
`SUDO_EVBASE_GOT_BREAK` clear and `SUDO_EVBASE_LOOPEXIT` set; every other way
leaves both outcome flags clear; the loop test is left with `nevents == 0`,
and the run flags end the loop only if one of them is set. -/
def accounts_for (flags : Nat) : Option Stop → Option Int → State → Prop
  | none, v, s => v = none ∧ no_outcome s
  | some Stop.empty, v, s => v = some 0 ∧ no_outcome s ∧ s.base.nevents = 0
  | some Stop.error, v, s => v = some (-1) ∧ no_outcome s
  | some Stop.once, v, s =>
    v = some 0 ∧ no_outcome s ∧ (flags &&& (SUDO_EVLOOP_ONCE ||| SUDO_EVLOOP_NONBLOCK)) ≠ 0
  | some Stop.broke, v, s =>
    v = some 0 ∧ ISSET s.base.flags SUDO_EVBASE_GOT_BREAK = true ∧
      ISSET s.base.flags SUDO_EVBASE_GOT_EXIT = false ∧
      ISSET s.base.flags SUDO_EVBASE_LOOPBREAK = true
  | some Stop.exited, v, s =>
    v = some 0 ∧ ISSET s.base.flags SUDO_EVBASE_GOT_EXIT = true ∧
      ISSET s.base.flags SUDO_EVBASE_GOT_BREAK = false ∧
      ISSET s.base.flags SUDO_EVBASE_LOOPEXIT = true

/-- The interest of the live collection in a descriptor, as the specification
words it: some registered event has the descriptor `d` and the interest
`what` (`SUDO_EV_READ` or `SUDO_EV_WRITE`) in its mask. -/
def interested (s : State) (what : Nat) (d : Int) : Prop :=
  ∃ ev ∈ s.base.events, (s.evs ev).fd = d ∧ ISSET (s.evs ev).events what = true

/-- The event has `SUDO_EV_READ` or `SUDO_EV_WRITE` in its mask. -/
def wants_io (e : sudo_event) : Bool :=
  ISSET e.events SUDO_EV_READ || ISSET e.events SUDO_EV_WRITE

/-- The highest descriptor among the registered events with read or write
interest, as the specification words it; 0 if there is none. -/
def highest (s : State) : Int :=
  ((s.base.events.filter (fun ev => wants_io (s.evs ev))).map
    (fun ev => (s.evs ev).fd)).foldl max 0

/-- Both descriptor sets have the number of words that goes with `maxfd`,
`howmany(maxfd + 1, NFDBITS)`: the size `sudo_ev_base_alloc_impl` and
`sudo_ev_add_impl` allocate. -/
def sized (NFDBITS : Nat) (base : sudo_event_base) : Prop :=
  base.readfds.length = (howmany (base.maxfd + 1) NFDBITS).toNat ∧
  base.writefds.length = (howmany (base.maxfd + 1) NFDBITS).toNat

instance (NFDBITS : Nat) (base : sudo_event_base) : Decidable (sized NFDBITS base) := by
  unfold sized; infer_instance

/-- A READ event on descriptor 3, a WRITE event on descriptor 70 and an event
without interest on descriptor 100, on a base of two words per set in which
marks are left over from earlier: descriptor 5 in `readfds`, descriptor 64 in
`writefds`. -/
def stale_marks : Run :=
  { st := { base := { events := [0, 1, 2], pending := none, readfds := [32, 0],
                      writefds := [0, 1], maxfd := 127, nevents := 3, flags := 0 },
            evs := heap [{ fd := 3, events := SUDO_EV_READ, callback := 0, closure := 0 },
                         { fd := 70, events := SUDO_EV_WRITE, callback := 0, closure := 0 },
                         { fd := 100, events := SUDO_EV_PERSIST, callback := 0, closure := 0 }],
            user := 0 },
    log := [] }

/-- The callbacks of a scenario in which events are registered from a
callback: the callback at pointer 4 counts its invocation and adds the event
at address 2 at the tail of the queue (`sudo_ev_add`); the others are those of
`scenario_callback`. -/
def adding_callback (cb : Nat) (fd : Int) (what : Nat) (closure : Nat) (s : State) : State :=
  if cb = 4 then
    let user := s.user + 1
    (sudo_ev_add 64 { s with user := user } 2 false).2
  else scenario_callback cb fd what closure s

/-- The surroundings of that scenario. -/
def adding_env (answers : List SelectResult) : Env :=
  { NFDBITS := 64, EINTR := 4, ENOMEM := 12, select := scripted answers,
    callback := adding_callback }

/-- Two persistent READ events on the descriptors 3 and 4 are registered; the
callback of the first adds a third event, on descriptor `fd`. -/
def reader_adds_event (fd : Int) : Run :=
  scenario [{ fd := 3, events := SUDO_EV_READ ||| SUDO_EV_PERSIST, callback := 4, closure := 0 },
            { fd := 4, events := SUDO_EV_READ ||| SUDO_EV_PERSIST, callback := 0, closure := 0 },
            { fd := fd, events := SUDO_EV_READ ||| SUDO_EV_PERSIST, callback := 0, closure := 0 }]
    [0, 1]

/-- A call of the backend for the event at an address: `sudo_ev_add_impl` or
`sudo_ev_del_impl`. -/
inductive BackendCall where
  | add (ev : Nat)
  | del (ev : Nat)

/-- The event a call of the backend is for. -/
def BackendCall.event : BackendCall → Nat
  | BackendCall.add ev => ev
  | BackendCall.del ev => ev

/-- The base after a call of the backend; `evs` holds the event records. -/
def BackendCall.apply (NFDBITS : Nat) (evs : Nat → sudo_event) (base : sudo_event_base) :
    BackendCall → sudo_event_base
  | BackendCall.add ev => (sudo_ev_add_impl NFDBITS base (evs ev)).2
  | BackendCall.del ev => (sudo_ev_del_impl NFDBITS base (evs ev)).2

/-- The base after a sequence of calls of the backend. -/
def backend_run (NFDBITS : Nat) (evs : Nat → sudo_event) (base : sudo_event_base)
    (calls : List BackendCall) : sudo_event_base :=
  calls.foldl (BackendCall.apply NFDBITS evs) base

/-- The base after `sudo_ev_base_alloc_impl` and a sequence of calls of
`sudo_ev_add_impl` and `sudo_ev_del_impl`; `old` supplies the fields
`sudo_ev_base_alloc_impl` does not assign. -/
def backend_after (NFDBITS : Nat) (old : sudo_event_base) (evs : Nat → sudo_event)
    (calls : List BackendCall) : sudo_event_base :=
  backend_run NFDBITS evs (sudo_ev_base_alloc_impl NFDBITS old).2 calls

/-- The events registered with the backend after a sequence of calls, given
those registered before it: the events added and not deleted since. -/
def registered_after : List Nat → List BackendCall → List Nat
  | reg, [] => reg
  | reg, BackendCall.add ev :: calls => registered_after (ev :: reg) calls
  | reg, BackendCall.del ev :: calls => registered_after (reg.erase ev) calls

/-- The storage invariant of the select backend for a base and the events
registered with it: `maxfd + 1` is a positive multiple of `NFDBITS`, both sets
hold `(maxfd + 1) / NFDBITS` words, and every registered event has
`0 <= fd <= maxfd`. -/
def storage_ok (NFDBITS : Nat) (evs : Nat → sudo_event) (base : sudo_event_base)
    (reg : List Nat) : Prop :=
  (∃ k : Int, 0 < k ∧ base.maxfd + 1 = k * NFDBITS) ∧
  (base.readfds.length : Int) = (base.maxfd + 1) / NFDBITS ∧
  (base.writefds.length : Int) = (base.maxfd + 1) / NFDBITS ∧
  ∀ ev ∈ reg, 0 ≤ (evs ev).fd ∧ (evs ev).fd ≤ base.maxfd

/-- A sequence of calls of the backend on the records of `three_events`: the
two events on descriptor 3 are added, the first is deleted, the event on
descriptor 64 is added, and the second is deleted. -/
def five_calls : List BackendCall :=
  [BackendCall.add 0, BackendCall.add 1, BackendCall.del 0, BackendCall.add 2,
   BackendCall.del 1]

/-- The answer of `select` that fails with `errno` 4 (`EINTR`) and leaves the
descriptors 0 to 7 marked in both sets of one word. -/
def interrupted_with_marks : SelectResult :=
  { nready := -1, errno := 4, readfds := [255], writefds := [255] }

/-- The answer of `select` that reports descriptor 3 writable. -/
def fd3_writable : SelectResult :=
  { nready := 1, errno := 0, readfds := [0], writefds := [8] }

/-- A READ event without `SUDO_EV_PERSIST` and a WRITE event with
`SUDO_EV_PERSIST` on the same descriptor 3, at the addresses 0 and 1; their
callbacks make no request. -/
def reader_and_persistent_writer : Run :=
  scenario [{ fd := 3, events := SUDO_EV_READ, callback := 0, closure := 0 },
            { fd := 3, events := SUDO_EV_WRITE ||| SUDO_EV_PERSIST, callback := 0,
              closure := 0 }] [0, 1]

/-- A READ event and a WRITE event on the same descriptor 3, at the addresses
0 and 1, both without `SUDO_EV_PERSIST`; the callback of the first requests an
exit, the callback of the second makes no request. -/
def exiting_reader_and_writer : Run :=
  scenario [{ fd := 3, events := SUDO_EV_READ, callback := 2, closure := 0 },
            { fd := 3, events := SUDO_EV_WRITE, callback := 0, closure := 0 }] [0, 1]

/-- The environment of the scenarios in which `select` reports descriptor 3
writable, then readable and writable, then writable, and then fails. -/
def writable_then_both : Env :=
  scenario_env [fd3_writable, fd3_readable_writable, fd3_writable, wait_fails]

/-! ## Lemmas on the dispatch body -/

theorem service_idle (env : Env) (ev : Nat) (r : Run)
    (h : fired env.NFDBITS (r.st.evs ev) r.st.base = 0) :
    service env ev r = (Flow.next, r) := by
  simp [service, h]

theorem service_fire (env : Env) (ev : Nat) (r : Run)
    (h : fired env.NFDBITS (r.st.evs ev) r.st.base ≠ 0) :
    service env ev r =
      if ISSET (settled env ev r.st).base.flags SUDO_EVBASE_LOOPBREAK then
        (Flow.done,
          { st := broken (settled env ev r.st), log := r.log ++ [invocation env ev r.st] })
      else if ISSET (settled env ev r.st).base.flags SUDO_EVBASE_LOOPCONT then
        (Flow.rescan,
          { st := resumed (settled env ev r.st), log := r.log ++ [invocation env ev r.st] })
      else (Flow.next, { st := settled env ev r.st, log := r.log ++ [invocation env ev r.st] }) := by
  unfold service
  simp only [bne_iff_ne, ne_eq, h, not_false_eq_true, ↓reduceIte]
  unfold settled returned invocation entry broken resumed
  rfl

theorem service_cases (env : Env) (ev : Nat) (r : Run) :
    (fired env.NFDBITS (r.st.evs ev) r.st.base = 0 ∧ service env ev r = (Flow.next, r)) ∨
    (fired env.NFDBITS (r.st.evs ev) r.st.base ≠ 0 ∧
      ISSET (settled env ev r.st).base.flags SUDO_EVBASE_LOOPBREAK = true ∧
      service env ev r = (Flow.done,
        { st := broken (settled env ev r.st), log := r.log ++ [invocation env ev r.st] })) ∨
    (fired env.NFDBITS (r.st.evs ev) r.st.base ≠ 0 ∧
      ISSET (settled env ev r.st).base.flags SUDO_EVBASE_LOOPBREAK = false ∧
      ISSET (settled env ev r.st).base.flags SUDO_EVBASE_LOOPCONT = true ∧
      service env ev r = (Flow.rescan,
        { st := resumed (settled env ev r.st), log := r.log ++ [invocation env ev r.st] })) ∨
    (fired env.NFDBITS (r.st.evs ev) r.st.base ≠ 0 ∧
      ISSET (settled env ev r.st).base.flags SUDO_EVBASE_LOOPBREAK = false ∧
      ISSET (settled env ev r.st).base.flags SUDO_EVBASE_LOOPCONT = false ∧
      service env ev r = (Flow.next,
        { st := settled env ev r.st, log := r.log ++ [invocation env ev r.st] })) := by
  by_cases h : fired env.NFDBITS (r.st.evs ev) r.st.base = 0
  · exact Or.inl ⟨h, service_idle env ev r h⟩
  · right
    rw [service_fire env ev r h]
    cases hb : ISSET (settled env ev r.st).base.flags SUDO_EVBASE_LOOPBREAK
    · cases hc : ISSET (settled env ev r.st).base.flags SUDO_EVBASE_LOOPCONT
      · right; right; simp [h]
      · right; left; simp [h]
    · left; simp [h]

theorem dispatch_none (env : Env) (fuel : Nat) (r : Run) :
    dispatch env fuel none r = (some Flow.next, r) := by
  cases fuel <;> rfl

theorem dispatch_zero (env : Env) (ev : Nat) (r : Run) :
    dispatch env 0 (some ev) r = (none, r) := rfl

theorem dispatch_succ (env : Env) (fuel ev : Nat) (r : Run) :
    dispatch env (fuel + 1) (some ev) r =
      match service env ev (with_pending r (TAILQ_NEXT r.st.base.events ev)) with
      | (Flow.next, r2) => dispatch env fuel r2.st.base.pending r2
      | (fl, r2) => (some fl, r2) := rfl

theorem iteration_eq (env : Env) (flags fuel : Nat) (r : Run) :
    iteration env flags fuel r =
      if (answer env flags r).nready = -1 then
        if (answer env flags r).errno = env.EINTR ∨ (answer env flags r).errno = env.ENOMEM then
          (Iter.again, waited env flags r)
        else (Iter.ret (-1), waited env flags r)
      else if (answer env flags r).nready = 0 then
        if (flags &&& (SUDO_EVLOOP_ONCE ||| SUDO_EVLOOP_NONBLOCK)) != 0 then
          (Iter.ret 0, waited env flags r)
        else (Iter.again, waited env flags r)
      else
        match dispatch env fuel (TAILQ_FIRST (waited env flags r).st.base.events)
            (waited env flags r) with
        | (none, r2) => (Iter.out, r2)
        | (some Flow.done, r2) => (Iter.ret 0, r2)
        | (some Flow.rescan, r2) => (Iter.again, r2)
        | (some Flow.next, r2) =>
          if ISSET r2.st.base.flags SUDO_EVBASE_LOOPEXIT then
            (Iter.ret 0,
              { r2 with st := { r2.st with base := { r2.st.base with
                  pending := none
                  flags := r2.st.base.flags ||| SUDO_EVBASE_GOT_EXIT } } })
          else if (flags &&& (SUDO_EVLOOP_ONCE ||| SUDO_EVLOOP_NONBLOCK)) != 0 then
            (Iter.ret 0, with_pending r2 none)
          else (Iter.again, with_pending r2 none) := rfl

theorem loop_empty (env : Env) (flags fuel : Nat) (r : Run) (h : r.st.base.nevents = 0) :
    sudo_ev_loop_impl env flags fuel r = (some 0, r) := by
  cases fuel <;> simp [sudo_ev_loop_impl, h]

theorem loop_zero (env : Env) (flags : Nat) (r : Run) (h : r.st.base.nevents ≠ 0) :
    sudo_ev_loop_impl env flags 0 r = (none, r) := by
  simp [sudo_ev_loop_impl, h]

theorem loop_succ (env : Env) (flags fuel : Nat) (r : Run) (h : r.st.base.nevents ≠ 0) :
    sudo_ev_loop_impl env flags (fuel + 1) r =
      match iteration env flags fuel r with
      | (Iter.ret v, r1) => (some v, r1)
      | (Iter.again, r1) => sudo_ev_loop_impl env flags fuel r1
      | (Iter.out, r1) => (none, r1) := by
  rw [sudo_ev_loop_impl]
  simp only [h, ↓reduceIte]

theorem and_and_mask (x a b : Nat) : (x &&& a) &&& (x &&& b) = x &&& (a &&& b) := by
  apply Nat.eq_of_testBit_eq
  intro i
  simp only [Nat.testBit_and]
  cases x.testBit i <;> simp

theorem or_mask_and (x d a : Nat) (h : d &&& a = 0) : (x ||| d) &&& a = x &&& a := by
  apply Nat.eq_of_testBit_eq
  intro i
  have h1 : (d &&& a).testBit i = false := by rw [h]; simp
  simp only [Nat.testBit_and, Nat.testBit_or] at h1 ⊢
  cases hx : x.testBit i <;> cases hd : d.testBit i <;> cases ha : a.testBit i <;> simp_all

theorem entry_base (ev : Nat) (s : State) : (entry ev s).base = s.base := by
  unfold entry; split <;> rfl

theorem entry_fd (ev : Nat) (s : State) : ((entry ev s).evs ev).fd = (s.evs ev).fd := by
  unfold entry; split <;> simp

theorem entry_callback (ev : Nat) (s : State) :
    ((entry ev s).evs ev).callback = (s.evs ev).callback := by
  unfold entry; split <;> simp

theorem entry_closure (ev : Nat) (s : State) :
    ((entry ev s).evs ev).closure = (s.evs ev).closure := by
  unfold entry; split <;> simp

theorem entry_events (ev : Nat) (s : State) :
    ((entry ev s).evs ev).events =
      if ISSET (s.evs ev).events SUDO_EV_PERSIST then (s.evs ev).events
      else (s.evs ev).events ||| SUDO_EV_DELETE := by
  unfold entry
  cases h : ISSET (s.evs ev).events SUDO_EV_PERSIST <;> simp [SET]

theorem entry_events_and (ev : Nat) (s : State) (a : Nat) (h : SUDO_EV_DELETE &&& a = 0) :
    ((entry ev s).evs ev).events &&& a = (s.evs ev).events &&& a := by
  rw [entry_events]
  split
  · rfl
  · exact or_mask_and _ _ _ h

theorem fired_eq (N : Nat) (e : sudo_event) (b : sudo_event_base) :
    fired N e b =
      ((if FD_ISSET N e.fd b.readfds then e.events &&& SUDO_EV_READ else 0) |||
       (if FD_ISSET N e.fd b.writefds then e.events &&& SUDO_EV_WRITE else 0)) := by
  unfold fired
  cases FD_ISSET N e.fd b.readfds <;> cases FD_ISSET N e.fd b.writefds <;> simp

theorem fired_mask (N : Nat) (e : sudo_event) (b : sudo_event_base) :
    ∃ m, m &&& (SUDO_EV_READ ||| SUDO_EV_WRITE) = m ∧ fired N e b = e.events &&& m := by
  rw [fired_eq]
  cases FD_ISSET N e.fd b.readfds <;> cases FD_ISSET N e.fd b.writefds
  · exact ⟨0, by decide, by simp⟩
  · exact ⟨SUDO_EV_WRITE, by decide, by simp⟩
  · exact ⟨SUDO_EV_READ, by decide, by simp⟩
  · exact ⟨SUDO_EV_READ ||| SUDO_EV_WRITE, by decide, by
      simp [Nat.and_or_distrib_left]⟩

theorem mask_ok_invocation (env : Env) (ev : Nat) (s : State)
    (h : fired env.NFDBITS (s.evs ev) s.base ≠ 0) :
    mask_ok env.NFDBITS (invocation env ev s) := by
  unfold invocation mask_ok
  simp only [entry_base, entry_fd]
  refine ⟨h, ?_, ?_, ?_, trivial⟩
  · rw [entry_events_and ev s _ (by decide), entry_events_and ev s _ (by decide)]
    exact fired_eq _ _ _
  · obtain ⟨m, hm, hf⟩ := fired_mask env.NFDBITS (s.evs ev) s.base
    rw [entry_events_and ev s _ (by decide), hf, and_and_mask, hm]
  · obtain ⟨m, hm, hf⟩ := fired_mask env.NFDBITS (s.evs ev) s.base
    rw [hf, Nat.and_assoc, ← hm, Nat.and_assoc]
    have : (SUDO_EV_READ ||| SUDO_EV_WRITE) &&& (SUDO_EV_PERSIST ||| SUDO_EV_DELETE) = 0 := by
      decide
    rw [this]; simp

theorem with_pending_log (r : Run) (p : Option Nat) : (with_pending r p).log = r.log := rfl

theorem dispatch_log_inv (env : Env) (P : Call → Prop)
    (hP : ∀ ev s, fired env.NFDBITS (s.evs ev) s.base ≠ 0 → P (invocation env ev s)) :
    ∀ fuel cur r, (∀ c ∈ r.log, P c) → ∀ c ∈ (dispatch env fuel cur r).2.log, P c := by
  intro fuel
  induction fuel with
  | zero =>
    intro cur r hr
    cases cur with
    | none => simpa [dispatch_none] using hr
    | some ev => simpa [dispatch_zero] using hr
  | succ n ih =>
    intro cur r hr
    cases cur with
    | none => simpa [dispatch_none] using hr
    | some ev =>
      rw [dispatch_succ]
      have hnew : ∀ c ∈ r.log ++ [invocation env ev
          (with_pending r (TAILQ_NEXT r.st.base.events ev)).st], 
          fired env.NFDBITS ((with_pending r (TAILQ_NEXT r.st.base.events ev)).st.evs ev)
            (with_pending r (TAILQ_NEXT r.st.base.events ev)).st.base ≠ 0 → P c := by
        intro c hc h0
        rcases List.mem_append.1 hc with h | h
        · exact hr c h
        · rw [List.mem_singleton.1 h]; exact hP _ _ h0
      rcases service_cases env ev (with_pending r (TAILQ_NEXT r.st.base.events ev)) with
        ⟨_, hs⟩ | ⟨h0, _, hs⟩ | ⟨h0, _, _, hs⟩ | ⟨h0, _, _, hs⟩
      · rw [hs]; exact ih _ _ hr
      · rw [hs]; exact fun c hc => hnew c hc h0
      · rw [hs]; exact fun c hc => hnew c hc h0
      · rw [hs]; exact ih _ _ (fun c hc => hnew c hc h0)

theorem iteration_log_inv (env : Env) (flags : Nat) (P : Call → Prop)
    (hP : ∀ ev s, fired env.NFDBITS (s.evs ev) s.base ≠ 0 → P (invocation env ev s))
    (hS : ∀ nfds rs ws nb res, P (Call.select nfds rs ws nb res)) :
    ∀ fuel r, (∀ c ∈ r.log, P c) → ∀ c ∈ (iteration env flags fuel r).2.log, P c := by
  intro fuel r hr
  have hw : ∀ c ∈ (waited env flags r).log, P c := by
    intro c hc
    rcases List.mem_append.1 hc with h | h
    · exact hr c h
    · rw [List.mem_singleton.1 h]; exact hS _ _ _ _ _
  have hd := dispatch_log_inv env P hP fuel (TAILQ_FIRST (waited env flags r).st.base.events)
    (waited env flags r) hw
  rw [iteration_eq]
  split
  · split <;> exact hw
  · split
    · split <;> exact hw
    · split
      · next r2 heq => rw [heq] at hd; exact hd
      · next r2 heq => rw [heq] at hd; exact hd
      · next r2 heq => rw [heq] at hd; exact hd
      · next r2 heq =>
        rw [heq] at hd
        split
        · exact hd
        · split <;> exact hd

theorem loop_log_inv (env : Env) (flags : Nat) (P : Call → Prop)
    (hP : ∀ ev s, fired env.NFDBITS (s.evs ev) s.base ≠ 0 → P (invocation env ev s))
    (hS : ∀ nfds rs ws nb res, P (Call.select nfds rs ws nb res)) :
    ∀ fuel r, (∀ c ∈ r.log, P c) → ∀ c ∈ (sudo_ev_loop_impl env flags fuel r).2.log, P c := by
  intro fuel
  induction fuel with
  | zero =>
    intro r hr
    by_cases h : r.st.base.nevents = 0
    · rw [loop_empty env flags 0 r h]; exact hr
    · rw [loop_zero env flags r h]; exact hr
  | succ n ih =>
    intro r hr
    by_cases h : r.st.base.nevents = 0
    · rw [loop_empty env flags _ r h]; exact hr
    · rw [loop_succ env flags n r h]
      have hi := iteration_log_inv env flags P hP hS n r hr
      split
      · next v r1 heq => rw [heq] at hi; exact hi
      · next r1 heq => rw [heq] at hi; exact ih r1 hi
      · next r1 heq => rw [heq] at hi; exact hi

theorem fatal_wait_invocation (env : Env) (ev : Nat) (s : State) :
    fatal_wait env (invocation env ev s) = false := rfl

theorem waited_log (env : Env) (flags : Nat) (r : Run) :
    (waited env flags r).log = r.log ++ [wait_call env flags r] := rfl

theorem iteration_fatal (env : Env) (flags fuel : Nat) (r : Run)
    (h : fatal_answer env (answer env flags r)) :
    iteration env flags fuel r = (Iter.ret (-1), waited env flags r) := by
  rw [iteration_eq]
  simp [h.1, h.2.1, h.2.2]

theorem dispatch_no_wait (env : Env) (P : Call → Prop) (hP : ∀ c, is_callback c = true → P c)
    (fuel : Nat) (cur : Option Nat) (r : Run) (hr : ∀ c ∈ r.log, P c) :
    ∀ c ∈ (dispatch env fuel cur r).2.log, P c :=
  dispatch_log_inv env P (fun _ _ _ => hP _ rfl) fuel cur r hr

/-- Shape of one iteration with respect to fatal waits. -/
theorem iteration_fatal_shape (env : Env) (flags fuel : Nat) (r : Run)
    (hr : ∀ c ∈ r.log, fatal_wait env c = false) :
    (fatal_answer env (answer env flags r) ∧
      iteration env flags fuel r = (Iter.ret (-1), waited env flags r)) ∨
    (¬ fatal_answer env (answer env flags r) ∧
      (iteration env flags fuel r).1 ≠ Iter.ret (-1) ∧
      (∀ v, (iteration env flags fuel r).1 = Iter.ret v → v = 0) ∧
      ∀ c ∈ (iteration env flags fuel r).2.log, fatal_wait env c = false) := by
  by_cases hf : fatal_answer env (answer env flags r)
  · exact Or.inl ⟨hf, iteration_fatal env flags fuel r hf⟩
  · right
    refine ⟨hf, ?_⟩
    have hw : ∀ c ∈ (waited env flags r).log, fatal_wait env c = false := by
      intro c hc
      rcases List.mem_append.1 hc with h | h
      · exact hr c h
      · rw [List.mem_singleton.1 h]
        unfold fatal_answer at hf
        simp only [fatal_wait]
        by_cases h1 : (answer env flags r).nready = -1
        · by_cases h2 : (answer env flags r).errno = env.EINTR
          · simp [h2]
          · by_cases h3 : (answer env flags r).errno = env.ENOMEM
            · simp [h3]
            · exact absurd ⟨h1, h2, h3⟩ hf
        · simp [h1]
    have hd := dispatch_log_inv env (fun c => fatal_wait env c = false)
      (fun _ _ _ => rfl) fuel (TAILQ_FIRST (waited env flags r).st.base.events)
      (waited env flags r) hw
    rw [iteration_eq]
    split
    · next h1 =>
      split
      · exact ⟨by simp, by simp, hw⟩
      · next h2 =>
        exfalso; apply hf
        exact ⟨h1, fun h => h2 (Or.inl h), fun h => h2 (Or.inr h)⟩
    · split
      · split
        · exact ⟨by simp, by simp, hw⟩
        · exact ⟨by simp, by simp, hw⟩
      · split
        · next r2 heq => rw [heq] at hd; exact ⟨by simp, by simp, hd⟩
        · next r2 heq => rw [heq] at hd; exact ⟨by simp, by simp, hd⟩
        · next r2 heq => rw [heq] at hd; exact ⟨by simp, by simp, hd⟩
        · next r2 heq =>
          rw [heq] at hd
          split
          · exact ⟨by simp, by simp, hd⟩
          · split
            · exact ⟨by simp, by simp, hd⟩
            · exact ⟨by simp, by simp, hd⟩

/-- Shape of a whole run with respect to fatal waits. -/
theorem loop_fatal_shape (env : Env) (flags : Nat) :
    ∀ fuel r, (∀ c ∈ r.log, fatal_wait env c = false) →
      ((sudo_ev_loop_impl env flags fuel r).1 = some (-1) ∧
        ∃ r0, (∀ c ∈ r0.log, fatal_wait env c = false) ∧
          fatal_answer env (answer env flags r0) ∧
          (sudo_ev_loop_impl env flags fuel r).2 = waited env flags r0) ∨
      (((sudo_ev_loop_impl env flags fuel r).1 = some 0 ∨
          (sudo_ev_loop_impl env flags fuel r).1 = none) ∧
        ∀ c ∈ (sudo_ev_loop_impl env flags fuel r).2.log, fatal_wait env c = false) := by
  intro fuel
  induction fuel with
  | zero =>
    intro r hr
    right
    by_cases h : r.st.base.nevents = 0
    · rw [loop_empty env flags 0 r h]; exact ⟨Or.inl rfl, hr⟩
    · rw [loop_zero env flags r h]; exact ⟨Or.inr rfl, hr⟩
  | succ n ih =>
    intro r hr
    by_cases h : r.st.base.nevents = 0
    · right; rw [loop_empty env flags _ r h]; exact ⟨Or.inl rfl, hr⟩
    · rw [loop_succ env flags n r h]
      rcases iteration_fatal_shape env flags n r hr with ⟨hf, hi⟩ | ⟨_, hne, hv, hl⟩
      · left
        rw [hi]
        exact ⟨rfl, r, hr, hf, rfl⟩
      · split
        · next v r1 heq =>
          rw [heq] at hl hv
          right
          have := hv v rfl
          subst this
          exact ⟨Or.inl rfl, hl⟩
        · next r1 heq => rw [heq] at hl; exact ih r1 hl
        · next r1 heq => rw [heq] at hl; right; exact ⟨Or.inr rfl, hl⟩

theorem last_of_split {α : Type} (l pre post : List α) (x c : α)
    (h : l ++ [x] = pre ++ c :: post) : post = [] ∨ c ∈ l := by
  rcases List.eq_nil_or_concat post with hp | ⟨post1, y, hp⟩
  · exact Or.inl hp
  · right
    subst hp
    have h1 : l ++ [x] = (pre ++ c :: post1) ++ [y] := by simpa using h
    have h2 := List.append_inj_left' h1 rfl
    rw [h2]
    simp

/-- C9 (empty base termination): on a base with `nevents == 0`, whatever the
run flags, `sudo_ev_loop_impl` returns 0 at once (no supply of steps is
needed), and the memory and the log are what they were: `select` is not
called, no callback is invoked, and `base->flags` (no `GOT_EXIT`, no
`GOT_BREAK`, even with an exit or a break already requested), the descriptor
sets and the collection are unchanged. -/
theorem loop_on_empty_base (env : Env) (flags fuel : Nat) (r : Run)
    (h : r.st.base.nevents = 0) :
    sudo_ev_loop_impl env flags fuel r = (some 0, r) :=
  loop_empty env flags fuel r h

/-- Scenario E with an exit and a break already requested: the run returns 0 and nothing changes. -/
theorem loop_on_empty_base_witness :
    empty_run.st.base.nevents = 0 ∧
    sudo_ev_loop_impl (scenario_env []) 0 0 empty_run = (some 0, empty_run) :=
  ⟨by decide, loop_on_empty_base (scenario_env []) 0 0 empty_run (by decide)⟩

/-- C10 (fatal wait failure).  First part, the failing step: when the wait of
an iteration (started with events registered) returns -1 with an `errno`
other than `EINTR` and `ENOMEM`, `sudo_ev_loop_impl` returns -1 from that
iteration; the log gains the call of `select` and no invocation, and the
collection, `nevents`, `base->flags`, the cursor, the event records and the
rest of the memory are unchanged (only the two sets are what `select` left).
Second part, a whole run from an empty log: the value returned is -1 or 0; it
is -1 exactly when the log holds such a failed wait; and a failed wait is the
last entry of the log. -/
theorem loop_fatal_wait (env : Env) (flags fuel : Nat) :
    (∀ r : Run, r.st.base.nevents ≠ 0 → fatal_answer env (answer env flags r) →
      (sudo_ev_loop_impl env flags (fuel + 1) r).1 = some (-1) ∧
      (sudo_ev_loop_impl env flags (fuel + 1) r).2.log =
        r.log ++ [Call.select ((build env.NFDBITS r.st).2.2 + 1) (build env.NFDBITS r.st).1
          (build env.NFDBITS r.st).2.1 (ISSET flags SUDO_EVLOOP_NONBLOCK)
          (answer env flags r)] ∧
      (sudo_ev_loop_impl env flags (fuel + 1) r).2.st.base.events = r.st.base.events ∧
      (sudo_ev_loop_impl env flags (fuel + 1) r).2.st.base.nevents = r.st.base.nevents ∧
      (sudo_ev_loop_impl env flags (fuel + 1) r).2.st.base.flags = r.st.base.flags ∧
      (sudo_ev_loop_impl env flags (fuel + 1) r).2.st.base.pending = r.st.base.pending ∧
      (sudo_ev_loop_impl env flags (fuel + 1) r).2.st.base.maxfd = r.st.base.maxfd ∧
      (sudo_ev_loop_impl env flags (fuel + 1) r).2.st.evs = r.st.evs ∧
      (sudo_ev_loop_impl env flags (fuel + 1) r).2.st.user = r.st.user) ∧
    (∀ s : State,
      (∀ v, (sudo_ev_loop_impl env flags fuel { st := s, log := [] }).1 = some v →
        v = -1 ∨ v = 0) ∧
      ((sudo_ev_loop_impl env flags fuel { st := s, log := [] }).1 = some (-1) ↔
        ∃ c ∈ (sudo_ev_loop_impl env flags fuel { st := s, log := [] }).2.log,
          fatal_wait env c = true) ∧
      (∀ pre c post,
        (sudo_ev_loop_impl env flags fuel { st := s, log := [] }).2.log = pre ++ c :: post →
        fatal_wait env c = true → post = [])) := by
  constructor
  · intro r hne hf
    rw [loop_succ env flags fuel r hne, iteration_fatal env flags fuel r hf]
    exact ⟨rfl, rfl, rfl, rfl, rfl, rfl, rfl, rfl, rfl⟩
  · intro s
    rcases loop_fatal_shape env flags fuel { st := s, log := [] } (by simp) with
      ⟨h1, r0, hr0, hf, h2⟩ | ⟨h1, hl⟩
    · have hfw : fatal_wait env (Call.select ((build env.NFDBITS r0.st).2.2 + 1)
          (build env.NFDBITS r0.st).1 (build env.NFDBITS r0.st).2.1
          (ISSET flags SUDO_EVLOOP_NONBLOCK) (answer env flags r0)) = true := by
        simp [fatal_wait, hf.1, hf.2.1, hf.2.2]
      refine ⟨?_, ?_, ?_⟩
      · intro v hv
        rw [h1] at hv
        exact Or.inl (Option.some.inj hv).symm
      · constructor
        · intro _
          rw [h2]
          exact ⟨_, List.mem_append_right _ (List.mem_singleton.2 rfl), hfw⟩
        · intro _; exact h1
      · intro pre c post hsplit hc
        rw [h2] at hsplit
        rcases last_of_split _ _ _ _ _ hsplit with h | h
        · exact h
        · rw [hr0 c h] at hc; cases hc
    · refine ⟨?_, ?_, ?_⟩
      · intro v hv
        rcases h1 with h1 | h1
        · rw [h1] at hv; exact Or.inr (Option.some.inj hv).symm
        · rw [h1] at hv; cases hv
      · constructor
        · intro h
          rcases h1 with h1 | h1 <;> rw [h1] at h <;> cases h
        · rintro ⟨c, hc, hfc⟩
          rw [hl c hc] at hfc; cases hfc
      · intro pre c post hsplit hc
        have : c ∈ (sudo_ev_loop_impl env flags fuel { st := s, log := [] }).2.log := by
          rw [hsplit]; simp
        rw [hl c this] at hc; cases hc

/-- A run whose first wait fails with `EBADF`: it returns -1 and the event stays registered. -/
theorem loop_fatal_wait_witness :
    one_shot_reader.st.base.nevents ≠ 0 ∧
    fatal_answer (scenario_env [wait_fails]) (answer (scenario_env [wait_fails]) 0 one_shot_reader) ∧
    (sudo_ev_loop_impl (scenario_env [wait_fails]) 0 (0 + 1) one_shot_reader).1 = some (-1) ∧
    (sudo_ev_loop_impl (scenario_env [wait_fails]) 0 (0 + 1) one_shot_reader).2.st.base.nevents =
      one_shot_reader.st.base.nevents :=
  ⟨by decide, by decide,
    ((loop_fatal_wait (scenario_env [wait_fails]) 0 0).1 one_shot_reader
      (by decide) (by decide)).1,
    ((loop_fatal_wait (scenario_env [wait_fails]) 0 0).1 one_shot_reader
      (by decide) (by decide)).2.2.2.1⟩

theorem sudo_ev_del_flags (N : Nat) (s : State) (ev : Nat) :
    (sudo_ev_del N s ev).2.base.flags = s.base.flags := by
  unfold sudo_ev_del
  split <;> rfl

theorem settled_flags (env : Env) (ev : Nat) (s : State) :
    (settled env ev s).base.flags = (returned env ev s).base.flags := by
  unfold settled
  split
  · exact sudo_ev_del_flags _ _ _
  · rfl

theorem after_invocation (env : Env) (ev : Nat) (s : State) :
    Call.after env (invocation env ev s) = some (returned env ev s) := by
  simp only [invocation, Call.after, returned, entry_callback]

theorem asks_break_invocation (env : Env) (ev : Nat) (s : State) :
    asks_break env (invocation env ev s) =
      ISSET (settled env ev s).base.flags SUDO_EVBASE_LOOPBREAK := by
  unfold asks_break
  rw [after_invocation, settled_flags]

theorem asks_continue_invocation (env : Env) (ev : Nat) (s : State) :
    asks_continue env (invocation env ev s) =
      (!ISSET (settled env ev s).base.flags SUDO_EVBASE_LOOPBREAK &&
        ISSET (settled env ev s).base.flags SUDO_EVBASE_LOOPCONT) := by
  unfold asks_continue
  rw [after_invocation, settled_flags]

theorem asks_continue_not_break (env : Env) (c : Call) (h : asks_break env c = true) :
    asks_continue env c = false := by
  unfold asks_break at h
  unfold asks_continue
  cases hc : Call.after env c with
  | none => rfl
  | some s => rw [hc] at h; simp only at h ⊢; simp [h]

theorem asks_break_not_continue (env : Env) (c : Call) (h : asks_continue env c = true) :
    asks_break env c = false := by
  cases hb : asks_break env c
  · rfl
  · rw [asks_continue_not_break env c hb] at h; cases h

theorem quiet_nil (env : Env) : quiet env [] := by
  intro c hc; cases hc

theorem quiet_append (env : Env) (l1 l2 : List Call) (h1 : quiet env l1) (h2 : quiet env l2) :
    quiet env (l1 ++ l2) := by
  intro c hc
  rcases List.mem_append.1 hc with h | h
  · exact h1 c h
  · exact h2 c h

theorem quiet_select (env : Env) (nfds : Int) (rs ws : fd_set) (nb : Bool) (res : SelectResult) :
    quiet env [Call.select nfds rs ws nb res] := by
  intro c hc
  rw [List.mem_singleton.1 hc]
  exact ⟨rfl, rfl⟩

theorem quiet_invocation (env : Env) (ev : Nat) (s : State)
    (hb : ISSET (settled env ev s).base.flags SUDO_EVBASE_LOOPBREAK = false)
    (hc : ISSET (settled env ev s).base.flags SUDO_EVBASE_LOOPCONT = false) :
    quiet env [invocation env ev s] := by
  intro c h
  rw [List.mem_singleton.1 h, asks_break_invocation, asks_continue_invocation, hb, hc]
  exact ⟨rfl, rfl⟩

/-- Shape of a dispatch traversal: the log grows by invocations; the
traversal is left by `goto done` exactly at the first invocation whose
callback returns with a break requested, by `goto rescan` exactly at the first
one that returns with a continue (and no break) requested. -/
theorem dispatch_shape (env : Env) :
    ∀ fuel cur r, ∃ new, (dispatch env fuel cur r).2.log = r.log ++ new ∧
      (∀ c ∈ new, is_callback c = true) ∧
      (((dispatch env fuel cur r).1 = some Flow.done ∧ ∃ pre ev s0,
          new = pre ++ [invocation env ev s0] ∧ quiet env pre ∧
          ISSET (settled env ev s0).base.flags SUDO_EVBASE_LOOPBREAK = true ∧
          (dispatch env fuel cur r).2.st = broken (settled env ev s0)) ∨
       ((dispatch env fuel cur r).1 = some Flow.rescan ∧ ∃ pre ev s0,
          new = pre ++ [invocation env ev s0] ∧ quiet env pre ∧
          ISSET (settled env ev s0).base.flags SUDO_EVBASE_LOOPBREAK = false ∧
          ISSET (settled env ev s0).base.flags SUDO_EVBASE_LOOPCONT = true ∧
          (dispatch env fuel cur r).2.st = resumed (settled env ev s0)) ∨
       (((dispatch env fuel cur r).1 = some Flow.next ∨ (dispatch env fuel cur r).1 = none) ∧
          quiet env new)) := by
  intro fuel
  induction fuel with
  | zero =>
    intro cur r
    refine ⟨[], ?_, by simp, Or.inr (Or.inr ⟨?_, quiet_nil env⟩)⟩
    · cases cur <;> simp [dispatch_none, dispatch_zero]
    · cases cur
      · exact Or.inl (by rw [dispatch_none])
      · exact Or.inr (by rw [dispatch_zero])
  | succ n ih =>
    intro cur r
    cases cur with
    | none =>
      exact ⟨[], by simp [dispatch_none], by simp,
        Or.inr (Or.inr ⟨Or.inl (by rw [dispatch_none]), quiet_nil env⟩)⟩
    | some ev =>
      rw [dispatch_succ]
      rcases service_cases env ev (with_pending r (TAILQ_NEXT r.st.base.events ev)) with
        ⟨_, hs⟩ | ⟨_, hb, hs⟩ | ⟨_, hb, hc, hs⟩ | ⟨_, hb, hc, hs⟩
      · rw [hs]
        obtain ⟨new, hlog, hcb, hshape⟩ :=
          ih (with_pending r (TAILQ_NEXT r.st.base.events ev)).st.base.pending
            (with_pending r (TAILQ_NEXT r.st.base.events ev))
        exact ⟨new, hlog, hcb, hshape⟩
      · rw [hs]
        exact ⟨[invocation env ev (with_pending r (TAILQ_NEXT r.st.base.events ev)).st], rfl,
          by intro c hc; rw [List.mem_singleton.1 hc]; rfl,
          Or.inl ⟨rfl, [], ev, _, rfl, quiet_nil env, hb, rfl⟩⟩
      · rw [hs]
        exact ⟨[invocation env ev (with_pending r (TAILQ_NEXT r.st.base.events ev)).st], rfl,
          by intro c hc; rw [List.mem_singleton.1 hc]; rfl,
          Or.inr (Or.inl ⟨rfl, [], ev, _, rfl, quiet_nil env, hb, hc, rfl⟩)⟩
      · rw [hs]
        obtain ⟨new, hlog, hcb, hshape⟩ :=
          ih (settled env ev (with_pending r (TAILQ_NEXT r.st.base.events ev)).st).base.pending
            { st := settled env ev (with_pending r (TAILQ_NEXT r.st.base.events ev)).st,
              log := (with_pending r (TAILQ_NEXT r.st.base.events ev)).log ++
                [invocation env ev (with_pending r (TAILQ_NEXT r.st.base.events ev)).st] }
        have hq := quiet_invocation env ev _ hb hc
        refine ⟨invocation env ev (with_pending r (TAILQ_NEXT r.st.base.events ev)).st :: new,
          ?_, ?_, ?_⟩
        · rw [hlog]; simp [with_pending_log]
        · intro c hc
          rcases List.mem_cons.1 hc with h | h
          · rw [h]; rfl
          · exact hcb c h
        · rcases hshape with ⟨h1, pre, ev1, s1, hn, hqp, hrest⟩ |
            ⟨h1, pre, ev1, s1, hn, hqp, hrest⟩ | ⟨h1, hqn⟩
          · exact Or.inl ⟨h1, _ :: pre, ev1, s1, by rw [hn]; rfl,
              quiet_append env [_] pre hq hqp, hrest⟩
          · exact Or.inr (Or.inl ⟨h1, _ :: pre, ev1, s1, by rw [hn]; rfl,
              quiet_append env [_] pre hq hqp, hrest⟩)
          · exact Or.inr (Or.inr ⟨h1, quiet_append env [_] new hq hqn⟩)

theorem or_and_self (x m : Nat) : (x ||| m) &&& m = m := by
  apply Nat.eq_of_testBit_eq
  intro i
  simp only [Nat.testBit_and, Nat.testBit_or]
  cases x.testBit i <;> cases m.testBit i <;> rfl

theorem isset_or_self (x m : Nat) (hm : m ≠ 0) : ISSET (x ||| m) m = true := by
  unfold ISSET
  rw [or_and_self]
  simpa using hm

/-- Shape of one iteration: after the call of `select` the log grows by
invocations; an invocation whose callback returns with a break requested ends
the iteration with the function returning 0, one whose callback returns with a
continue (and no break) requested ends it with control back at the loop test;
either is the last entry the iteration logs. -/
theorem iteration_shape (env : Env) (flags fuel : Nat) (r : Run) :
    ∃ new, (iteration env flags fuel r).2.log = (waited env flags r).log ++ new ∧
      (∀ c ∈ new, is_callback c = true) ∧
      (((iteration env flags fuel r).1 = Iter.ret 0 ∧ ∃ pre ev s0,
          new = pre ++ [invocation env ev s0] ∧ quiet env pre ∧
          ISSET (settled env ev s0).base.flags SUDO_EVBASE_LOOPBREAK = true ∧
          (iteration env flags fuel r).2.st = broken (settled env ev s0)) ∨
       ((iteration env flags fuel r).1 = Iter.again ∧ ∃ pre ev s0,
          new = pre ++ [invocation env ev s0] ∧ quiet env pre ∧
          ISSET (settled env ev s0).base.flags SUDO_EVBASE_LOOPBREAK = false ∧
          ISSET (settled env ev s0).base.flags SUDO_EVBASE_LOOPCONT = true ∧
          (iteration env flags fuel r).2.st = resumed (settled env ev s0)) ∨
       quiet env new) := by
  obtain ⟨nd, hd, hcb, hshape⟩ := dispatch_shape env fuel
    (TAILQ_FIRST (waited env flags r).st.base.events) (waited env flags r)
  have hnil : ∀ x : Iter, ∃ new, (x, waited env flags r).2.log = (waited env flags r).log ++ new ∧
      (∀ c ∈ new, is_callback c = true) ∧
      (((x, waited env flags r).1 = Iter.ret 0 ∧ ∃ pre ev s0,
          new = pre ++ [invocation env ev s0] ∧ quiet env pre ∧
          ISSET (settled env ev s0).base.flags SUDO_EVBASE_LOOPBREAK = true ∧
          (x, waited env flags r).2.st = broken (settled env ev s0)) ∨
       ((x, waited env flags r).1 = Iter.again ∧ ∃ pre ev s0,
          new = pre ++ [invocation env ev s0] ∧ quiet env pre ∧
          ISSET (settled env ev s0).base.flags SUDO_EVBASE_LOOPBREAK = false ∧
          ISSET (settled env ev s0).base.flags SUDO_EVBASE_LOOPCONT = true ∧
          (x, waited env flags r).2.st = resumed (settled env ev s0)) ∨
       quiet env new) :=
    fun x => ⟨[], by simp, by simp, Or.inr (Or.inr (quiet_nil env))⟩
  rw [iteration_eq]
  split
  · split <;> exact hnil _
  · split
    · split <;> exact hnil _
    · split
      · next r2 heq =>
        rw [heq] at hd hshape
        rcases hshape with ⟨h1, _⟩ | ⟨h1, _⟩ | ⟨h1, hq⟩
        · cases h1
        · cases h1
        · exact ⟨nd, hd, hcb, Or.inr (Or.inr hq)⟩
      · next r2 heq =>
        rw [heq] at hd hshape
        rcases hshape with ⟨_, hx⟩ | ⟨h1, _⟩ | ⟨h1, hq⟩
        · exact ⟨nd, hd, hcb, Or.inl ⟨rfl, hx⟩⟩
        · cases h1
        · exact ⟨nd, hd, hcb, Or.inr (Or.inr hq)⟩
      · next r2 heq =>
        rw [heq] at hd hshape
        rcases hshape with ⟨h1, _⟩ | ⟨_, hx⟩ | ⟨h1, hq⟩
        · cases h1
        · exact ⟨nd, hd, hcb, Or.inr (Or.inl ⟨rfl, hx⟩)⟩
        · exact ⟨nd, hd, hcb, Or.inr (Or.inr hq)⟩
      · next r2 heq =>
        rw [heq] at hd hshape
        rcases hshape with ⟨h1, _⟩ | ⟨h1, _⟩ | ⟨_, hq⟩
        · cases h1
        · cases h1
        · split
          · exact ⟨nd, hd, hcb, Or.inr (Or.inr hq)⟩
          · split
            · exact ⟨nd, hd, hcb, Or.inr (Or.inr hq)⟩
            · exact ⟨nd, hd, hcb, Or.inr (Or.inr hq)⟩

/-- Shape of a whole run with respect to breaks: the run returns 0 at the
first invocation whose callback returns with a break requested; the memory is
then the one the callback left, the event unregistered if it was due, with
`GOT_BREAK` set and the cursor reset. -/
theorem loop_break_shape (env : Env) (flags : Nat) :
    ∀ fuel r, ∃ new, (sudo_ev_loop_impl env flags fuel r).2.log = r.log ++ new ∧
      (((sudo_ev_loop_impl env flags fuel r).1 = some 0 ∧ ∃ pre ev s0,
          new = pre ++ [invocation env ev s0] ∧ (∀ c ∈ pre, asks_break env c = false) ∧
          ISSET (settled env ev s0).base.flags SUDO_EVBASE_LOOPBREAK = true ∧
          (sudo_ev_loop_impl env flags fuel r).2.st = broken (settled env ev s0)) ∨
       (∀ c ∈ new, asks_break env c = false)) := by
  intro fuel
  induction fuel with
  | zero =>
    intro r
    by_cases h : r.st.base.nevents = 0
    · exact ⟨[], by rw [loop_empty env flags 0 r h]; simp, Or.inr (by simp)⟩
    · exact ⟨[], by rw [loop_zero env flags r h]; simp, Or.inr (by simp)⟩
  | succ n ih =>
    intro r
    by_cases h : r.st.base.nevents = 0
    · exact ⟨[], by rw [loop_empty env flags _ r h]; simp, Or.inr (by simp)⟩
    · rw [loop_succ env flags n r h]
      obtain ⟨ni, hlog, _, hshape⟩ := iteration_shape env flags n r
      rw [waited_log] at hlog
      have hsel : quiet env [wait_call env flags r] := quiet_select env ((build env.NFDBITS r.st).2.2 + 1) (build env.NFDBITS r.st).1
        (build env.NFDBITS r.st).2.1 (ISSET flags SUDO_EVLOOP_NONBLOCK) (answer env flags r)
      rcases hshape with ⟨h1, pre, ev, s0, hn, hq, hb, hst⟩ |
          ⟨h1, pre, ev, s0, hn, hq, hb, hc, hst⟩ | hq
      · -- break
        split
        · next v r1 heq =>
          rw [heq] at hlog h1 hst
          cases h1
          refine ⟨wait_call env flags r :: ni, by rw [hlog]; simp, Or.inl ⟨rfl,
            wait_call env flags r :: pre, ev, s0, by rw [hn]; rfl,
            ?_, hb, hst⟩⟩
          intro c hc
          exact (quiet_append env [wait_call env flags r] pre hsel hq c hc).1
        · next r1 heq => rw [heq] at h1; cases h1
        · next r1 heq => rw [heq] at h1; cases h1
      · -- continue
        have hqi : ∀ c ∈ [wait_call env flags r] ++ ni,
            asks_break env c = false := by
          intro c hcm
          rw [hn, ← List.append_assoc] at hcm
          rcases List.mem_append.1 hcm with hm | hm
          · exact (quiet_append env [wait_call env flags r] pre hsel hq c hm).1
          · rw [List.mem_singleton.1 hm, asks_break_invocation]; exact hb
        split
        · next v r1 heq => rw [heq] at h1; cases h1
        · next r1 heq =>
          rw [heq] at hlog
          obtain ⟨nr, hnr, hrest⟩ := ih r1
          refine ⟨([wait_call env flags r] ++ ni) ++ nr, by rw [hnr, hlog]; simp, ?_⟩
          rcases hrest with ⟨h2, pre2, ev2, s2, hn2, hq2, hb2, hst2⟩ | hq2
          · refine Or.inl ⟨h2, ([wait_call env flags r] ++ ni) ++ pre2, ev2, s2, by rw [hn2]; simp, ?_, hb2, hst2⟩
            intro c hcm
            rcases List.mem_append.1 hcm with hm | hm
            · exact hqi c hm
            · exact hq2 c hm
          · right
            intro c hcm
            rcases List.mem_append.1 hcm with hm | hm
            · exact hqi c hm
            · exact hq2 c hm
        · next r1 heq => rw [heq] at h1; cases h1
      · -- quiet iteration
        have hqi : ∀ c ∈ [wait_call env flags r] ++ ni,
            asks_break env c = false := fun c hcm => (quiet_append env [wait_call env flags r] ni hsel hq c hcm).1
        split
        · next v r1 heq =>
          rw [heq] at hlog
          exact ⟨[wait_call env flags r] ++ ni, by rw [hlog]; simp, Or.inr hqi⟩
        · next r1 heq =>
          rw [heq] at hlog
          obtain ⟨nr, hnr, hrest⟩ := ih r1
          refine ⟨([wait_call env flags r] ++ ni) ++ nr, by rw [hnr, hlog]; simp, ?_⟩
          rcases hrest with ⟨h2, pre2, ev2, s2, hn2, hq2, hb2, hst2⟩ | hq2
          · refine Or.inl ⟨h2, ([wait_call env flags r] ++ ni) ++ pre2, ev2, s2, by rw [hn2]; simp, ?_, hb2, hst2⟩
            intro c hcm
            rcases List.mem_append.1 hcm with hm | hm
            · exact hqi c hm
            · exact hq2 c hm
          · right
            intro c hcm
            rcases List.mem_append.1 hcm with hm | hm
            · exact hqi c hm
            · exact hq2 c hm
        · next r1 heq =>
          rw [heq] at hlog
          exact ⟨[wait_call env flags r] ++ ni, by rw [hlog]; simp, Or.inr hqi⟩

theorem loop_log_prefix (env : Env) (flags fuel : Nat) (r : Run) :
    ∃ new, (sudo_ev_loop_impl env flags fuel r).2.log = r.log ++ new := by
  obtain ⟨new, h, _⟩ := loop_break_shape env flags fuel r
  exact ⟨new, h⟩

theorem split_last {α : Type} (l pre post : List α) (x c : α)
    (h : l ++ [x] = pre ++ c :: post) (hc : c ∉ l) : post = [] ∧ pre = l ∧ c = x := by
  rcases last_of_split l pre post x c h with hp | hp
  · subst hp
    have h1 := List.append_inj' h rfl
    exact ⟨rfl, h1.1.symm, (List.cons.inj h1.2).1.symm⟩
  · exact absurd hp hc

/-- C5 (break is immediate): in a run of `sudo_ev_loop_impl` from an empty
log, whatever the run flags, the memory and the supply of steps, an invocation
whose callback returns with `SUDO_EVBASE_LOOPBREAK` set is the last entry of
the log (no callback is invoked and `select` is not called after it, in this
pass or a later one); the function has returned 0, `SUDO_EVBASE_GOT_BREAK` is
set, `base->pending` is `NULL`, and `base->flags` is what the callback left
with `GOT_BREAK` added. -/
theorem loop_break_is_immediate (env : Env) (flags fuel : Nat) (s : State)
    (pre : List Call) (c : Call) (post : List Call)
    (hlog : (sudo_ev_loop_impl env flags fuel { st := s, log := [] }).2.log = pre ++ c :: post)
    (hbreak : asks_break env c = true) :
    post = [] ∧
    (sudo_ev_loop_impl env flags fuel { st := s, log := [] }).1 = some 0 ∧
    ISSET (sudo_ev_loop_impl env flags fuel { st := s, log := [] }).2.st.base.flags
      SUDO_EVBASE_GOT_BREAK = true ∧
    (sudo_ev_loop_impl env flags fuel { st := s, log := [] }).2.st.base.pending = none ∧
    ∀ s1, Call.after env c = some s1 →
      (sudo_ev_loop_impl env flags fuel { st := s, log := [] }).2.st.base.flags =
        s1.base.flags ||| SUDO_EVBASE_GOT_BREAK := by
  obtain ⟨new, hnew, hshape⟩ := loop_break_shape env flags fuel { st := s, log := [] }
  rw [hlog] at hnew
  simp only [List.nil_append] at hnew
  rcases hshape with ⟨h1, pre1, ev, s0, hn, hq, hb, hst⟩ | hq
  · rw [hn] at hnew
    have hc : c ∉ pre1 := by
      intro hmem
      rw [hq c hmem] at hbreak; cases hbreak
    obtain ⟨hpost, _, hceq⟩ := split_last pre1 pre post _ c hnew.symm hc
    refine ⟨hpost, h1, ?_, ?_, ?_⟩
    · rw [hst]
      exact isset_or_self _ _ (by decide)
    · rw [hst]; rfl
    · intro s1 hs1
      rw [hceq, after_invocation] at hs1
      rw [hst, ← Option.some.inj hs1, ← settled_flags]
      rfl
  · have : c ∈ new := by rw [← hnew]; simp
    rw [hq c this] at hbreak; cases hbreak

/-- Scenario C: the two descriptors are ready, the first callback requests a break, the second event is not invoked. -/
theorem loop_break_is_immediate_witness :
    (sudo_ev_loop_impl (scenario_env [fd3_fd4_readable]) 0 3
        { st := two_readers_first_breaks.st, log := [] }).2.log =
      [wait_call (scenario_env [fd3_fd4_readable]) 0 two_readers_first_breaks] ++
        invocation (scenario_env [fd3_fd4_readable]) 0
          (with_pending (waited (scenario_env [fd3_fd4_readable]) 0 two_readers_first_breaks)
            (some 1)).st :: [] ∧
    asks_break (scenario_env [fd3_fd4_readable])
      (invocation (scenario_env [fd3_fd4_readable]) 0
        (with_pending (waited (scenario_env [fd3_fd4_readable]) 0 two_readers_first_breaks)
            (some 1)).st) = true ∧
    invocations (sudo_ev_loop_impl (scenario_env [fd3_fd4_readable]) 0 3
        { st := two_readers_first_breaks.st, log := [] }).2.log = [(0, 3, SUDO_EV_READ)] ∧
    (sudo_ev_loop_impl (scenario_env [fd3_fd4_readable]) 0 3
        { st := two_readers_first_breaks.st, log := [] }).2.st.base.events = [1] ∧
    (sudo_ev_loop_impl (scenario_env [fd3_fd4_readable]) 0 3
        { st := two_readers_first_breaks.st, log := [] }).1 = some 0 ∧
    ISSET (sudo_ev_loop_impl (scenario_env [fd3_fd4_readable]) 0 3
        { st := two_readers_first_breaks.st, log := [] }).2.st.base.flags
      SUDO_EVBASE_GOT_BREAK = true :=
  ⟨rfl, by decide, by decide, by decide,
    (loop_break_is_immediate (scenario_env [fd3_fd4_readable]) 0 3 two_readers_first_breaks.st
      [wait_call (scenario_env [fd3_fd4_readable]) 0 two_readers_first_breaks]
      (invocation (scenario_env [fd3_fd4_readable]) 0
        (with_pending (waited (scenario_env [fd3_fd4_readable]) 0 two_readers_first_breaks)
            (some 1)).st) []
      rfl (by decide)).2.1,
    (loop_break_is_immediate (scenario_env [fd3_fd4_readable]) 0 3 two_readers_first_breaks.st
      [wait_call (scenario_env [fd3_fd4_readable]) 0 two_readers_first_breaks]
      (invocation (scenario_env [fd3_fd4_readable]) 0
        (with_pending (waited (scenario_env [fd3_fd4_readable]) 0 two_readers_first_breaks)
            (some 1)).st) []
      rfl (by decide)).2.2.1⟩

theorem isset_clr_self (x m : Nat) (hm : (UINT_MAX ^^^ m) &&& m = 0) :
    ISSET (CLR x m) m = false := by
  unfold ISSET CLR
  rw [Nat.and_assoc, hm]
  simp

theorem loop_first_wait (env : Env) (flags fuel : Nat) (r : Run)
    (h : r.st.base.nevents ≠ 0) :
    ∃ rest, (sudo_ev_loop_impl env flags (fuel + 1) r).2.log =
      r.log ++ wait_call env flags r :: rest := by
  rw [loop_succ env flags fuel r h]
  obtain ⟨ni, hlog, _⟩ := iteration_shape env flags fuel r
  rw [waited_log] at hlog
  split
  · next v r1 heq => rw [heq] at hlog; exact ⟨ni, by rw [hlog]; simp⟩
  · next r1 heq =>
    rw [heq] at hlog
    obtain ⟨nr, hnr⟩ := loop_log_prefix env flags fuel r1
    exact ⟨ni ++ nr, by rw [hnr, hlog]; simp⟩
  · next r1 heq => rw [heq] at hlog; exact ⟨ni, by rw [hlog]; simp⟩

/-- Invariants of the dispatch traversal: `I` is a property of the run kept by
every step, `K` a property of the cursor and the run kept from one event to
the next. -/
theorem dispatch_inv (env : Env) (I : Run → Prop) (K : Option Nat → Run → Prop)
    (step : ∀ ev r, I r → K (some ev) r →
      I (service env ev (with_pending r (TAILQ_NEXT r.st.base.events ev))).2 ∧
      ((service env ev (with_pending r (TAILQ_NEXT r.st.base.events ev))).1 = Flow.next →
        K (service env ev (with_pending r (TAILQ_NEXT r.st.base.events ev))).2.st.base.pending
          (service env ev (with_pending r (TAILQ_NEXT r.st.base.events ev))).2)) :
    ∀ fuel cur r, I r → K cur r → I (dispatch env fuel cur r).2 := by
  intro fuel
  induction fuel with
  | zero =>
    intro cur r hI _
    cases cur with
    | none => rw [dispatch_none]; exact hI
    | some ev => rw [dispatch_zero]; exact hI
  | succ n ih =>
    intro cur r hI hK
    cases cur with
    | none => rw [dispatch_none]; exact hI
    | some ev =>
      rw [dispatch_succ]
      have hstep := step ev r hI hK
      rcases hsv : service env ev (with_pending r (TAILQ_NEXT r.st.base.events ev)) with ⟨fl, r2⟩
      rw [hsv] at hstep
      cases fl with
      | next => exact ih _ _ hstep.1 (hstep.2 rfl)
      | done => exact hstep.1
      | rescan => exact hstep.1

/-- Invariants of a whole run, from those of the dispatch traversal, of the
wait and of the end of a pass. -/
theorem loop_inv (env : Env) (flags : Nat) (I : Run → Prop) (K : Option Nat → Run → Prop)
    (step : ∀ ev r, I r → K (some ev) r →
      I (service env ev (with_pending r (TAILQ_NEXT r.st.base.events ev))).2 ∧
      ((service env ev (with_pending r (TAILQ_NEXT r.st.base.events ev))).1 = Flow.next →
        K (service env ev (with_pending r (TAILQ_NEXT r.st.base.events ev))).2.st.base.pending
          (service env ev (with_pending r (TAILQ_NEXT r.st.base.events ev))).2))
    (wait : ∀ r, I r → I (waited env flags r) ∧
      K (TAILQ_FIRST (waited env flags r).st.base.events) (waited env flags r))
    (fin : ∀ r p f, I r →
      I { r with st := { r.st with base := { r.st.base with pending := p, flags := f } } }) :
    ∀ fuel r, I r → I (sudo_ev_loop_impl env flags fuel r).2 := by
  intro fuel
  induction fuel with
  | zero =>
    intro r hI
    by_cases h : r.st.base.nevents = 0
    · rw [loop_empty env flags 0 r h]; exact hI
    · rw [loop_zero env flags r h]; exact hI
  | succ n ih =>
    intro r hI
    by_cases h : r.st.base.nevents = 0
    · rw [loop_empty env flags _ r h]; exact hI
    · rw [loop_succ env flags n r h]
      have hw := wait r hI
      have hd := dispatch_inv env I K step n (TAILQ_FIRST (waited env flags r).st.base.events)
        (waited env flags r) hw.1 hw.2
      have hi : I (iteration env flags n r).2 := by
        rw [iteration_eq]
        split
        · split <;> exact hw.1
        · split
          · split <;> exact hw.1
          · split
            · next r2 heq => rw [heq] at hd; exact hd
            · next r2 heq => rw [heq] at hd; exact hd
            · next r2 heq => rw [heq] at hd; exact hd
            · next r2 heq =>
              rw [heq] at hd
              split
              · exact fin r2 none _ hd
              · split
                · exact fin r2 none r2.st.base.flags hd
                · exact fin r2 none r2.st.base.flags hd
      split
      · next v r1 heq => rw [heq] at hi; exact hi
      · next r1 heq => rw [heq] at hi; exact ih r1 hi
      · next r1 heq => rw [heq] at hi; exact hi

theorem service_log (env : Env) (ev : Nat) (r : Run) :
    (service env ev r).2.log =
      r.log ++ (if fired env.NFDBITS (r.st.evs ev) r.st.base = 0 then []
                else [invocation env ev r.st]) := by
  by_cases h : fired env.NFDBITS (r.st.evs ev) r.st.base = 0
  · simp [service_idle env ev r h, h]
  · rw [service_fire env ev r h]
    simp only [h, ↓reduceIte]
    split
    · rfl
    · split <;> rfl

theorem service_fire_log (env : Env) (ev : Nat) (r : Run)
    (h : fired env.NFDBITS (r.st.evs ev) r.st.base ≠ 0) :
    (service env ev r).2.log = r.log ++ [invocation env ev r.st] := by
  rw [service_log]; simp [h]

theorem service_fire_base (env : Env) (ev : Nat) (r : Run)
    (h : fired env.NFDBITS (r.st.evs ev) r.st.base ≠ 0) :
    (service env ev r).2.st.base.events = (settled env ev r.st).base.events ∧
    ((service env ev r).1 = Flow.next →
      (service env ev r).2.st.base.pending = (settled env ev r.st).base.pending) ∧
    ((service env ev r).1 ≠ Flow.next → (service env ev r).2.st.base.pending = none) ∧
    (service env ev r).2.st.base.nevents = (settled env ev r.st).base.nevents ∧
    (service env ev r).2.st.base.readfds = (settled env ev r.st).base.readfds ∧
    (service env ev r).2.st.base.writefds = (settled env ev r.st).base.writefds ∧
    (service env ev r).2.st.base.maxfd = (settled env ev r.st).base.maxfd ∧
    (service env ev r).2.st.evs = (settled env ev r.st).evs ∧
    (service env ev r).2.st.user = (settled env ev r.st).user := by
  rcases service_cases env ev r with ⟨h0, _⟩ | ⟨_, _, hs⟩ | ⟨_, _, _, hs⟩ | ⟨_, _, _, hs⟩
  · exact absurd h0 h
  · rw [hs]; exact ⟨rfl, (fun h => Flow.noConfusion h), fun _ => rfl, rfl, rfl, rfl, rfl, rfl, rfl⟩
  · rw [hs]; exact ⟨rfl, (fun h => Flow.noConfusion h), fun _ => rfl, rfl, rfl, rfl, rfl, rfl, rfl⟩
  · rw [hs]; exact ⟨rfl, fun _ => rfl, fun h => absurd rfl h, rfl, rfl, rfl, rfl, rfl, rfl⟩

theorem sudo_ev_del_events (N : Nat) (s : State) (ev : Nat) :
    (sudo_ev_del N s ev).2.base.events = s.base.events.erase ev := by
  unfold sudo_ev_del
  split
  · rfl
  · next h => exact (List.erase_of_not_mem h).symm

theorem sudo_ev_del_nevents (N : Nat) (s : State) (ev : Nat) (h : ev ∈ s.base.events) :
    (sudo_ev_del N s ev).2.base.nevents = s.base.nevents - 1 := by
  unfold sudo_ev_del
  simp only [h, ↓reduceIte]
  rfl

theorem settled_marked (env : Env) (ev : Nat) (s : State)
    (h : ISSET ((returned env ev s).evs ev).events SUDO_EV_DELETE = true) :
    settled env ev s = (sudo_ev_del env.NFDBITS (returned env ev s) ev).2 := by
  unfold settled
  simp [h]

theorem settled_unmarked (env : Env) (ev : Nat) (s : State)
    (h : ISSET ((returned env ev s).evs ev).events SUDO_EV_DELETE = false) :
    settled env ev s = returned env ev s := by
  unfold settled
  simp [h]

theorem entry_marked (ev : Nat) (s : State)
    (h : ISSET (s.evs ev).events SUDO_EV_PERSIST = false) :
    ISSET ((entry ev s).evs ev).events SUDO_EV_DELETE = true := by
  rw [entry_events, h]
  exact isset_or_self _ _ (by decide)

theorem entry_persist (ev : Nat) (s : State)
    (h : ISSET (s.evs ev).events SUDO_EV_PERSIST = true) : entry ev s = s := by
  unfold entry
  simp [h]

theorem sudo_ev_del_pending (N : Nat) (s : State) (ev : Nat) (h : s.base.pending = none) :
    (sudo_ev_del N s ev).2.base.pending = none := by
  unfold sudo_ev_del
  split
  · simp [h]
  · exact h

theorem dispatch_last (env : Env) (fuel ev : Nat) (r : Run)
    (hnext : TAILQ_NEXT r.st.base.events ev = none)
    (hp : (service env ev (with_pending r none)).2.st.base.pending = none) :
    dispatch env (fuel + 1) (some ev) r =
      (some (service env ev (with_pending r none)).1,
        (service env ev (with_pending r none)).2) := by
  rw [dispatch_succ, hnext]
  rcases hsv : service env ev (with_pending r none) with ⟨fl, r2⟩
  rw [hsv] at hp
  cases fl with
  | next =>
    simp only at hp ⊢
    rw [hp, dispatch_none]
  | done => rfl
  | rescan => rfl

/-- The run over a queue holding one event that fires, is not persistent and
whose callback leaves the registration alone: the function returns 0 after
this one invocation, and no event is left. -/
theorem loop_single_one_shot (env : Env) (flags fuel : Nat) (r : Run) (ev : Nat)
    (hevents : r.st.base.events = [ev]) (hn : r.st.base.nevents = 1)
    (hpersist : ISSET (r.st.evs ev).events SUDO_EV_PERSIST = false)
    (hready1 : (answer env flags r).nready ≠ -1) (hready0 : (answer env flags r).nready ≠ 0)
    (hfired : fired env.NFDBITS (r.st.evs ev) (waited env flags r).st.base ≠ 0)
    (hkeep : leaves_registration env ev (with_pending (waited env flags r) none).st) :
    (sudo_ev_loop_impl env flags (fuel + 2) r).1 = some 0 ∧
    (sudo_ev_loop_impl env flags (fuel + 2) r).2.log =
      r.log ++ [wait_call env flags r,
        invocation env ev (with_pending (waited env flags r) none).st] ∧
    (sudo_ev_loop_impl env flags (fuel + 2) r).2.st.base.nevents = 0 ∧
    (sudo_ev_loop_impl env flags (fuel + 2) r).2.st.base.events = [] := by
  have hne : r.st.base.nevents ≠ 0 := by rw [hn]; decide
  have hfirst : TAILQ_FIRST (waited env flags r).st.base.events = some ev := by
    show TAILQ_FIRST r.st.base.events = some ev
    rw [hevents]; rfl
  have hnext : TAILQ_NEXT (waited env flags r).st.base.events ev = none := by
    show TAILQ_NEXT r.st.base.events ev = none
    rw [hevents]; simp [TAILQ_NEXT]
  obtain ⟨hk1, hk2, hk3, hk4⟩ := hkeep
  have hmark : ISSET ((returned env ev (with_pending (waited env flags r) none).st).evs ev).events
      SUDO_EV_DELETE = true := by
    rw [hk4]; exact entry_marked ev _ hpersist
  have hset := settled_marked env ev _ hmark
  have hmem : ev ∈ (returned env ev (with_pending (waited env flags r) none).st).base.events := by
    rw [hk1]
    show ev ∈ r.st.base.events
    rw [hevents]; simp
  have hsn : (settled env ev (with_pending (waited env flags r) none).st).base.nevents = 0 := by
    rw [hset, sudo_ev_del_nevents _ _ _ hmem, hk2]
    show r.st.base.nevents - 1 = 0
    rw [hn]; rfl
  have hse : (settled env ev (with_pending (waited env flags r) none).st).base.events = [] := by
    rw [hset, sudo_ev_del_events, hk1]
    show r.st.base.events.erase ev = []
    rw [hevents]; simp
  have hsp : (settled env ev (with_pending (waited env flags r) none).st).base.pending = none := by
    rw [hset]
    exact sudo_ev_del_pending _ _ _ (by rw [hk3]; rfl)
  have hfired1 : fired env.NFDBITS ((with_pending (waited env flags r) none).st.evs ev)
      (with_pending (waited env flags r) none).st.base ≠ 0 := hfired
  obtain ⟨hb1, hb2, hb3, hb4, -⟩ := service_fire_base env ev _ hfired1
  have hlog := service_fire_log env ev _ hfired1
  have hpend : (service env ev (with_pending (waited env flags r) none)).2.st.base.pending
      = none := by
    by_cases hfl : (service env ev (with_pending (waited env flags r) none)).1 = Flow.next
    · rw [hb2 hfl, hsp]
    · exact hb3 hfl
  have hdisp := dispatch_last env fuel ev (waited env flags r) hnext hpend
  have hlog1 : (service env ev (with_pending (waited env flags r) none)).2.log =
      r.log ++ [wait_call env flags r,
        invocation env ev (with_pending (waited env flags r) none).st] := by
    rw [hlog]
    show (waited env flags r).log ++ _ = _
    rw [waited_log]; simp
  have hiter : (iteration env flags (fuel + 1) r).2.log =
        r.log ++ [wait_call env flags r,
          invocation env ev (with_pending (waited env flags r) none).st] ∧
      (iteration env flags (fuel + 1) r).2.st.base.nevents = 0 ∧
      (iteration env flags (fuel + 1) r).2.st.base.events = [] ∧
      (iteration env flags (fuel + 1) r).1 ≠ Iter.out ∧
      ∀ v, (iteration env flags (fuel + 1) r).1 = Iter.ret v → v = 0 := by
    rw [iteration_eq]
    simp only [hready1, hready0, ↓reduceIte, hfirst, hdisp]
    rcases hfl : (service env ev (with_pending (waited env flags r) none)).1 with _ | _ | _
    · simp only
      split
      · exact ⟨hlog1, hb4.trans hsn, hb1.trans hse, by simp, by simp⟩
      · split
        · exact ⟨hlog1, hb4.trans hsn, hb1.trans hse, by simp, by simp⟩
        · exact ⟨hlog1, hb4.trans hsn, hb1.trans hse, by simp, by simp⟩
    · exact ⟨hlog1, hb4.trans hsn, hb1.trans hse, by simp, by simp⟩
    · exact ⟨hlog1, hb4.trans hsn, hb1.trans hse, by simp, by simp⟩
  obtain ⟨hi1, hi2, hi3, hi4, hi5⟩ := hiter
  rw [loop_succ env flags (fuel + 1) r hne]
  split
  · next v r1 heq =>
    rw [heq] at hi1 hi2 hi3 hi5
    have := hi5 v rfl
    subst this
    exact ⟨rfl, hi1, hi2, hi3⟩
  · next r1 heq =>
    rw [heq] at hi1 hi2 hi3
    rw [loop_empty env flags (fuel + 1) r1 hi2]
    exact ⟨rfl, hi1, hi2, hi3⟩
  · next r1 heq => rw [heq] at hi4; exact absurd rfl hi4

theorem TAILQ_NEXT_append (pre rest : List Nat) (ev : Nat) (h : ev ∉ pre) :
    TAILQ_NEXT (pre ++ ev :: rest) ev = rest.head? := by
  induction pre with
  | nil => simp [TAILQ_NEXT]
  | cons x xs ih =>
    have hx : x ≠ ev := fun hxe => h (by rw [hxe]; simp)
    have hxs : ev ∉ xs := fun hm => h (List.mem_cons_of_mem _ hm)
    simp only [List.cons_append, TAILQ_NEXT, hx, ↓reduceIte]
    exact ih hxs

theorem erase_middle (pre rest : List Nat) (ev : Nat) (h : ev ∉ pre) :
    (pre ++ ev :: rest).erase ev = pre ++ rest := by
  induction pre with
  | nil => simp
  | cons x xs ih =>
    have hx : x ≠ ev := fun hxe => h (by rw [hxe]; simp)
    have hxs : ev ∉ xs := fun hm => h (List.mem_cons_of_mem _ hm)
    rw [List.cons_append, List.erase_cons_tail (by simpa using hx), ih hxs]
    rfl

/-- One step of the traversal on a queue `pre ++ ev :: rest` without
repetition, with callbacks that keep the queue: the queue becomes
`pre ++ ev :: rest` or `pre ++ rest`, and the cursor is the head of `rest` when
the traversal goes on. -/
theorem service_keeps_queue (env : Env) (hq : keeps_queue env) (pre rest : List Nat)
    (ev : Nat) (r : Run) (hev : r.st.base.events = pre ++ ev :: rest)
    (hnd : r.st.base.events.Nodup) :
    (service env ev (with_pending r rest.head?)).2.st.base.events.Nodup ∧
    ((service env ev (with_pending r rest.head?)).2.st.base.events = pre ++ ev :: rest ∨
      (service env ev (with_pending r rest.head?)).2.st.base.events = pre ++ rest) ∧
    ((service env ev (with_pending r rest.head?)).1 = Flow.next →
      (service env ev (with_pending r rest.head?)).2.st.base.pending = rest.head?) := by
  have hnd1 := hnd
  rw [hev] at hnd1
  have hpre : ev ∉ pre := fun h =>
    (List.nodup_append.1 hnd1).2.2 h (List.mem_cons_self _ _)
  have hrest : ev ∉ rest := (List.nodup_cons.1 (List.nodup_append.1 hnd1).2.1).1
  rcases service_cases env ev (with_pending r rest.head?) with
    ⟨_, hs⟩ | ⟨hf, _, _⟩ | ⟨hf, _, _, _⟩ | ⟨hf, _, _, _⟩
  · rw [hs]
    exact ⟨hnd, Or.inl hev, fun _ => rfl⟩
  all_goals
    obtain ⟨hb1, hb2, _, -⟩ := service_fire_base env ev _ hf
    have hre : (returned env ev (with_pending r rest.head?).st).base.events =
        pre ++ ev :: rest := by
      unfold returned
      rw [(hq _ _ _ _ _).1, entry_base]
      exact hev
    have hrp : (returned env ev (with_pending r rest.head?).st).base.pending = rest.head? := by
      unfold returned
      rw [(hq _ _ _ _ _).2, entry_base]
      rfl
    have hse : (settled env ev (with_pending r rest.head?).st).base.events.Nodup ∧
        ((settled env ev (with_pending r rest.head?).st).base.events = pre ++ ev :: rest ∨
          (settled env ev (with_pending r rest.head?).st).base.events = pre ++ rest) ∧
        (settled env ev (with_pending r rest.head?).st).base.pending = rest.head? := by
      unfold settled
      split
      · refine ⟨?_, Or.inr ?_, ?_⟩
        · rw [sudo_ev_del_events, hre]
          exact hnd1.erase _
        · rw [sudo_ev_del_events, hre, erase_middle _ _ _ hpre]
        · unfold sudo_ev_del
          split
          · simp only [hrp]
            split
            · next hh =>
              exfalso
              exact hrest (List.mem_of_mem_head? hh)
            · rfl
          · exact hrp
      · exact ⟨by rw [hre]; exact hnd1, Or.inl hre, hrp⟩
    rw [hb1]
    exact ⟨hse.1, hse.2.1, fun h => by rw [hb2 h]; exact hse.2.2⟩

theorem scenario_keeps_queue (answers : List SelectResult) :
    keeps_queue (scenario_env answers) :=
  fun _ _ _ _ _ => ⟨rfl, rfl⟩

theorem iteration_pass_end (env : Env) (flags fuel : Nat) (r r2 : Run)
    (hready1 : (answer env flags r).nready ≠ -1) (hready0 : (answer env flags r).nready ≠ 0)
    (hd : dispatch env fuel (TAILQ_FIRST (waited env flags r).st.base.events)
      (waited env flags r) = (some Flow.next, r2)) :
    iteration env flags fuel r =
      if ISSET r2.st.base.flags SUDO_EVBASE_LOOPEXIT then
        (Iter.ret 0,
          { r2 with st := { r2.st with base := { r2.st.base with
              pending := none
              flags := r2.st.base.flags ||| SUDO_EVBASE_GOT_EXIT } } })
      else if (flags &&& (SUDO_EVLOOP_ONCE ||| SUDO_EVLOOP_NONBLOCK)) != 0 then
        (Iter.ret 0, with_pending r2 none)
      else (Iter.again, with_pending r2 none) := by
  rw [iteration_eq]
  simp only [hready1, hready0, ↓reduceIte, hd]

/-- One pass over a queue holding one event that fires, is persistent and not
marked for deletion, and whose callback leaves the registration alone. -/
theorem iteration_single_persistent (env : Env) (flags fuel : Nat) (r : Run) (ev : Nat)
    (hevents : r.st.base.events = [ev])
    (hpersist : ISSET (r.st.evs ev).events SUDO_EV_PERSIST = true)
    (hdelete : ISSET (r.st.evs ev).events SUDO_EV_DELETE = false)
    (hready1 : (answer env flags r).nready ≠ -1) (hready0 : (answer env flags r).nready ≠ 0)
    (hfired : fired env.NFDBITS (r.st.evs ev) (waited env flags r).st.base ≠ 0)
    (hkeep : leaves_registration env ev (with_pending (waited env flags r) none).st) :
    (iteration env flags (fuel + 1) r).2.log =
      r.log ++ [wait_call env flags r,
        Call.callback ev (r.st.evs ev).fd
          (fired env.NFDBITS (r.st.evs ev) (waited env flags r).st.base)
          (r.st.evs ev).closure (with_pending (waited env flags r) none).st] ∧
    (iteration env flags (fuel + 1) r).2.st.base.events = [ev] ∧
    (iteration env flags (fuel + 1) r).2.st.base.nevents = r.st.base.nevents ∧
    ((iteration env flags (fuel + 1) r).2.st.evs ev).events = (r.st.evs ev).events ∧
    (iteration env flags (fuel + 1) r).1 =
      (if ISSET (returned env ev (with_pending (waited env flags r) none).st).base.flags
          SUDO_EVBASE_LOOPBREAK then Iter.ret 0
       else if ISSET (returned env ev (with_pending (waited env flags r) none).st).base.flags
          SUDO_EVBASE_LOOPCONT then Iter.again
       else if ISSET (returned env ev (with_pending (waited env flags r) none).st).base.flags
          SUDO_EVBASE_LOOPEXIT then Iter.ret 0
       else if (flags &&& (SUDO_EVLOOP_ONCE ||| SUDO_EVLOOP_NONBLOCK)) != 0 then Iter.ret 0
       else Iter.again) := by
  have hfirst : TAILQ_FIRST (waited env flags r).st.base.events = some ev := by
    show TAILQ_FIRST r.st.base.events = some ev
    rw [hevents]; rfl
  have hnext : TAILQ_NEXT (waited env flags r).st.base.events ev = none := by
    show TAILQ_NEXT r.st.base.events ev = none
    rw [hevents]; simp [TAILQ_NEXT]
  obtain ⟨hk1, hk2, hk3, hk4⟩ := hkeep
  have hpersist1 : ISSET ((with_pending (waited env flags r) none).st.evs ev).events
      SUDO_EV_PERSIST = true := hpersist
  have hentry := entry_persist ev (with_pending (waited env flags r) none).st hpersist1
  have hmask : ((returned env ev (with_pending (waited env flags r) none).st).evs ev).events =
      (r.st.evs ev).events := by
    rw [hk4, hentry]; rfl
  have hset := settled_unmarked env ev (with_pending (waited env flags r) none).st
    (by rw [hmask]; exact hdelete)
  have hfired1 : fired env.NFDBITS ((with_pending (waited env flags r) none).st.evs ev)
      (with_pending (waited env flags r) none).st.base ≠ 0 := hfired
  obtain ⟨hb1, hb2, hb3, hb4, _, _, _, hb8, _⟩ := service_fire_base env ev _ hfired1
  rw [hset] at hb1 hb2 hb4 hb8
  have hlog := service_fire_log env ev _ hfired1
  have hpend : (service env ev (with_pending (waited env flags r) none)).2.st.base.pending
      = none := by
    by_cases hfl : (service env ev (with_pending (waited env flags r) none)).1 = Flow.next
    · rw [hb2 hfl, hk3]; rfl
    · exact hb3 hfl
  have hdisp := dispatch_last env fuel ev (waited env flags r) hnext hpend
  have hlog1 : (service env ev (with_pending (waited env flags r) none)).2.log =
      r.log ++ [wait_call env flags r,
        Call.callback ev (r.st.evs ev).fd
          (fired env.NFDBITS (r.st.evs ev) (waited env flags r).st.base)
          (r.st.evs ev).closure (with_pending (waited env flags r) none).st] := by
    rw [hlog]
    show (waited env flags r).log ++ [invocation env ev _] = _
    rw [waited_log]
    unfold invocation
    rw [hentry]
    simp
    exact ⟨rfl, rfl, rfl⟩
  have he : (service env ev (with_pending (waited env flags r) none)).2.st.base.events = [ev] := by
    rw [hb1, hk1]; exact hevents
  have hn : (service env ev (with_pending (waited env flags r) none)).2.st.base.nevents =
      r.st.base.nevents := by
    rw [hb4, hk2]; rfl
  have hm : ((service env ev (with_pending (waited env flags r) none)).2.st.evs ev).events =
      (r.st.evs ev).events := by
    rw [hb8]; exact hmask
  rw [iteration_eq]
  simp only [hready1, hready0, ↓reduceIte, hfirst, hdisp]
  rcases service_cases env ev (with_pending (waited env flags r) none) with
    ⟨h0, _⟩ | ⟨_, hb, hs⟩ | ⟨_, hb, hc, hs⟩ | ⟨_, hb, hc, hs⟩
  · exact absurd h0 hfired1
  · rw [hs] at hlog1 he hn hm ⊢
    rw [hset] at hb
    simp only [hb, ↓reduceIte]
    exact ⟨hlog1, he, hn, hm, trivial⟩
  · rw [hs] at hlog1 he hn hm ⊢
    rw [hset] at hb hc
    simp only [hb, hc, ↓reduceIte]
    exact ⟨hlog1, he, hn, hm, by simp⟩
  · rw [hs] at hlog1 he hn hm ⊢
    rw [hset] at hb hc
    simp only [hb, hc, ↓reduceIte]
    rw [hset] at hlog1 he hn hm ⊢
    split
    · exact ⟨hlog1, he, hn, hm, by simp⟩
    · split
      · exact ⟨hlog1, he, hn, hm, by simp⟩
      · exact ⟨hlog1, he, hn, hm, by simp⟩

/-- What the loop does for an event with `SUDO_EV_PERSIST` that fires.  First
part, one step of the dispatch traversal for an event with `SUDO_EV_PERSIST`,
not marked with `SUDO_EV_DELETE`, whose mask `what`, computed on the sets of
the base when the traversal reaches it, is not zero and whose callback leaves
the registration alone: the
callback is entered on the memory as it was (the loop has not set
`SUDO_EV_DELETE`), and after the step the queue, `nevents` and the mask of
the event are unchanged (the loop has not unregistered it).  Second part, a
pass on a base holding one such event whose descriptor `select` reports ready
for a requested interest: the event is invoked once and is afterwards
registered as before, with the same mask and the same `nevents`; and when no
request is pending and neither `ONCE` nor `NONBLOCK` was passed, the run goes
on with another pass from that memory, to which the same applies without the
event having been added again. -/
theorem persistent_event_stays (env : Env) (flags : Nat) :
    (∀ ev r, fired env.NFDBITS (r.st.evs ev) r.st.base ≠ 0 →
      ISSET (r.st.evs ev).events SUDO_EV_PERSIST = true →
      ISSET (r.st.evs ev).events SUDO_EV_DELETE = false →
      leaves_registration env ev r.st →
      (service env ev r).2.log =
        r.log ++ [Call.callback ev (r.st.evs ev).fd (fired env.NFDBITS (r.st.evs ev) r.st.base)
          (r.st.evs ev).closure r.st] ∧
      (service env ev r).2.st.base.events = r.st.base.events ∧
      (service env ev r).2.st.base.nevents = r.st.base.nevents ∧
      ((service env ev r).2.st.evs ev).events = (r.st.evs ev).events) ∧
    (∀ fuel r ev, r.st.base.events = [ev] →
      ISSET (r.st.evs ev).events SUDO_EV_PERSIST = true →
      ISSET (r.st.evs ev).events SUDO_EV_DELETE = false →
      (answer env flags r).nready ≠ -1 → (answer env flags r).nready ≠ 0 →
      fired env.NFDBITS (r.st.evs ev) (waited env flags r).st.base ≠ 0 →
      leaves_registration env ev (with_pending (waited env flags r) none).st →
      (iteration env flags (fuel + 1) r).2.log =
        r.log ++ [wait_call env flags r,
          Call.callback ev (r.st.evs ev).fd
            (fired env.NFDBITS (r.st.evs ev) (waited env flags r).st.base)
            (r.st.evs ev).closure (with_pending (waited env flags r) none).st] ∧
      (iteration env flags (fuel + 1) r).2.st.base.events = [ev] ∧
      (iteration env flags (fuel + 1) r).2.st.base.nevents = r.st.base.nevents ∧
      ((iteration env flags (fuel + 1) r).2.st.evs ev).events = (r.st.evs ev).events ∧
      (ISSET (returned env ev (with_pending (waited env flags r) none).st).base.flags
          SUDO_EVBASE_LOOPBREAK = false →
        ISSET (returned env ev (with_pending (waited env flags r) none).st).base.flags
          SUDO_EVBASE_LOOPCONT = false →
        ISSET (returned env ev (with_pending (waited env flags r) none).st).base.flags
          SUDO_EVBASE_LOOPEXIT = false →
        flags &&& (SUDO_EVLOOP_ONCE ||| SUDO_EVLOOP_NONBLOCK) = 0 →
        r.st.base.nevents ≠ 0 →
        sudo_ev_loop_impl env flags (fuel + 2) r =
          sudo_ev_loop_impl env flags (fuel + 1) (iteration env flags (fuel + 1) r).2)) := by
  constructor
  · intro ev r hf hp hd hk
    obtain ⟨hk1, hk2, _, hk4⟩ := hk
    have hentry := entry_persist ev r.st hp
    have hmask : ((returned env ev r.st).evs ev).events = (r.st.evs ev).events := by
      rw [hk4, hentry]
    have hset := settled_unmarked env ev r.st (by rw [hmask]; exact hd)
    obtain ⟨hb1, _, _, hb4, _, _, _, hb8, _⟩ := service_fire_base env ev r hf
    rw [hset] at hb1 hb4 hb8
    refine ⟨?_, by rw [hb1, hk1], by rw [hb4, hk2], by rw [hb8, hmask]⟩
    rw [service_fire_log env ev r hf]
    unfold invocation
    rw [hentry]
  · intro fuel r ev h1 h2 h3 h4 h5 h6 h7
    obtain ⟨p1, p2, p3, p4, p5⟩ :=
      iteration_single_persistent env flags fuel r ev h1 h2 h3 h4 h5 h6 h7
    refine ⟨p1, p2, p3, p4, ?_⟩
    intro hb hc he hfl hne
    rw [hb, hc, he] at p5
    simp only [hfl, Bool.false_eq_true, ↓reduceIte, bne_self_eq_false] at p5
    rw [loop_succ env flags (fuel + 1) r hne]
    split
    · next v r1 heq => rw [heq] at p5; cases p5
    · next r1 heq => rw [heq]
    · next r1 heq => rw [heq] at p5; cases p5

/-- Scenario B: two passes, two invocations, the event registered throughout. -/
theorem persistent_event_stays_witness :
    invocations (sudo_ev_loop_impl (scenario_env [fd3_readable, fd3_readable]) 0 3
      persistent_reader).2.log = [(0, 3, SUDO_EV_READ), (0, 3, SUDO_EV_READ)] ∧
    (iteration (scenario_env [fd3_readable, fd3_readable]) 0 (1 + 1)
      persistent_reader).2.st.base.events = [0] ∧
    (iteration (scenario_env [fd3_readable, fd3_readable]) 0 (0 + 1)
      (iteration (scenario_env [fd3_readable, fd3_readable]) 0 (1 + 1)
        persistent_reader).2).2.st.base.events = [0] ∧
    (iteration (scenario_env [fd3_readable, fd3_readable]) 0 (0 + 1)
      (iteration (scenario_env [fd3_readable, fd3_readable]) 0 (1 + 1)
        persistent_reader).2).2.st.base.nevents = 1 :=
  ⟨by decide,
    ((persistent_event_stays (scenario_env [fd3_readable, fd3_readable]) 0).2 1
      persistent_reader 0 (by decide) (by decide) (by decide) (by decide) (by decide)
      (by decide) (by decide)).2.1,
    ((persistent_event_stays (scenario_env [fd3_readable, fd3_readable]) 0).2 0
      (iteration (scenario_env [fd3_readable, fd3_readable]) 0 (1 + 1) persistent_reader).2 0
      (by decide) (by decide) (by decide) (by decide) (by decide)
      (by decide) (by decide)).2.1,
    ((persistent_event_stays (scenario_env [fd3_readable, fd3_readable]) 0).2 0
      (iteration (scenario_env [fd3_readable, fd3_readable]) 0 (1 + 1) persistent_reader).2 0
      (by decide) (by decide) (by decide) (by decide) (by decide)
      (by decide) (by decide)).2.2.1⟩

/-- C8 as stated fails for an event without `SUDO_EV_PERSIST`: the loop
unregisters the event after its callback, the continue leads back to the loop
test, which finds no event, and the function returns 0 after a single call of
`select`, although `select` would report the descriptor ready again.  And
with a persistent event the second wait is entered, so that the call returns
-1 when that wait fails with `EBADF`. -/
theorem one_shot_continue_waits_once :
    (sudo_ev_loop_impl (scenario_env [fd3_readable, fd3_readable]) 0 5
      one_shot_reader_continues).1 = some 0 ∧
    waits (sudo_ev_loop_impl (scenario_env [fd3_readable, fd3_readable]) 0 5
      one_shot_reader_continues).2.log = 1 ∧
    invocations (sudo_ev_loop_impl (scenario_env [fd3_readable, fd3_readable]) 0 5
      one_shot_reader_continues).2.log = [(0, 3, SUDO_EV_READ)] ∧
    asks_continue (scenario_env [fd3_readable, fd3_readable])
      (invocation (scenario_env [fd3_readable, fd3_readable]) 0
        (with_pending (waited (scenario_env [fd3_readable, fd3_readable]) 0
          one_shot_reader_continues) none).st) = true ∧
    (sudo_ev_loop_impl (scenario_env [fd3_readable, wait_fails]) 0 5
      persistent_reader_continues).1 = some (-1) ∧
    waits (sudo_ev_loop_impl (scenario_env [fd3_readable, wait_fails]) 0 5
      persistent_reader_continues).2.log = 2 := by
  decide

/-- C8 amended (Scenario D).  First part: on a base holding one event with
`SUDO_EV_PERSIST` (not marked for deletion) whose descriptor `select` reports
ready and whose callback requests a continue and leaves the registration
alone, the log of the run starts with the call of `select`, the invocation of
the event, and a second call of `select` (on the sets rebuilt from the memory
the first pass left): the wait is entered again within the same call, under
any run flags, and the event is not invoked in between; and the function
returns -1 only if a wait of the run fails with an `errno` other than `EINTR`
and `ENOMEM`.  Second part: for an event without `SUDO_EV_PERSIST` under
the same conditions the function returns 0 after the one invocation, with a
single call of `select`. -/
theorem continue_waits_again (env : Env) (flags fuel : Nat) (s : State) (ev : Nat)
    (hevents : s.base.events = [ev])
    (hready1 : (answer env flags { st := s, log := [] }).nready ≠ -1)
    (hready0 : (answer env flags { st := s, log := [] }).nready ≠ 0)
    (hfired : fired env.NFDBITS (s.evs ev) (waited env flags { st := s, log := [] }).st.base ≠ 0)
    (hkeep : leaves_registration env ev
      (with_pending (waited env flags { st := s, log := [] }) none).st) :
    (ISSET (s.evs ev).events SUDO_EV_PERSIST = true →
      ISSET (s.evs ev).events SUDO_EV_DELETE = false →
      s.base.nevents ≠ 0 →
      asks_continue env (invocation env ev
        (with_pending (waited env flags { st := s, log := [] }) none).st) = true →
      (∃ rest, (sudo_ev_loop_impl env flags (fuel + 2) { st := s, log := [] }).2.log =
        wait_call env flags { st := s, log := [] } ::
        invocation env ev (with_pending (waited env flags { st := s, log := [] }) none).st ::
        wait_call env flags (iteration env flags (fuel + 1) { st := s, log := [] }).2 :: rest) ∧
      ((sudo_ev_loop_impl env flags (fuel + 2) { st := s, log := [] }).1 = some (-1) →
        ∃ c ∈ (sudo_ev_loop_impl env flags (fuel + 2) { st := s, log := [] }).2.log,
          fatal_wait env c = true)) ∧
    (ISSET (s.evs ev).events SUDO_EV_PERSIST = false →
      s.base.nevents = 1 →
      (sudo_ev_loop_impl env flags (fuel + 2) { st := s, log := [] }).1 = some 0 ∧
      (sudo_ev_loop_impl env flags (fuel + 2) { st := s, log := [] }).2.log =
        [wait_call env flags { st := s, log := [] },
          invocation env ev (with_pending (waited env flags { st := s, log := [] }) none).st] ∧
      (sudo_ev_loop_impl env flags (fuel + 2) { st := s, log := [] }).2.st.base.nevents = 0) := by
  constructor
  · intro hp hd hne hcont
    constructor
    · obtain ⟨p1, _, p3, _, p5⟩ := iteration_single_persistent env flags fuel
        { st := s, log := [] } ev hevents hp hd hready1 hready0 hfired hkeep
      rw [asks_continue_invocation] at hcont
      have hentry := entry_persist ev
        (with_pending (waited env flags { st := s, log := [] }) none).st hp
      have hmask : ((returned env ev
          (with_pending (waited env flags { st := s, log := [] }) none).st).evs ev).events =
          (s.evs ev).events := by
        rw [hkeep.2.2.2, hentry]; rfl
      have hset := settled_unmarked env ev
        (with_pending (waited env flags { st := s, log := [] }) none).st
        (by rw [hmask]; exact hd)
      rw [hset] at hcont
      have hb : ISSET (returned env ev
          (with_pending (waited env flags { st := s, log := [] }) none).st).base.flags
          SUDO_EVBASE_LOOPBREAK = false := by
        cases h : ISSET (returned env ev
          (with_pending (waited env flags { st := s, log := [] }) none).st).base.flags
          SUDO_EVBASE_LOOPBREAK
        · rfl
        · rw [h] at hcont; simp at hcont
      have hc : ISSET (returned env ev
          (with_pending (waited env flags { st := s, log := [] }) none).st).base.flags
          SUDO_EVBASE_LOOPCONT = true := by
        rw [hb] at hcont; simpa using hcont
      rw [hb, hc] at p5
      simp only [Bool.false_eq_true, ↓reduceIte] at p5
      have hne1 : (iteration env flags (fuel + 1) { st := s, log := [] }).2.st.base.nevents ≠ 0 := by
        rw [p3]; exact hne
      obtain ⟨rest, hrest⟩ := loop_first_wait env flags fuel
        (iteration env flags (fuel + 1) { st := s, log := [] }).2 hne1
      refine ⟨rest, ?_⟩
      rw [loop_succ env flags (fuel + 1) { st := s, log := [] } hne]
      have hpair : iteration env flags (fuel + 1) { st := s, log := [] } =
          (Iter.again, (iteration env flags (fuel + 1) { st := s, log := [] }).2) := by
        rw [← p5]
      rw [hpair]
      simp only
      rw [hrest, p1]
      unfold invocation
      rw [hentry]
      simp
      exact ⟨rfl, rfl, rfl⟩
    · intro hret
      rcases loop_fatal_shape env flags (fuel + 2) { st := s, log := [] } (by simp) with
        ⟨_, r0, _, hf, h2⟩ | ⟨h1, _⟩
      · rw [h2]
        refine ⟨wait_call env flags r0, List.mem_append_right _ (List.mem_singleton.2 rfl), ?_⟩
        simp [wait_call, fatal_wait, hf.1, hf.2.1, hf.2.2]
      · rcases h1 with h1 | h1 <;> rw [h1] at hret <;> cases hret
  · intro hp hn
    obtain ⟨q1, q2, q3, _⟩ := loop_single_one_shot env flags fuel { st := s, log := [] } ev
      hevents hn hp hready1 hready0 hfired hkeep
    exact ⟨q1, by simpa using q2, q3⟩

/-- Scenario D with a persistent event: `select`, the invocation, `select` again. -/
theorem continue_waits_again_witness :
    waits (sudo_ev_loop_impl (scenario_env [fd3_readable]) SUDO_EVLOOP_ONCE (0 + 2)
      { st := persistent_reader_continues.st, log := [] }).2.log = 2 ∧
    invocations (sudo_ev_loop_impl (scenario_env [fd3_readable]) SUDO_EVLOOP_ONCE (0 + 2)
      { st := persistent_reader_continues.st, log := [] }).2.log = [(0, 3, SUDO_EV_READ)] ∧
    (sudo_ev_loop_impl (scenario_env [fd3_readable]) SUDO_EVLOOP_ONCE (0 + 2)
      { st := persistent_reader_continues.st, log := [] }).1 = some 0 ∧
    ∃ rest, (sudo_ev_loop_impl (scenario_env [fd3_readable]) SUDO_EVLOOP_ONCE (0 + 2)
        { st := persistent_reader_continues.st, log := [] }).2.log =
      wait_call (scenario_env [fd3_readable]) SUDO_EVLOOP_ONCE
        { st := persistent_reader_continues.st, log := [] } ::
      invocation (scenario_env [fd3_readable]) 0
        (with_pending (waited (scenario_env [fd3_readable]) SUDO_EVLOOP_ONCE
          { st := persistent_reader_continues.st, log := [] }) none).st ::
      wait_call (scenario_env [fd3_readable]) SUDO_EVLOOP_ONCE
        (iteration (scenario_env [fd3_readable]) SUDO_EVLOOP_ONCE (0 + 1)
          { st := persistent_reader_continues.st, log := [] }).2 :: rest :=
  ⟨by decide, by decide, by decide,
    ((continue_waits_again (scenario_env [fd3_readable]) SUDO_EVLOOP_ONCE 0
      persistent_reader_continues.st 0 (by decide) (by decide) (by decide) (by decide)
      (by decide)).1 (by decide) (by decide) (by decide) (by decide)).1⟩

/-- C2 fails on the code when two events share a descriptor.  A READ event
and a WRITE event are registered on descriptor 3 and `select` reports it
readable and writable, so the fired mask of each is not zero on the sets
`select` returned.  The pass invokes the first; the loop then unregisters it,
and `sudo_ev_del_impl` clears descriptor 3 from `base->readfds` and
`base->writefds`, the sets that hold the answer of `select`; the mask computed
for the second event is 0 and it is skipped, although it is still registered.
Under `ONCE` the function returns 0 with the second event never invoked. -/
theorem shared_descriptor_is_skipped :
    fired 64 (reader_and_writer.st.evs 0)
      (waited (scenario_env [fd3_readable_writable]) SUDO_EVLOOP_ONCE
        reader_and_writer).st.base = SUDO_EV_READ ∧
    fired 64 (reader_and_writer.st.evs 1)
      (waited (scenario_env [fd3_readable_writable]) SUDO_EVLOOP_ONCE
        reader_and_writer).st.base = SUDO_EV_WRITE ∧
    (sudo_ev_loop_impl (scenario_env [fd3_readable_writable]) SUDO_EVLOOP_ONCE 5
      reader_and_writer).1 = some 0 ∧
    invocations (sudo_ev_loop_impl (scenario_env [fd3_readable_writable]) SUDO_EVLOOP_ONCE 5
      reader_and_writer).2.log = [(0, 3, SUDO_EV_READ)] ∧
    waits (sudo_ev_loop_impl (scenario_env [fd3_readable_writable]) SUDO_EVLOOP_ONCE 5
      reader_and_writer).2.log = 1 ∧
    (sudo_ev_loop_impl (scenario_env [fd3_readable_writable]) SUDO_EVLOOP_ONCE 5
      reader_and_writer).2.st.base.events = [1] ∧
    (sudo_ev_loop_impl (scenario_env [fd3_readable_writable]) SUDO_EVLOOP_ONCE 5
      reader_and_writer).2.st.base.nevents = 1 ∧
    FD_ISSET 64 3 (sudo_ev_loop_impl (scenario_env [fd3_readable_writable]) SUDO_EVLOOP_ONCE 5
      reader_and_writer).2.st.base.writefds = false := by
  decide

theorem getD_set_self (l : List Nat) (i v : Nat) :
    (l.set i v).getD i 0 = if i < l.length then v else 0 := by
  simp only [List.getD_eq_getElem?_getD, List.getElem?_set, ↓reduceIte]
  split <;> simp

theorem getD_set_other (l : List Nat) (i j v : Nat) (h : i ≠ j) :
    (l.set i v).getD j 0 = l.getD j 0 := by
  simp only [List.getD_eq_getElem?_getD, List.getElem?_set_ne h]

theorem getD_beyond (l : List Nat) (i : Nat) (h : ¬ i < l.length) : l.getD i 0 = 0 := by
  simp only [List.getD_eq_getElem?_getD]
  rw [List.getElem?_eq_none (by omega)]
  rfl

theorem testBit_clear_self (w N b : Nat) (hb : b < N) :
    (w &&& ((2 ^ N - 1) ^^^ (1 <<< b))).testBit b = false := by
  simp [Nat.testBit_and, Nat.testBit_xor, Nat.testBit_two_pow_sub_one, Nat.one_shiftLeft,
    Nat.testBit_two_pow, hb]

theorem testBit_clear_other (w N b c : Nat) (hc : c < N) (hne : b ≠ c) :
    (w &&& ((2 ^ N - 1) ^^^ (1 <<< b))).testBit c = w.testBit c := by
  simp [Nat.testBit_and, Nat.testBit_xor, Nat.testBit_two_pow_sub_one, Nat.one_shiftLeft,
    Nat.testBit_two_pow, hc, hne]

/-- After `FD_CLR(fd, set)` the descriptor `fd` is not in the set. -/
theorem FD_ISSET_FD_CLR_self (N : Nat) (hN : 0 < N) (fd : Int) (s : fd_set) :
    FD_ISSET N fd (FD_CLR N fd s) = false := by
  unfold FD_ISSET FD_CLR
  by_cases hfd : fd < 0
  · simp [hfd]
  · simp only [hfd, ↓reduceIte]
    rw [getD_set_self]
    split
    · exact testBit_clear_self _ _ _ (Nat.mod_lt _ hN)
    · simp

/-- `FD_CLR(fd, set)` leaves every other descriptor as it was. -/
theorem FD_ISSET_FD_CLR_other (N : Nat) (hN : 0 < N) (fd d : Int) (s : fd_set) (h : d ≠ fd) :
    FD_ISSET N d (FD_CLR N fd s) = FD_ISSET N d s := by
  unfold FD_ISSET FD_CLR
  by_cases hd : d < 0
  · simp [hd]
  · by_cases hfd : fd < 0
    · simp [hfd]
    · simp only [hd, hfd, ↓reduceIte]
      by_cases hw : fd.toNat / N = d.toNat / N
      · have hbit : fd.toNat % N ≠ d.toNat % N := by
          intro hm
          apply h
          have h1 := Nat.div_add_mod fd.toNat N
          have h2 := Nat.div_add_mod d.toNat N
          rw [hw, hm] at h1
          have h3 : fd.toNat = d.toNat := by omega
          omega
        rw [hw, getD_set_self]
        split
        · exact testBit_clear_other _ _ _ _ (Nat.mod_lt _ hN) hbit
        · next hlen => rw [getD_beyond _ _ hlen]
      · rw [getD_set_other _ _ _ _ hw]

theorem faded_refl (N : Nat) (rs ws : fd_set) : faded N rs ws rs ws :=
  fun _ => Or.inl ⟨rfl, rfl⟩

theorem faded_trans (N : Nat) (r0 w0 r1 w1 r2 w2 : fd_set)
    (h1 : faded N r0 w0 r1 w1) (h2 : faded N r1 w1 r2 w2) : faded N r0 w0 r2 w2 := by
  intro d
  rcases h2 d with ⟨ha, hb⟩ | h
  · rcases h1 d with ⟨hc, hd⟩ | ⟨hc, hd⟩
    · exact Or.inl ⟨ha.trans hc, hb.trans hd⟩
    · exact Or.inr ⟨ha.trans hc, hb.trans hd⟩
  · exact Or.inr h

theorem sudo_ev_del_faded (N : Nat) (hN : 0 < N) (s : State) (ev : Nat) :
    faded N s.base.readfds s.base.writefds (sudo_ev_del N s ev).2.base.readfds
      (sudo_ev_del N s ev).2.base.writefds := by
  unfold sudo_ev_del
  split
  · intro d
    by_cases hd : d = (s.evs ev).fd
    · right
      rw [hd]
      exact ⟨FD_ISSET_FD_CLR_self N hN _ _, FD_ISSET_FD_CLR_self N hN _ _⟩
    · left
      exact ⟨FD_ISSET_FD_CLR_other N hN _ _ _ hd, FD_ISSET_FD_CLR_other N hN _ _ _ hd⟩
  · exact faded_refl _ _ _

theorem settled_faded (env : Env) (hN : 0 < env.NFDBITS) (hs : spares_sets env) (ev : Nat)
    (s : State) :
    faded env.NFDBITS s.base.readfds s.base.writefds (settled env ev s).base.readfds
      (settled env ev s).base.writefds := by
  have h1 : faded env.NFDBITS s.base.readfds s.base.writefds
      (returned env ev s).base.readfds (returned env ev s).base.writefds := by
    have := hs (s.evs ev).callback (s.evs ev).fd (fired env.NFDBITS (s.evs ev) s.base)
      (s.evs ev).closure (entry ev s)
    rw [entry_base] at this
    exact this
  unfold settled
  split
  · exact faded_trans _ _ _ _ _ _ _ h1 (sudo_ev_del_faded _ hN _ _)
  · exact h1

theorem last_answer_append (cur : Option SelectResult) (l1 l2 : List Call) :
    last_answer cur (l1 ++ l2) = last_answer (last_answer cur l1) l2 := by
  induction l1 generalizing cur with
  | nil => rfl
  | cons c l ih =>
    cases c with
    | select _ _ _ _ res => exact ih (some res)
    | callback _ _ _ _ _ => exact ih cur

theorem follows_answer_append (N : Nat) (cur : Option SelectResult) (l1 l2 : List Call) :
    follows_answer N cur (l1 ++ l2) ↔
      follows_answer N cur l1 ∧ follows_answer N (last_answer cur l1) l2 := by
  induction l1 generalizing cur with
  | nil => simp [follows_answer, last_answer]
  | cons c l ih =>
    cases c with
    | select _ _ _ _ res => cases cur <;> exact ih (some res)
    | callback ev fd what cl mem =>
      cases cur with
      | none => exact ih none
      | some res =>
        show (_ ∧ follows_answer N (some res) (l ++ l2)) ↔ _
        rw [ih (some res)]
        exact and_assoc.symm

theorem fired_eq_intersection (N : Nat) (e : sudo_event) (b : sudo_event_base) :
    fired N e b = intersection N e b.readfds b.writefds := fired_eq N e b

/-- An event that fires from sets that are a faded copy of an answer of
`select` gets the intersection of its interest with that answer. -/
theorem fired_of_faded (N : Nat) (e : sudo_event) (b : sudo_event_base) (res : SelectResult)
    (hf : faded N res.readfds res.writefds b.readfds b.writefds) (h : fired N e b ≠ 0) :
    fired N e b = intersection N e res.readfds res.writefds := by
  rcases hf e.fd with ⟨h1, h2⟩ | ⟨h1, h2⟩
  · rw [fired_eq_intersection]
    unfold intersection
    rw [h1, h2]
  · exfalso
    apply h
    rw [fired_eq, h1, h2]
    simp

theorem intersection_entry (N : Nat) (ev : Nat) (s : State) (rs ws : fd_set) :
    intersection N ((entry ev s).evs ev) rs ws = intersection N (s.evs ev) rs ws := by
  unfold intersection
  rw [entry_fd, entry_events_and ev s _ (by decide), entry_events_and ev s _ (by decide)]

/-- With callbacks that spare the sets, every invocation of a run passes the
intersection of the interest of its event with the sets the latest call of
`select` returned. -/
theorem loop_follows_answer (env : Env) (flags : Nat) (hN : 0 < env.NFDBITS)
    (hs : spares_sets env) :
    ∀ fuel r,
      (follows_answer env.NFDBITS none r.log ∧
        ∀ res, last_answer none r.log = some res →
          faded env.NFDBITS res.readfds res.writefds r.st.base.readfds r.st.base.writefds) →
      (follows_answer env.NFDBITS none (sudo_ev_loop_impl env flags fuel r).2.log ∧
        ∀ res, last_answer none (sudo_ev_loop_impl env flags fuel r).2.log = some res →
          faded env.NFDBITS res.readfds res.writefds
            (sudo_ev_loop_impl env flags fuel r).2.st.base.readfds
            (sudo_ev_loop_impl env flags fuel r).2.st.base.writefds) := by
  apply loop_inv env flags
    (fun r => follows_answer env.NFDBITS none r.log ∧
      ∀ res, last_answer none r.log = some res →
        faded env.NFDBITS res.readfds res.writefds r.st.base.readfds r.st.base.writefds)
    (fun _ _ => True)
  · intro ev r hI _
    refine ⟨?_, fun _ => trivial⟩
    have hlast : last_answer none ((with_pending r (TAILQ_NEXT r.st.base.events ev)).log ++
        [invocation env ev (with_pending r (TAILQ_NEXT r.st.base.events ev)).st]) =
        last_answer none r.log := by
      rw [last_answer_append]
      rfl
    have hfade : ∀ res, last_answer none r.log = some res →
        faded env.NFDBITS res.readfds res.writefds
          (settled env ev (with_pending r (TAILQ_NEXT r.st.base.events ev)).st).base.readfds
          (settled env ev (with_pending r (TAILQ_NEXT r.st.base.events ev)).st).base.writefds :=
      fun res hres => faded_trans _ _ _ _ _ _ _ (hI.2 res hres)
        (settled_faded env hN hs ev (with_pending r (TAILQ_NEXT r.st.base.events ev)).st)
    have hfollow : fired env.NFDBITS (r.st.evs ev) r.st.base ≠ 0 →
        follows_answer env.NFDBITS none
          ((with_pending r (TAILQ_NEXT r.st.base.events ev)).log ++
            [invocation env ev (with_pending r (TAILQ_NEXT r.st.base.events ev)).st]) := by
      intro hf
      rw [follows_answer_append]
      refine ⟨hI.1, ?_⟩
      show follows_answer env.NFDBITS (last_answer none r.log) _
      cases hres : last_answer none r.log with
      | none => trivial
      | some res =>
        refine ⟨?_, trivial⟩
        rw [intersection_entry]
        exact fired_of_faded env.NFDBITS (r.st.evs ev) r.st.base res (hI.2 res hres) hf
    rcases service_cases env ev (with_pending r (TAILQ_NEXT r.st.base.events ev)) with
      ⟨_, hsv⟩ | ⟨hf, _, hsv⟩ | ⟨hf, _, _, hsv⟩ | ⟨hf, _, _, hsv⟩
    · rw [hsv]; exact hI
    · rw [hsv]
      exact ⟨hfollow hf, fun res hres => hfade res (by rw [← hlast]; exact hres)⟩
    · rw [hsv]
      exact ⟨hfollow hf, fun res hres => hfade res (by rw [← hlast]; exact hres)⟩
    · rw [hsv]
      exact ⟨hfollow hf, fun res hres => hfade res (by rw [← hlast]; exact hres)⟩
  · intro r hI
    refine ⟨⟨?_, ?_⟩, trivial⟩
    · rw [waited_log, follows_answer_append]
      exact ⟨hI.1, by
        unfold wait_call
        cases last_answer none r.log <;> exact trivial⟩
    · intro res hres
      rw [waited_log, last_answer_append] at hres
      unfold wait_call at hres
      simp only [last_answer] at hres
      cases Option.some.inj hres
      exact faded_refl _ _ _
  · intro r p f hI
    exact hI

theorem scenario_spares_sets (answers : List SelectResult) :
    spares_sets (scenario_env answers) :=
  fun _ _ _ _ _ => faded_refl _ _ _

/-- C1 (mask intersection).  First part: in every run of `sudo_ev_loop_impl`,
whatever `select` answers (bits that were not requested included) and
whatever the callbacks do, every invocation in the log has a `what` that is
not zero, equals the read interest of the event if its descriptor is in
`base->readfds` united with its write interest if its descriptor is in
`base->writefds` (the sets as they stand when the callback is entered), lies
within `ev->events & (READ|WRITE)` and holds neither `SUDO_EV_PERSIST` nor
`SUDO_EV_DELETE`; so an event whose computed mask is 0 is not invoked.
Second part: when the callbacks change the two sets only by clearing
descriptors from both (what `sudo_ev_del` and the growth of `sudo_ev_add` do),
the `what` of every invocation is that intersection on the sets as the latest
call of `select` returned them. -/
theorem loop_what_is_intersection (env : Env) (flags fuel : Nat) (s : State) :
    (∀ c ∈ (sudo_ev_loop_impl env flags fuel { st := s, log := [] }).2.log,
      mask_ok env.NFDBITS c) ∧
    (0 < env.NFDBITS → spares_sets env →
      follows_answer env.NFDBITS none
        (sudo_ev_loop_impl env flags fuel { st := s, log := [] }).2.log) :=
  ⟨loop_log_inv env flags (mask_ok env.NFDBITS) (mask_ok_invocation env)
      (fun _ _ _ _ _ => trivial) fuel { st := s, log := [] } (by simp),
    fun hN hs => (loop_follows_answer env flags hN hs fuel { st := s, log := [] }
      ⟨trivial, fun _ h => by cases h⟩).1⟩

/-- The invocation of Scenario A: `what` is `SUDO_EV_READ`. -/
theorem loop_what_is_intersection_witness :
    Call.callback 0 3 SUDO_EV_READ 7
        (entry 0 (waited (scenario_env [fd3_readable]) SUDO_EVLOOP_ONCE one_shot_reader).st) ∈
      (sudo_ev_loop_impl (scenario_env [fd3_readable]) SUDO_EVLOOP_ONCE 2
        { st := one_shot_reader.st, log := [] }).2.log ∧
    mask_ok 64 (Call.callback 0 3 SUDO_EV_READ 7
      (entry 0 (waited (scenario_env [fd3_readable]) SUDO_EVLOOP_ONCE one_shot_reader).st)) ∧
    0 < (scenario_env [fd3_readable]).NFDBITS ∧
    follows_answer 64 none
      (sudo_ev_loop_impl (scenario_env [fd3_readable]) SUDO_EVLOOP_ONCE 2
        { st := one_shot_reader.st, log := [] }).2.log :=
  ⟨List.mem_cons_of_mem _ (List.mem_cons_self _ _),
   (loop_what_is_intersection (scenario_env [fd3_readable]) SUDO_EVLOOP_ONCE 2
     one_shot_reader.st).1 _ (List.mem_cons_of_mem _ (List.mem_cons_self _ _)),
   by decide,
   (loop_what_is_intersection (scenario_env [fd3_readable]) SUDO_EVLOOP_ONCE 2
     one_shot_reader.st).2 (by decide) (scenario_spares_sets _)⟩

theorem iteration_transient (env : Env) (flags fuel : Nat) (r : Run)
    (h : transient_answer env (answer env flags r)) :
    iteration env flags fuel r = (Iter.again, waited env flags r) := by
  rw [iteration_eq]
  simp [h.1, h.2]

theorem howmany_succ (N : Nat) (hN : 0 < N) (fd : Int) (hfd : 0 ≤ fd) :
    howmany (fd + 1) N = fd / N + 1 := by
  have hN0 : (0 : Int) < N := by exact_mod_cast hN
  unfold howmany
  rw [Int.tdiv_eq_ediv (by omega) (by omega)]
  have : fd + 1 + ((N : Int) - 1) = fd + N := by ring
  rw [this, Int.add_ediv_of_dvd_right (dvd_refl _), Int.ediv_self (by omega)]

theorem howmany_succ_bounds (N : Nat) (hN : 0 < N) (fd : Int) (hfd : 0 ≤ fd) :
    fd ≤ howmany (fd + 1) N * N - 1 ∧
    ∀ k : Int, fd ≤ k * N - 1 → howmany (fd + 1) N * N - 1 ≤ k * N - 1 := by
  have hN0 : (0 : Int) < N := by exact_mod_cast hN
  rw [howmany_succ N hN fd hfd]
  constructor
  · have := Int.lt_ediv_add_one_mul_self fd hN0
    omega
  · intro k hk
    have h1 : fd / N < k := by
      apply Int.ediv_lt_of_lt_mul hN0
      omega
    have h2 : (fd / N + 1) * N ≤ k * N := Int.mul_le_mul_of_nonneg_right (by omega) (by omega)
    omega

theorem add_impl_grow (N : Nat) (base : sudo_event_base) (ev : sudo_event)
    (h : ev.fd > base.maxfd) :
    (sudo_ev_add_impl N base ev).2 =
      { base with
        readfds := ecalloc (howmany (ev.fd + 1) N)
        writefds := ecalloc (howmany (ev.fd + 1) N)
        maxfd := howmany (ev.fd + 1) N * N - 1
        nevents := base.nevents + 1 } := by
  simp [sudo_ev_add_impl, h]

theorem add_impl_keep (N : Nat) (base : sudo_event_base) (ev : sudo_event)
    (h : ¬ ev.fd > base.maxfd) :
    (sudo_ev_add_impl N base ev).2 = { base with nevents := base.nevents + 1 } := by
  simp [sudo_ev_add_impl, h]

/-- C13 (capacity after add): for a word width `NFDBITS > 0`, every base and
every event with `0 <= ev->fd` (arithmetic on `int` not overflowing), after
`sudo_ev_add_impl` the new `maxfd` is at least `ev->fd` and at least the old
`maxfd`; when `ev->fd <= maxfd` held before, `maxfd` and both descriptor sets
are unchanged; when `ev->fd > maxfd` held before, the new `maxfd` is
`howmany(ev->fd + 1, NFDBITS) * NFDBITS - 1`, which is at least `ev->fd` and is
the least value of the form `k * NFDBITS - 1` with that property. -/
theorem capacity_after_add (N : Nat) (hN : 0 < N) (base : sudo_event_base) (ev : sudo_event)
    (hfd : 0 ≤ ev.fd) :
    (sudo_ev_add_impl N base ev).2.maxfd ≥ ev.fd ∧
    (sudo_ev_add_impl N base ev).2.maxfd ≥ base.maxfd ∧
    (ev.fd ≤ base.maxfd →
      (sudo_ev_add_impl N base ev).2.maxfd = base.maxfd ∧
      (sudo_ev_add_impl N base ev).2.readfds = base.readfds ∧
      (sudo_ev_add_impl N base ev).2.writefds = base.writefds) ∧
    (ev.fd > base.maxfd →
      (sudo_ev_add_impl N base ev).2.maxfd = howmany (ev.fd + 1) N * N - 1 ∧
      ev.fd ≤ howmany (ev.fd + 1) N * N - 1 ∧
      ∀ k : Int, ev.fd ≤ k * N - 1 → howmany (ev.fd + 1) N * N - 1 ≤ k * N - 1) := by
  have hb := howmany_succ_bounds N hN ev.fd hfd
  by_cases h : ev.fd > base.maxfd
  · rw [add_impl_grow N base ev h]
    refine ⟨hb.1, ?_, fun h2 => absurd h (by omega), fun _ => ⟨rfl, hb.1, hb.2⟩⟩
    have := hb.1
    show howmany (ev.fd + 1) N * N - 1 ≥ base.maxfd
    omega
  · rw [add_impl_keep N base ev h]
    refine ⟨?_, ?_, fun _ => ⟨rfl, rfl, rfl⟩, fun h2 => absurd h2 h⟩
    · show base.maxfd ≥ ev.fd
      omega
    · show base.maxfd ≥ base.maxfd
      omega

/-- Adding descriptor 64 to a base of one 64-bit word gives `maxfd` 127, and
adding descriptor 3 leaves `maxfd` at 63. -/
theorem capacity_after_add_witness :
    0 < 64 ∧ (0 : Int) ≤ fd64_event.fd ∧ fd64_event.fd > marked_base.maxfd ∧
    (sudo_ev_add_impl 64 marked_base fd64_event).2.maxfd = 127 ∧
    (sudo_ev_add_impl 64 marked_base fd64_event).2.maxfd ≥ fd64_event.fd ∧
    (sudo_ev_add_impl 64 marked_base fd3_event).2.maxfd = 63 :=
  ⟨by decide, by decide, by decide, by decide,
    (capacity_after_add 64 (by decide) marked_base fd64_event (by decide)).1,
    by decide⟩

theorem FD_CLR_length (N : Nat) (fd : Int) (s : fd_set) : (FD_CLR N fd s).length = s.length := by
  unfold FD_CLR
  split <;> simp

/-- C15 (delete clears interest and does not shrink): for a word width
`NFDBITS > 0`, every base and every event with `0 <= ev->fd <= base->maxfd`,
after `sudo_ev_del_impl` the descriptor `ev->fd` is marked neither in
`base->readfds` nor in `base->writefds`, every other descriptor is marked in
each of the two sets exactly if it was before, and `base->maxfd`, the number
of words of both sets, `base->flags`, the collection and the cursor are
unchanged; the function returns 0.  (The embedding of `FD_CLR` is total, so
the proof does not use the bounds on `ev->fd`; they delimit the calls for
which `FD_CLR` stays within the storage.) -/
theorem delete_clears_interest (N : Nat) (hN : 0 < N) (base : sudo_event_base)
    (ev : sudo_event) (_hfd : 0 ≤ ev.fd) (_hmax : ev.fd ≤ base.maxfd) :
    (sudo_ev_del_impl N base ev).1 = 0 ∧
    FD_ISSET N ev.fd (sudo_ev_del_impl N base ev).2.readfds = false ∧
    FD_ISSET N ev.fd (sudo_ev_del_impl N base ev).2.writefds = false ∧
    (∀ d : Int, d ≠ ev.fd →
      FD_ISSET N d (sudo_ev_del_impl N base ev).2.readfds = FD_ISSET N d base.readfds ∧
      FD_ISSET N d (sudo_ev_del_impl N base ev).2.writefds = FD_ISSET N d base.writefds) ∧
    (sudo_ev_del_impl N base ev).2.maxfd = base.maxfd ∧
    (sudo_ev_del_impl N base ev).2.readfds.length = base.readfds.length ∧
    (sudo_ev_del_impl N base ev).2.writefds.length = base.writefds.length ∧
    (sudo_ev_del_impl N base ev).2.flags = base.flags ∧
    (sudo_ev_del_impl N base ev).2.events = base.events ∧
    (sudo_ev_del_impl N base ev).2.pending = base.pending :=
  ⟨rfl, FD_ISSET_FD_CLR_self N hN ev.fd base.readfds,
    FD_ISSET_FD_CLR_self N hN ev.fd base.writefds,
    fun d hd => ⟨FD_ISSET_FD_CLR_other N hN ev.fd d base.readfds hd,
      FD_ISSET_FD_CLR_other N hN ev.fd d base.writefds hd⟩,
    rfl, FD_CLR_length N ev.fd base.readfds, FD_CLR_length N ev.fd base.writefds, rfl, rfl, rfl⟩

/-- Deleting an event on descriptor 3 from a base in which the descriptors 3
and 4 are marked for writing: descriptor 3 is cleared, descriptor 4 stays. -/
theorem delete_clears_interest_witness :
    0 < 64 ∧ (0 : Int) ≤ fd3_event.fd ∧ fd3_event.fd ≤ marked_base.maxfd ∧
    FD_ISSET 64 3 marked_base.readfds = true ∧
    FD_ISSET 64 3 marked_base.writefds = true ∧
    FD_ISSET 64 4 marked_base.writefds = true ∧
    FD_ISSET 64 fd3_event.fd (sudo_ev_del_impl 64 marked_base fd3_event).2.readfds = false ∧
    FD_ISSET 64 fd3_event.fd (sudo_ev_del_impl 64 marked_base fd3_event).2.writefds = false ∧
    FD_ISSET 64 4 (sudo_ev_del_impl 64 marked_base fd3_event).2.writefds = true ∧
    (sudo_ev_del_impl 64 marked_base fd3_event).2.maxfd = 63 :=
  ⟨by decide, by decide, by decide, by decide, by decide, by decide,
    (delete_clears_interest 64 (by decide) marked_base fd3_event (by decide) (by decide)).2.1,
    (delete_clears_interest 64 (by decide) marked_base fd3_event (by decide) (by decide)).2.2.1,
    by decide, by decide⟩

theorem FD_ISSET_ecalloc (N : Nat) (d n : Int) : FD_ISSET N d (ecalloc n) = false := by
  unfold FD_ISSET ecalloc
  split
  · rfl
  · by_cases h : d.toNat / N < n.toNat
    · simp [List.getD_eq_getElem?_getD, List.getElem?_replicate, h]
    · simp [List.getD_eq_getElem?_getD, List.getElem?_replicate, h]

/-- Whenever `sudo_ev_add_impl` grows the sets (`ev->fd > base->maxfd`), no
descriptor at all is marked in either set afterwards. -/
theorem add_impl_grow_unmarks (N : Nat) (base : sudo_event_base) (ev : sudo_event)
    (h : ev.fd > base.maxfd) (d : Int) :
    FD_ISSET N d (sudo_ev_add_impl N base ev).2.readfds = false ∧
    FD_ISSET N d (sudo_ev_add_impl N base ev).2.writefds = false := by
  rw [add_impl_grow N base ev h]
  exact ⟨FD_ISSET_ecalloc N d _, FD_ISSET_ecalloc N d _⟩

/-- C12 (growth and previously tracked state), the behaviour of the code: on
the base of one 64-bit word in which descriptor 3 is marked in `readfds` and
the descriptors 3 and 4 in `writefds` (`maxfd` 63), `sudo_ev_add_impl` for an
event on descriptor 64 returns 0 with `maxfd` 127 and two words per set, all
zero: the descriptors 3 and 4, which lie within the old `maxfd` and were
marked before the call, are marked in neither set after it. -/
theorem growth_drops_marks :
    fd64_event.fd > marked_base.maxfd ∧
    FD_ISSET 64 3 marked_base.readfds = true ∧
    FD_ISSET 64 3 marked_base.writefds = true ∧
    FD_ISSET 64 4 marked_base.writefds = true ∧
    (sudo_ev_add_impl 64 marked_base fd64_event).1 = 0 ∧
    (sudo_ev_add_impl 64 marked_base fd64_event).2.maxfd = 127 ∧
    (sudo_ev_add_impl 64 marked_base fd64_event).2.readfds = [0, 0] ∧
    (sudo_ev_add_impl 64 marked_base fd64_event).2.writefds = [0, 0] ∧
    FD_ISSET 64 3 (sudo_ev_add_impl 64 marked_base fd64_event).2.readfds = false ∧
    FD_ISSET 64 3 (sudo_ev_add_impl 64 marked_base fd64_event).2.writefds = false ∧
    FD_ISSET 64 4 (sudo_ev_add_impl 64 marked_base fd64_event).2.writefds = false := by
  decide

theorem run_ops_cons (N : Nat) (s : State) (op : Op) (ops : List Op) :
    run_ops N s (op :: ops) = run_ops N (Op.apply N s op) ops := rfl

theorem apply_keeps_count (N : Nat) (s : State) (op : Op)
    (hop : admissible N s [op])
    (h : s.base.nevents = (s.base.events.length : Int)) :
    (Op.apply N s op).base.nevents = ((Op.apply N s op).base.events.length : Int) := by
  cases op with
  | add ev tohead =>
    show (sudo_ev_add_impl N s.base (s.evs ev)).2.nevents =
      ((if tohead then ev :: s.base.events else s.base.events ++ [ev]).length : Int)
    have hn : (sudo_ev_add_impl N s.base (s.evs ev)).2.nevents = s.base.nevents + 1 := by
      unfold sudo_ev_add_impl
      split <;> rfl
    rw [hn, h]
    cases tohead <;> simp
  | del ev =>
    have hmem : ev ∈ s.base.events := hop.1
    show (sudo_ev_del N s ev).2.base.nevents = ((sudo_ev_del N s ev).2.base.events.length : Int)
    rw [sudo_ev_del_nevents N s ev hmem, sudo_ev_del_events, List.length_erase_of_mem hmem, h]
    have : 0 < s.base.events.length := List.length_pos_of_mem hmem
    omega

theorem run_keeps_count (N : Nat) :
    ∀ (ops : List Op) (s : State), admissible N s ops →
      s.base.nevents = (s.base.events.length : Int) →
      ∀ k, (run_ops N s (ops.take k)).base.nevents =
        ((run_ops N s (ops.take k)).base.events.length : Int) := by
  intro ops
  induction ops with
  | nil => intro s _ h k; simpa [run_ops] using h
  | cons op ops ih =>
    intro s hadm h k
    cases k with
    | zero => simpa [run_ops] using h
    | succ k =>
      rw [List.take_succ_cons, run_ops_cons]
      have h1 : admissible N s [op] ∧ admissible N (Op.apply N s op) ops := by
        cases op with
        | add ev tohead => exact ⟨⟨hadm.1, trivial⟩, hadm.2⟩
        | del ev => exact ⟨⟨hadm.1, trivial⟩, hadm.2⟩
      exact ih _ h1.2 (apply_keeps_count N s op h1.1 h) k

/-- C14 (registration-count invariant): `sudo_ev_base_alloc_impl` returns 0 and
sets `nevents` to 0; `sudo_ev_add_impl` returns 0 and increases `nevents` by
exactly 1 for every base and every event (whatever the descriptor, so also
for one that another registered event has or one beyond `maxfd`);
`sudo_ev_del_impl` returns 0 and decreases `nevents` by exactly 1.  Hence, on
a base just set up with an empty collection, for every sequence of
`sudo_ev_add` and `sudo_ev_del` in which each add is for an event that is not
in the collection and each delete for one that is, `nevents` equals the
length of the collection after every operation (after the first `k`
operations, for every `k`). -/
theorem nevents_is_length (N : Nat) (old base : sudo_event_base) (ev : sudo_event)
    (evs : Nat → sudo_event) (user : Nat) (ops : List Op)
    (h : admissible N (fresh N old evs user) ops) :
    (sudo_ev_base_alloc_impl N old).1 = 0 ∧
    (sudo_ev_base_alloc_impl N old).2.nevents = 0 ∧
    (sudo_ev_add_impl N base ev).1 = 0 ∧
    (sudo_ev_add_impl N base ev).2.nevents = base.nevents + 1 ∧
    (sudo_ev_del_impl N base ev).1 = 0 ∧
    (sudo_ev_del_impl N base ev).2.nevents = base.nevents - 1 ∧
    ∀ k, (run_ops N (fresh N old evs user) (ops.take k)).base.nevents =
      ((run_ops N (fresh N old evs user) (ops.take k)).base.events.length : Int) := by
  refine ⟨rfl, rfl, rfl, ?_, rfl, rfl, ?_⟩
  · unfold sudo_ev_add_impl
    split <;> rfl
  · exact run_keeps_count N ops (fresh N old evs user) h rfl

/-- Five registrations on a fresh base, with a shared descriptor and a
descriptor beyond the capacity: one event is left and `nevents` is 1. -/
theorem nevents_is_length_witness :
    admissible 64 (fresh 64 (scenario_base []) (heap three_events) 0) five_ops ∧
    (run_ops 64 (fresh 64 (scenario_base []) (heap three_events) 0)
      (five_ops.take 5)).base.events = [2] ∧
    (run_ops 64 (fresh 64 (scenario_base []) (heap three_events) 0)
      (five_ops.take 5)).base.nevents =
      ((run_ops 64 (fresh 64 (scenario_base []) (heap three_events) 0)
        (five_ops.take 5)).base.events.length : Int) ∧
    (run_ops 64 (fresh 64 (scenario_base []) (heap three_events) 0)
      (five_ops.take 2)).base.nevents = 2 :=
  ⟨⟨by decide, by decide, by decide, by decide, by decide, trivial⟩, by decide,
    (nevents_is_length 64 (scenario_base []) marked_base fd3_event (heap three_events) 0
      five_ops ⟨by decide, by decide, by decide, by decide, by decide, trivial⟩).2.2.2.2.2.2 5,
    by decide⟩

theorem iteration_zero_ready (env : Env) (flags fuel : Nat) (r : Run)
    (h : (answer env flags r).nready = 0) :
    iteration env flags fuel r =
      (if (flags &&& (SUDO_EVLOOP_ONCE ||| SUDO_EVLOOP_NONBLOCK)) != 0 then Iter.ret 0
        else Iter.again, waited env flags r) := by
  have h1 : (answer env flags r).nready ≠ -1 := by rw [h]; decide
  rw [iteration_eq, if_neg h1, if_pos h]
  split <;> rfl

/-- C16, the claim as worded does not hold: on a base with one persistent READ
event and `SUDO_EVBASE_LOOPEXIT` already set, a first wait that returns 0 does
not end the run.  Without `SUDO_EVLOOP_ONCE` and `SUDO_EVLOOP_NONBLOCK` the loop
waits again (two calls of `select`), and only after the pass of the second
wait, in which the event fires, does it set `SUDO_EVBASE_GOT_EXIT` and return;
with a supply of a single iteration the run has not returned and
`SUDO_EVBASE_GOT_EXIT` is clear.  With `SUDO_EVLOOP_ONCE` the run returns 0 after
the zero-ready wait with `SUDO_EVBASE_LOOPEXIT` still set and
`SUDO_EVBASE_GOT_EXIT` clear, and so it does with `SUDO_EVLOOP_NONBLOCK`. -/
theorem zero_ready_skips_exit_check :
    ISSET exit_requested.st.base.flags SUDO_EVBASE_LOOPEXIT = true ∧
    (answer (scenario_env [nothing_ready, fd3_readable]) 0 exit_requested).nready = 0 ∧
    (sudo_ev_loop_impl (scenario_env [nothing_ready, fd3_readable]) 0 1 exit_requested).1 = none ∧
    ISSET (sudo_ev_loop_impl (scenario_env [nothing_ready, fd3_readable]) 0 1
      exit_requested).2.st.base.flags SUDO_EVBASE_GOT_EXIT = false ∧
    (sudo_ev_loop_impl (scenario_env [nothing_ready, fd3_readable]) 0 3 exit_requested).1 =
      some 0 ∧
    waits (sudo_ev_loop_impl (scenario_env [nothing_ready, fd3_readable]) 0 3
      exit_requested).2.log = 2 ∧
    invocations (sudo_ev_loop_impl (scenario_env [nothing_ready, fd3_readable]) 0 3
      exit_requested).2.log = [(0, 3, SUDO_EV_READ)] ∧
    (sudo_ev_loop_impl (scenario_env [nothing_ready]) SUDO_EVLOOP_ONCE 3 exit_requested).1 =
      some 0 ∧
    waits (sudo_ev_loop_impl (scenario_env [nothing_ready]) SUDO_EVLOOP_ONCE 3
      exit_requested).2.log = 1 ∧
    ISSET (sudo_ev_loop_impl (scenario_env [nothing_ready]) SUDO_EVLOOP_ONCE 3
      exit_requested).2.st.base.flags SUDO_EVBASE_LOOPEXIT = true ∧
    ISSET (sudo_ev_loop_impl (scenario_env [nothing_ready]) SUDO_EVLOOP_ONCE 3
      exit_requested).2.st.base.flags SUDO_EVBASE_GOT_EXIT = false ∧
    (sudo_ev_loop_impl (scenario_env [nothing_ready]) SUDO_EVLOOP_NONBLOCK 3
      exit_requested).1 = some 0 ∧
    ISSET (sudo_ev_loop_impl (scenario_env [nothing_ready]) SUDO_EVLOOP_NONBLOCK 3
      exit_requested).2.st.base.flags SUDO_EVBASE_GOT_EXIT = false := by
  decide

/-- C16, amended: when the wait of an iteration (started with events
registered) returns 0, `sudo_ev_loop_impl` invokes no callback in that pass
(the log gains the call of `select` only) and leaves `base->flags`, the
collection, `nevents`, the cursor and the event records unchanged: it goes
straight to the test of `SUDO_EVLOOP_ONCE` and `SUDO_EVLOOP_NONBLOCK`, and
`SUDO_EVBASE_LOOPEXIT` is not examined.  With one of the two run flags the
function returns 0 there; with neither the loop goes on with the next
iteration, and given supply for it the next log entry is another call of
`select`.  So `SUDO_EVBASE_GOT_EXIT` is set after such a pass only if it was set
before. -/
theorem zero_ready_pass (env : Env) (flags fuel : Nat) (r : Run)
    (hne : r.st.base.nevents ≠ 0) (h0 : (answer env flags r).nready = 0) :
    (waited env flags r).log = r.log ++ [wait_call env flags r] ∧
    (waited env flags r).st.base.flags = r.st.base.flags ∧
    (waited env flags r).st.base.events = r.st.base.events ∧
    (waited env flags r).st.base.nevents = r.st.base.nevents ∧
    (waited env flags r).st.base.pending = r.st.base.pending ∧
    (waited env flags r).st.evs = r.st.evs ∧
    ((flags &&& (SUDO_EVLOOP_ONCE ||| SUDO_EVLOOP_NONBLOCK)) ≠ 0 →
      sudo_ev_loop_impl env flags (fuel + 1) r = (some 0, waited env flags r)) ∧
    ((flags &&& (SUDO_EVLOOP_ONCE ||| SUDO_EVLOOP_NONBLOCK)) = 0 →
      sudo_ev_loop_impl env flags (fuel + 1) r =
        sudo_ev_loop_impl env flags fuel (waited env flags r) ∧
      ∃ rest, (sudo_ev_loop_impl env flags (fuel + 2) r).2.log =
        r.log ++ wait_call env flags r :: wait_call env flags (waited env flags r) :: rest) := by
  refine ⟨rfl, rfl, rfl, rfl, rfl, rfl, ?_, ?_⟩
  · intro hf
    rw [loop_succ env flags fuel r hne, iteration_zero_ready env flags fuel r h0]
    simp [hf]
  · intro hf
    constructor
    · rw [loop_succ env flags fuel r hne, iteration_zero_ready env flags fuel r h0]
      simp [hf]
    · have h2 : sudo_ev_loop_impl env flags (fuel + 2) r =
          sudo_ev_loop_impl env flags (fuel + 1) (waited env flags r) := by
        rw [loop_succ env flags (fuel + 1) r hne, iteration_zero_ready env flags (fuel + 1) r h0]
        simp [hf]
      obtain ⟨rest, hrest⟩ := loop_first_wait env flags fuel (waited env flags r) hne
      refine ⟨rest, ?_⟩
      rw [h2, hrest, waited_log]
      simp

/-- The zero-ready wait of the run with an exit already requested, without run
flags: the loop goes on with the memory as it was, the request still standing
and no outcome recorded. -/
theorem zero_ready_pass_witness :
    exit_requested.st.base.nevents ≠ 0 ∧
    (answer (scenario_env [nothing_ready, fd3_readable]) 0 exit_requested).nready = 0 ∧
    (waited (scenario_env [nothing_ready, fd3_readable]) 0 exit_requested).st.base.flags =
      SUDO_EVBASE_LOOPEXIT ∧
    sudo_ev_loop_impl (scenario_env [nothing_ready, fd3_readable]) 0 (2 + 1) exit_requested =
      sudo_ev_loop_impl (scenario_env [nothing_ready, fd3_readable]) 0 2
        (waited (scenario_env [nothing_ready, fd3_readable]) 0 exit_requested) :=
  ⟨by decide, by decide,
    (zero_ready_pass (scenario_env [nothing_ready, fd3_readable]) 0 2 exit_requested
      (by decide) (by decide)).2.1,
    ((zero_ready_pass (scenario_env [nothing_ready, fd3_readable]) 0 2 exit_requested
      (by decide) (by decide)).2.2.2.2.2.2.2 (by decide)).1⟩

theorem isset_bit (t k : Nat) : ISSET t (2 ^ k) = t.testBit k := by
  unfold ISSET
  cases h : t.testBit k
  · have : t &&& 2 ^ k = 0 := by
      apply Nat.eq_of_testBit_eq
      intro i
      rw [Nat.testBit_and, Nat.testBit_two_pow, Nat.zero_testBit]
      by_cases hki : k = i
      · subst hki; simp [h]
      · simp [hki]
    simp [this]
  · have hb : (t &&& 2 ^ k).testBit k = true := by
      rw [Nat.testBit_and, Nat.testBit_two_pow_self, h]; rfl
    have : t &&& 2 ^ k ≠ 0 := by
      intro h0
      rw [h0, Nat.zero_testBit] at hb
      cases hb
    simpa using this

theorem isset_or_bit (t j k : Nat) :
    ISSET (t ||| 2 ^ j) (2 ^ k) = (ISSET t (2 ^ k) || decide (j = k)) := by
  rw [isset_bit, isset_bit, Nat.testBit_or, Nat.testBit_two_pow]

theorem isset_clr_bit (t j k : Nat) (hk : k < 32) :
    ISSET (CLR t (2 ^ j)) (2 ^ k) = (ISSET t (2 ^ k) && !decide (j = k)) := by
  rw [isset_bit, isset_bit]
  unfold CLR UINT_MAX
  rw [Nat.testBit_and, Nat.testBit_xor, Nat.testBit_two_pow]
  have : (0xffffffff : Nat).testBit k = true := by
    have h32 : (0xffffffff : Nat) = 2 ^ 32 - 1 := by norm_num
    rw [h32, Nat.testBit_two_pow_sub_one]
    simpa using hk
  rw [this]
  cases decide (j = k) <;> simp

theorem broken_flags (s : State) (h : ISSET s.base.flags SUDO_EVBASE_LOOPBREAK = true) :
    ISSET (broken s).base.flags SUDO_EVBASE_LOOPBREAK = true ∧
    ISSET (broken s).base.flags SUDO_EVBASE_GOT_BREAK = true := by
  have h1 : ISSET (s.base.flags ||| 2 ^ 5) (2 ^ 1) = true := by
    have : ISSET s.base.flags (2 ^ 1) = true := h
    rw [isset_or_bit, this]
    rfl
  have h2 : ISSET (s.base.flags ||| 2 ^ 5) (2 ^ 5) = true := by
    rw [isset_or_bit]; simp
  exact ⟨h1, h2⟩

theorem resumed_flags (s : State) :
    ISSET (resumed s).base.flags SUDO_EVBASE_LOOPCONT = false := by
  have h : ISSET (CLR s.base.flags (2 ^ 2)) (2 ^ 2) = false := by
    rw [isset_clr_bit _ _ _ (by decide)]; simp
  exact h

theorem dispatch_done_flags (env : Env) (fuel : Nat) (cur : Option Nat) (r : Run)
    (h : (dispatch env fuel cur r).1 = some Flow.done) :
    ISSET (dispatch env fuel cur r).2.st.base.flags SUDO_EVBASE_LOOPBREAK = true ∧
    ISSET (dispatch env fuel cur r).2.st.base.flags SUDO_EVBASE_GOT_BREAK = true := by
  obtain ⟨new, _, _, hshape⟩ := dispatch_shape env fuel cur r
  rcases hshape with ⟨_, _, ev, s0, _, _, hb, hst⟩ | ⟨h2, _⟩ | ⟨h2, _⟩
  · rw [hst]; exact broken_flags _ hb
  · rw [h] at h2; cases h2
  · rcases h2 with h2 | h2 <;> rw [h] at h2 <;> cases h2

theorem dispatch_rescan_flags (env : Env) (fuel : Nat) (cur : Option Nat) (r : Run)
    (h : (dispatch env fuel cur r).1 = some Flow.rescan) :
    ISSET (dispatch env fuel cur r).2.st.base.flags SUDO_EVBASE_LOOPCONT = false := by
  obtain ⟨new, _, _, hshape⟩ := dispatch_shape env fuel cur r
  rcases hshape with ⟨h2, _⟩ | ⟨_, _, ev, s0, _, _, _, _, hst⟩ | ⟨h2, _⟩
  · rw [h] at h2; cases h2
  · rw [hst]; exact resumed_flags _
  · rcases h2 with h2 | h2 <;> rw [h] at h2 <;> cases h2

theorem iteration_dispatched (env : Env) (flags fuel : Nat) (r : Run)
    (h1 : (answer env flags r).nready ≠ -1) (h0 : (answer env flags r).nready ≠ 0) :
    iteration env flags fuel r =
      match dispatch env fuel (TAILQ_FIRST (waited env flags r).st.base.events)
          (waited env flags r) with
      | (none, r2) => (Iter.out, r2)
      | (some Flow.done, r2) => (Iter.ret 0, r2)
      | (some Flow.rescan, r2) => (Iter.again, r2)
      | (some Flow.next, r2) =>
        if ISSET r2.st.base.flags SUDO_EVBASE_LOOPEXIT then
          (Iter.ret 0,
            { r2 with st := { r2.st with base := { r2.st.base with
                pending := none
                flags := r2.st.base.flags ||| SUDO_EVBASE_GOT_EXIT } } })
        else if (flags &&& (SUDO_EVLOOP_ONCE ||| SUDO_EVLOOP_NONBLOCK)) != 0 then
          (Iter.ret 0, with_pending r2 none)
        else (Iter.again, with_pending r2 none) := by
  rw [iteration_eq, if_neg h1, if_neg h0]

/-- C20, the claim as worded does not hold for a break and for an exit.  On a
base with a one-shot READ event whose callback requests a break, followed by
two persistent READ events, all three reported ready: the run invokes the
first event and returns 0 with `SUDO_EVBASE_GOT_BREAK` set and
`SUDO_EVBASE_LOOPBREAK` still set; a second run on the same base then invokes
the second event, whose callback requests nothing, and stops on the stale
request without invoking the third, which is ready.  On a base with two
persistent READ events of which the first requests an exit, the run returns 0
with `SUDO_EVBASE_GOT_EXIT` set and `SUDO_EVBASE_LOOPEXIT` still set. -/
theorem break_and_exit_requests_stay :
    (sudo_ev_loop_impl (scenario_env [fd3_fd4_fd5_readable, fd3_fd4_fd5_readable]) 0 5
      three_readers_first_breaks).1 = some 0 ∧
    invocations (sudo_ev_loop_impl (scenario_env [fd3_fd4_fd5_readable, fd3_fd4_fd5_readable])
      0 5 three_readers_first_breaks).2.log = [(0, 3, SUDO_EV_READ)] ∧
    ISSET (sudo_ev_loop_impl (scenario_env [fd3_fd4_fd5_readable, fd3_fd4_fd5_readable]) 0 5
      three_readers_first_breaks).2.st.base.flags SUDO_EVBASE_GOT_BREAK = true ∧
    ISSET (sudo_ev_loop_impl (scenario_env [fd3_fd4_fd5_readable, fd3_fd4_fd5_readable]) 0 5
      three_readers_first_breaks).2.st.base.flags SUDO_EVBASE_LOOPBREAK = true ∧
    (sudo_ev_loop_impl (scenario_env [fd3_fd4_fd5_readable, fd3_fd4_fd5_readable]) 0 5
      three_readers_first_breaks).2.st.base.events = [1, 2] ∧
    (sudo_ev_loop_impl (scenario_env [fd3_fd4_fd5_readable, fd3_fd4_fd5_readable]) 0 5
      (sudo_ev_loop_impl (scenario_env [fd3_fd4_fd5_readable, fd3_fd4_fd5_readable]) 0 5
        three_readers_first_breaks).2).1 = some 0 ∧
    invocations (sudo_ev_loop_impl (scenario_env [fd3_fd4_fd5_readable, fd3_fd4_fd5_readable])
      0 5 (sudo_ev_loop_impl (scenario_env [fd3_fd4_fd5_readable, fd3_fd4_fd5_readable]) 0 5
        three_readers_first_breaks).2).2.log = [(0, 3, SUDO_EV_READ), (1, 4, SUDO_EV_READ)] ∧
    (sudo_ev_loop_impl (scenario_env [fd3_fd4_readable]) 0 5 two_readers_first_exits).1 =
      some 0 ∧
    ISSET (sudo_ev_loop_impl (scenario_env [fd3_fd4_readable]) 0 5
      two_readers_first_exits).2.st.base.flags SUDO_EVBASE_GOT_EXIT = true ∧
    ISSET (sudo_ev_loop_impl (scenario_env [fd3_fd4_readable]) 0 5
      two_readers_first_exits).2.st.base.flags SUDO_EVBASE_LOOPEXIT = true := by
  decide

/-- C20, amended: of the three requests `sudo_ev_loop_impl` clears only the
continue request.  For an iteration started with events registered whose wait
reports descriptors ready: when the dispatch traversal is left on a break,
the function returns 0 with `SUDO_EVBASE_GOT_BREAK` set and
`SUDO_EVBASE_LOOPBREAK` still set; when it is left on a continue, the loop goes
on with `SUDO_EVBASE_LOOPCONT` clear; when it runs to the end of the queue with
`SUDO_EVBASE_LOOPEXIT` set, the function returns 0 with `SUDO_EVBASE_GOT_EXIT` set
and `SUDO_EVBASE_LOOPEXIT` still set. -/
theorem only_continue_is_cleared (env : Env) (flags fuel : Nat) (r : Run)
    (hne : r.st.base.nevents ≠ 0)
    (h1 : (answer env flags r).nready ≠ -1) (h0 : (answer env flags r).nready ≠ 0) :
    ((dispatch env fuel (TAILQ_FIRST (waited env flags r).st.base.events)
        (waited env flags r)).1 = some Flow.done →
      (sudo_ev_loop_impl env flags (fuel + 1) r).1 = some 0 ∧
      ISSET (sudo_ev_loop_impl env flags (fuel + 1) r).2.st.base.flags
        SUDO_EVBASE_GOT_BREAK = true ∧
      ISSET (sudo_ev_loop_impl env flags (fuel + 1) r).2.st.base.flags
        SUDO_EVBASE_LOOPBREAK = true) ∧
    ((dispatch env fuel (TAILQ_FIRST (waited env flags r).st.base.events)
        (waited env flags r)).1 = some Flow.rescan →
      sudo_ev_loop_impl env flags (fuel + 1) r =
        sudo_ev_loop_impl env flags fuel
          (dispatch env fuel (TAILQ_FIRST (waited env flags r).st.base.events)
            (waited env flags r)).2 ∧
      ISSET (dispatch env fuel (TAILQ_FIRST (waited env flags r).st.base.events)
        (waited env flags r)).2.st.base.flags SUDO_EVBASE_LOOPCONT = false) ∧
    ((dispatch env fuel (TAILQ_FIRST (waited env flags r).st.base.events)
        (waited env flags r)).1 = some Flow.next →
      ISSET (dispatch env fuel (TAILQ_FIRST (waited env flags r).st.base.events)
        (waited env flags r)).2.st.base.flags SUDO_EVBASE_LOOPEXIT = true →
      (sudo_ev_loop_impl env flags (fuel + 1) r).1 = some 0 ∧
      ISSET (sudo_ev_loop_impl env flags (fuel + 1) r).2.st.base.flags
        SUDO_EVBASE_GOT_EXIT = true ∧
      ISSET (sudo_ev_loop_impl env flags (fuel + 1) r).2.st.base.flags
        SUDO_EVBASE_LOOPEXIT = true) := by
  have hd := dispatch_done_flags env fuel (TAILQ_FIRST (waited env flags r).st.base.events)
    (waited env flags r)
  have hr := dispatch_rescan_flags env fuel (TAILQ_FIRST (waited env flags r).st.base.events)
    (waited env flags r)
  rw [loop_succ env flags fuel r hne, iteration_dispatched env flags fuel r h1 h0]
  rcases hdis : dispatch env fuel (TAILQ_FIRST (waited env flags r).st.base.events)
    (waited env flags r) with ⟨fl, r2⟩
  rw [hdis] at hd hr
  refine ⟨?_, ?_, ?_⟩
  · intro h
    have hfl : fl = some Flow.done := h
    subst hfl
    exact ⟨rfl, (hd rfl).2, (hd rfl).1⟩
  · intro h
    have hfl : fl = some Flow.rescan := h
    subst hfl
    exact ⟨rfl, hr rfl⟩
  · intro h hx
    have hfl : fl = some Flow.next := h
    subst hfl
    have hx1 : ISSET r2.st.base.flags SUDO_EVBASE_LOOPEXIT = true := hx
    simp only [hx1, ↓reduceIte]
    refine ⟨trivial, ?_, ?_⟩
    · show ISSET (r2.st.base.flags ||| 2 ^ 4) (2 ^ 4) = true
      rw [isset_or_bit]; simp
    · show ISSET (r2.st.base.flags ||| 2 ^ 4) (2 ^ 0) = true
      have : ISSET r2.st.base.flags (2 ^ 0) = true := hx1
      rw [isset_or_bit, this]; rfl

/-- Scenario C and its counterpart with an exit: on return the break request
and the exit request are still set. -/
theorem only_continue_is_cleared_witness :
    two_readers_first_breaks.st.base.nevents ≠ 0 ∧
    (answer (scenario_env [fd3_fd4_readable]) 0 two_readers_first_breaks).nready ≠ -1 ∧
    (answer (scenario_env [fd3_fd4_readable]) 0 two_readers_first_breaks).nready ≠ 0 ∧
    ISSET (sudo_ev_loop_impl (scenario_env [fd3_fd4_readable]) 0 (2 + 1)
      two_readers_first_breaks).2.st.base.flags SUDO_EVBASE_LOOPBREAK = true ∧
    ISSET (sudo_ev_loop_impl (scenario_env [fd3_fd4_readable]) 0 (2 + 1)
      two_readers_first_exits).2.st.base.flags SUDO_EVBASE_LOOPEXIT = true ∧
    ISSET (dispatch (scenario_env [fd3_readable]) 2
      (TAILQ_FIRST (waited (scenario_env [fd3_readable]) 0
        persistent_reader_continues).st.base.events)
      (waited (scenario_env [fd3_readable]) 0
        persistent_reader_continues)).2.st.base.flags SUDO_EVBASE_LOOPCONT = false :=
  ⟨by decide, by decide, by decide,
    ((only_continue_is_cleared (scenario_env [fd3_fd4_readable]) 0 2 two_readers_first_breaks
      (by decide) (by decide) (by decide)).1 (by decide)).2.2,
    ((only_continue_is_cleared (scenario_env [fd3_fd4_readable]) 0 2 two_readers_first_exits
      (by decide) (by decide) (by decide)).2.2 (by decide) (by decide)).2.2,
    ((only_continue_is_cleared (scenario_env [fd3_readable]) 0 2 persistent_reader_continues
      (by decide) (by decide) (by decide)).2.1 (by decide)).2⟩

theorem settled_outcome (env : Env) (hk : keeps_outcome env) (ev : Nat) (s : State) :
    ISSET (settled env ev s).base.flags SUDO_EVBASE_GOT_EXIT =
      ISSET s.base.flags SUDO_EVBASE_GOT_EXIT ∧
    ISSET (settled env ev s).base.flags SUDO_EVBASE_GOT_BREAK =
      ISSET s.base.flags SUDO_EVBASE_GOT_BREAK := by
  rw [settled_flags]
  have h := hk (s.evs ev).callback (s.evs ev).fd (fired env.NFDBITS (s.evs ev) s.base)
    (s.evs ev).closure (entry ev s)
  rw [entry_base] at h
  exact h

theorem broken_outcome (s : State) (h : no_outcome s) :
    ISSET (broken s).base.flags SUDO_EVBASE_GOT_BREAK = true ∧
    ISSET (broken s).base.flags SUDO_EVBASE_GOT_EXIT = false := by
  constructor
  · show ISSET (s.base.flags ||| 2 ^ 5) (2 ^ 5) = true
    rw [isset_or_bit]; simp
  · show ISSET (s.base.flags ||| 2 ^ 5) (2 ^ 4) = false
    have : ISSET s.base.flags (2 ^ 4) = false := h.1
    rw [isset_or_bit, this]; rfl

theorem resumed_outcome (s : State) (h : no_outcome s) : no_outcome (resumed s) := by
  constructor
  · show ISSET (CLR s.base.flags (2 ^ 2)) (2 ^ 4) = false
    have : ISSET s.base.flags (2 ^ 4) = false := h.1
    rw [isset_clr_bit _ _ _ (by decide), this]; rfl
  · show ISSET (CLR s.base.flags (2 ^ 2)) (2 ^ 5) = false
    have : ISSET s.base.flags (2 ^ 5) = false := h.2
    rw [isset_clr_bit _ _ _ (by decide), this]; rfl

/-- The outcome flags after the dispatch traversal: a traversal left on a
break sets `SUDO_EVBASE_GOT_BREAK` only; any other leaves both flags clear. -/
theorem dispatch_outcome (env : Env) (hk : keeps_outcome env) :
    ∀ fuel cur r, no_outcome r.st →
      ((dispatch env fuel cur r).1 = some Flow.done →
        ISSET (dispatch env fuel cur r).2.st.base.flags SUDO_EVBASE_GOT_BREAK = true ∧
        ISSET (dispatch env fuel cur r).2.st.base.flags SUDO_EVBASE_GOT_EXIT = false) ∧
      ((dispatch env fuel cur r).1 ≠ some Flow.done → no_outcome (dispatch env fuel cur r).2.st) := by
  intro fuel
  induction fuel with
  | zero =>
    intro cur r h
    cases cur with
    | none => rw [dispatch_none]; exact ⟨(fun hd => by cases hd), fun _ => h⟩
    | some ev => rw [dispatch_zero]; exact ⟨(fun hd => by cases hd), fun _ => h⟩
  | succ n ih =>
    intro cur r h
    cases cur with
    | none => rw [dispatch_none]; exact ⟨(fun hd => by cases hd), fun _ => h⟩
    | some ev =>
      rw [dispatch_succ]
      have hs : no_outcome (settled env ev (with_pending r (TAILQ_NEXT r.st.base.events ev)).st) := by
        have := settled_outcome env hk ev (with_pending r (TAILQ_NEXT r.st.base.events ev)).st
        exact ⟨this.1.trans h.1, this.2.trans h.2⟩
      rcases service_cases env ev (with_pending r (TAILQ_NEXT r.st.base.events ev)) with
        ⟨_, hsv⟩ | ⟨_, _, hsv⟩ | ⟨_, _, _, hsv⟩ | ⟨_, _, _, hsv⟩
      · rw [hsv]; exact ih _ _ h
      · rw [hsv]; exact ⟨fun _ => broken_outcome _ hs, fun hne => absurd rfl hne⟩
      · rw [hsv]; exact ⟨(fun hd => by cases hd), fun _ => resumed_outcome _ hs⟩
      · rw [hsv]; exact ih _ _ hs

theorem exited_outcome (f : Nat)
    (h5 : ISSET f SUDO_EVBASE_GOT_BREAK = false) (hx : ISSET f SUDO_EVBASE_LOOPEXIT = true) :
    ISSET (f ||| SUDO_EVBASE_GOT_EXIT) SUDO_EVBASE_GOT_EXIT = true ∧
    ISSET (f ||| SUDO_EVBASE_GOT_EXIT) SUDO_EVBASE_GOT_BREAK = false ∧
    ISSET (f ||| SUDO_EVBASE_GOT_EXIT) SUDO_EVBASE_LOOPEXIT = true := by
  refine ⟨?_, ?_, ?_⟩
  · show ISSET (f ||| 2 ^ 4) (2 ^ 4) = true
    rw [isset_or_bit]; simp
  · show ISSET (f ||| 2 ^ 4) (2 ^ 5) = false
    have : ISSET f (2 ^ 5) = false := h5
    rw [isset_or_bit, this]; rfl
  · show ISSET (f ||| 2 ^ 4) (2 ^ 0) = true
    have : ISSET f (2 ^ 0) = true := hx
    rw [isset_or_bit, this]; rfl

theorem iteration_stop_dispatched (env : Env) (flags fuel : Nat) (r : Run)
    (h1 : (answer env flags r).nready ≠ -1) (h0 : (answer env flags r).nready ≠ 0) :
    iteration_stop env flags fuel r =
      match dispatch env fuel (TAILQ_FIRST (waited env flags r).st.base.events)
          (waited env flags r) with
      | (none, _) => none
      | (some Flow.done, _) => some Stop.broke
      | (some Flow.rescan, _) => none
      | (some Flow.next, r2) =>
        if ISSET r2.st.base.flags SUDO_EVBASE_LOOPEXIT then some Stop.exited
        else if (flags &&& (SUDO_EVLOOP_ONCE ||| SUDO_EVLOOP_NONBLOCK)) != 0 then some Stop.once
        else none := by
  unfold iteration_stop
  rw [if_neg h1, if_neg h0]

/-- One iteration, entered with both outcome flags clear, ends as
`iteration_stop` says. -/
theorem iteration_why (env : Env) (hk : keeps_outcome env) (flags fuel : Nat) (r : Run)
    (h : no_outcome r.st) :
    accounts_for flags (iteration_stop env flags fuel r) (iteration env flags fuel r).1.value
      (iteration env flags fuel r).2.st ∧
    iteration_stop env flags fuel r ≠ some Stop.empty := by
  have hw : no_outcome (waited env flags r).st := h
  have hd := dispatch_outcome env hk fuel (TAILQ_FIRST (waited env flags r).st.base.events)
    (waited env flags r) hw
  have hb := dispatch_done_flags env fuel (TAILQ_FIRST (waited env flags r).st.base.events)
    (waited env flags r)
  by_cases h1 : (answer env flags r).nready = -1
  · by_cases ht : (answer env flags r).errno = env.EINTR ∨ (answer env flags r).errno = env.ENOMEM
    · have hs : iteration_stop env flags fuel r = none := by
        unfold iteration_stop; rw [if_pos h1, if_pos ht]
      rw [iteration_transient env flags fuel r ⟨h1, ht⟩, hs]
      exact ⟨⟨rfl, hw⟩, by simp⟩
    · have hs : iteration_stop env flags fuel r = some Stop.error := by
        unfold iteration_stop; rw [if_pos h1, if_neg ht]
      rw [iteration_fatal env flags fuel r
        ⟨h1, fun he => ht (Or.inl he), fun he => ht (Or.inr he)⟩, hs]
      exact ⟨⟨rfl, hw⟩, by simp⟩
  · by_cases h0 : (answer env flags r).nready = 0
    · rw [iteration_zero_ready env flags fuel r h0]
      by_cases hf : ((flags &&& (SUDO_EVLOOP_ONCE ||| SUDO_EVLOOP_NONBLOCK)) != 0) = true
      · have hs : iteration_stop env flags fuel r = some Stop.once := by
          unfold iteration_stop; rw [if_neg h1, if_pos h0, if_pos hf]
        rw [hs, if_pos hf]
        exact ⟨⟨rfl, hw, by simpa using hf⟩, by simp⟩
      · have hs : iteration_stop env flags fuel r = none := by
          unfold iteration_stop; rw [if_neg h1, if_pos h0, if_neg hf]
        rw [hs, if_neg hf]
        exact ⟨⟨rfl, hw⟩, by simp⟩
    · rw [iteration_dispatched env flags fuel r h1 h0,
        iteration_stop_dispatched env flags fuel r h1 h0]
      rcases hdis : dispatch env fuel (TAILQ_FIRST (waited env flags r).st.base.events)
        (waited env flags r) with ⟨fl, r2⟩
      rw [hdis] at hd hb
      cases fl with
      | none => exact ⟨⟨rfl, hd.2 (by simp)⟩, by simp⟩
      | some f =>
        cases f with
        | done => exact ⟨⟨rfl, (hd.1 rfl).1, (hd.1 rfl).2, (hb rfl).1⟩, by simp⟩
        | rescan => exact ⟨⟨rfl, hd.2 (by simp)⟩, by simp⟩
        | next =>
          have hn : no_outcome r2.st := hd.2 (by simp)
          dsimp only
          by_cases hx : ISSET r2.st.base.flags SUDO_EVBASE_LOOPEXIT = true
          · rw [if_pos hx, if_pos hx]
            exact ⟨⟨rfl, exited_outcome _ hn.2 hx⟩, by simp⟩
          · rw [if_neg hx, if_neg hx]
            by_cases hf : ((flags &&& (SUDO_EVLOOP_ONCE ||| SUDO_EVLOOP_NONBLOCK)) != 0) = true
            · rw [if_pos hf, if_pos hf]
              exact ⟨⟨rfl, hn, by simpa using hf⟩, by simp⟩
            · rw [if_neg hf, if_neg hf]
              exact ⟨⟨rfl, hn⟩, by simp⟩

theorem why_empty (env : Env) (flags fuel : Nat) (r : Run) (h : r.st.base.nevents = 0) :
    why env flags fuel r = some Stop.empty := by
  cases fuel <;> simp [why, h]

theorem why_zero (env : Env) (flags : Nat) (r : Run) (h : r.st.base.nevents ≠ 0) :
    why env flags 0 r = none := by
  simp [why, h]

theorem why_succ (env : Env) (flags fuel : Nat) (r : Run) (h : r.st.base.nevents ≠ 0) :
    why env flags (fuel + 1) r =
      match iteration env flags fuel r with
      | (Iter.ret _, _) => iteration_stop env flags fuel r
      | (Iter.again, r1) => why env flags fuel r1
      | (Iter.out, _) => none := by
  rw [why]
  simp only [h, ↓reduceIte]

/-- A run entered with both outcome flags clear ends as `why` says. -/
theorem loop_why (env : Env) (hk : keeps_outcome env) (flags : Nat) :
    ∀ fuel r, no_outcome r.st →
      accounts_for flags (why env flags fuel r) (sudo_ev_loop_impl env flags fuel r).1
        (sudo_ev_loop_impl env flags fuel r).2.st := by
  intro fuel
  induction fuel with
  | zero =>
    intro r h
    by_cases hn : r.st.base.nevents = 0
    · rw [why_empty env flags 0 r hn, loop_empty env flags 0 r hn]
      exact ⟨rfl, h, hn⟩
    · rw [why_zero env flags r hn, loop_zero env flags r hn]
      exact ⟨rfl, h⟩
  | succ n ih =>
    intro r h
    by_cases hn : r.st.base.nevents = 0
    · rw [why_empty env flags _ r hn, loop_empty env flags _ r hn]
      exact ⟨rfl, h, hn⟩
    · rw [why_succ env flags n r hn, loop_succ env flags n r hn]
      have hi := iteration_why env hk flags n r h
      rcases hit : iteration env flags n r with ⟨it, r1⟩
      rw [hit] at hi
      cases it with
      | ret v =>
        dsimp only
        rcases hs : iteration_stop env flags n r with _ | st
        · rw [hs] at hi
          have := hi.1.1
          cases this
        · rw [hs] at hi
          cases st with
          | empty => exact absurd rfl hi.2
          | error => exact hi.1
          | broke => exact hi.1
          | exited => exact hi.1
          | once => exact hi.1
      | again =>
        dsimp only
        rcases hs : iteration_stop env flags n r with _ | st
        · rw [hs] at hi
          exact ih r1 hi.1.2
        · rw [hs] at hi
          have hv : ∃ v, (Iter.again).value = some v := by
            cases st with
            | empty => exact absurd rfl hi.2
            | error => exact ⟨_, hi.1.1⟩
            | broke => exact ⟨_, hi.1.1⟩
            | exited => exact ⟨_, hi.1.1⟩
            | once => exact ⟨_, hi.1.1⟩
          obtain ⟨v, hv⟩ := hv
          cases hv
      | out =>
        dsimp only
        rcases hs : iteration_stop env flags n r with _ | st
        · rw [hs] at hi
          exact ⟨rfl, hi.1.2⟩
        · rw [hs] at hi
          have hv : ∃ v, (Iter.out).value = some v := by
            cases st with
            | empty => exact absurd rfl hi.2
            | error => exact ⟨_, hi.1.1⟩
            | broke => exact ⟨_, hi.1.1⟩
            | exited => exact ⟨_, hi.1.1⟩
            | once => exact ⟨_, hi.1.1⟩
          obtain ⟨v, hv⟩ := hv
          cases hv

theorem scenario_keeps_outcome (answers : List SelectResult) :
    keeps_outcome (scenario_env answers) := by
  intro cb fd what closure s
  have key : ∀ k : Nat, k = 4 ∨ k = 5 →
      ISSET (scenario_callback cb fd what closure s).base.flags (2 ^ k) =
        ISSET s.base.flags (2 ^ k) := by
    intro k hk
    show ISSET (if cb = 1 then s.base.flags ||| 2 ^ 1
      else if cb = 2 then s.base.flags ||| 2 ^ 0
      else if cb = 3 then s.base.flags ||| 2 ^ 2
      else s.base.flags) (2 ^ k) = _
    split
    · rw [isset_or_bit]; rcases hk with hk | hk <;> subst hk <;> simp
    · split
      · rw [isset_or_bit]; rcases hk with hk | hk <;> subst hk <;> simp
      · split
        · rw [isset_or_bit]; rcases hk with hk | hk <;> subst hk <;> simp
        · rfl
  exact ⟨key 4 (Or.inl rfl), key 5 (Or.inr rfl)⟩

/-- C18 (outcome flags are distinguishable): for callbacks that leave
`SUDO_EVBASE_GOT_EXIT` and `SUDO_EVBASE_GOT_BREAK` alone and a run of
`sudo_ev_loop_impl` entered with both clear, with `why` naming the statement
by which the run leaves the function: the run returns exactly when `why`
names one; on return `SUDO_EVBASE_GOT_BREAK` is set if and only if the run
left by the `goto done` that follows a callback after which
`SUDO_EVBASE_LOOPBREAK` was found set (the flag is then still set, and the
value is 0); `SUDO_EVBASE_GOT_EXIT` is set if and only if the run left by the
`goto done` at the end of a dispatch traversal after which
`SUDO_EVBASE_LOOPEXIT` was found set (still set, value 0); the two are never
both set; and a run that returns because of `SUDO_EVLOOP_ONCE` or
`SUDO_EVLOOP_NONBLOCK` (value 0), because `nevents` is 0 (value 0) or because
of a failed wait (exactly the runs with value -1) returns with both clear. -/
theorem outcome_flags_are_distinguishable (env : Env) (hk : keeps_outcome env)
    (flags fuel : Nat) (r : Run) (h : no_outcome r.st) :
    ((sudo_ev_loop_impl env flags fuel r).1 = none ↔ why env flags fuel r = none) ∧
    (ISSET (sudo_ev_loop_impl env flags fuel r).2.st.base.flags SUDO_EVBASE_GOT_BREAK = true ↔
      why env flags fuel r = some Stop.broke) ∧
    (ISSET (sudo_ev_loop_impl env flags fuel r).2.st.base.flags SUDO_EVBASE_GOT_EXIT = true ↔
      why env flags fuel r = some Stop.exited) ∧
    ¬ (ISSET (sudo_ev_loop_impl env flags fuel r).2.st.base.flags SUDO_EVBASE_GOT_BREAK = true ∧
      ISSET (sudo_ev_loop_impl env flags fuel r).2.st.base.flags SUDO_EVBASE_GOT_EXIT = true) ∧
    (why env flags fuel r = some Stop.broke →
      (sudo_ev_loop_impl env flags fuel r).1 = some 0 ∧
      ISSET (sudo_ev_loop_impl env flags fuel r).2.st.base.flags SUDO_EVBASE_LOOPBREAK = true) ∧
    (why env flags fuel r = some Stop.exited →
      (sudo_ev_loop_impl env flags fuel r).1 = some 0 ∧
      ISSET (sudo_ev_loop_impl env flags fuel r).2.st.base.flags SUDO_EVBASE_LOOPEXIT = true) ∧
    (why env flags fuel r = some Stop.once →
      (sudo_ev_loop_impl env flags fuel r).1 = some 0 ∧
      (flags &&& (SUDO_EVLOOP_ONCE ||| SUDO_EVLOOP_NONBLOCK)) ≠ 0 ∧
      no_outcome (sudo_ev_loop_impl env flags fuel r).2.st) ∧
    (why env flags fuel r = some Stop.empty →
      (sudo_ev_loop_impl env flags fuel r).1 = some 0 ∧
      (sudo_ev_loop_impl env flags fuel r).2.st.base.nevents = 0 ∧
      no_outcome (sudo_ev_loop_impl env flags fuel r).2.st) ∧
    ((sudo_ev_loop_impl env flags fuel r).1 = some (-1) ↔
      why env flags fuel r = some Stop.error) ∧
    (why env flags fuel r = some Stop.error →
      no_outcome (sudo_ev_loop_impl env flags fuel r).2.st) := by
  have hl := loop_why env hk flags fuel r h
  rcases hw : why env flags fuel r with _ | st
  · rw [hw] at hl
    obtain ⟨hv, h4, h5⟩ := hl
    simp [hv, h4, h5]
  · rw [hw] at hl
    cases st with
    | empty =>
      obtain ⟨hv, ⟨h4, h5⟩, hn⟩ := hl
      simp [hv, h4, h5, hn, no_outcome]
    | error =>
      obtain ⟨hv, h4, h5⟩ := hl
      simp [hv, h4, h5, no_outcome]
    | broke =>
      obtain ⟨hv, h5, h4, hb⟩ := hl
      simp [hv, h4, h5, hb]
    | exited =>
      obtain ⟨hv, h4, h5, hx⟩ := hl
      simp [hv, h4, h5, hx]
    | once =>
      obtain ⟨hv, ⟨h4, h5⟩, hf⟩ := hl
      simp [hv, h4, h5, no_outcome]
      exact hf

/-- Scenario C returns by the break with `SUDO_EVBASE_GOT_BREAK` alone set; its
counterpart with an exit returns by the exit with `SUDO_EVBASE_GOT_EXIT` alone
set; Scenario A under `SUDO_EVLOOP_ONCE` returns with both clear. -/
theorem outcome_flags_are_distinguishable_witness :
    no_outcome two_readers_first_breaks.st ∧
    why (scenario_env [fd3_fd4_readable]) 0 3 two_readers_first_breaks = some Stop.broke ∧
    ISSET (sudo_ev_loop_impl (scenario_env [fd3_fd4_readable]) 0 3
      two_readers_first_breaks).2.st.base.flags SUDO_EVBASE_GOT_BREAK = true ∧
    ISSET (sudo_ev_loop_impl (scenario_env [fd3_fd4_readable]) 0 3
      two_readers_first_breaks).2.st.base.flags SUDO_EVBASE_GOT_EXIT = false ∧
    why (scenario_env [fd3_fd4_readable]) 0 3 two_readers_first_exits = some Stop.exited ∧
    ISSET (sudo_ev_loop_impl (scenario_env [fd3_fd4_readable]) 0 3
      two_readers_first_exits).2.st.base.flags SUDO_EVBASE_GOT_EXIT = true ∧
    ISSET (sudo_ev_loop_impl (scenario_env [fd3_fd4_readable]) 0 3
      two_readers_first_exits).2.st.base.flags SUDO_EVBASE_GOT_BREAK = false ∧
    why (scenario_env [fd3_readable]) SUDO_EVLOOP_ONCE 3 one_shot_reader = some Stop.once ∧
    no_outcome (sudo_ev_loop_impl (scenario_env [fd3_readable]) SUDO_EVLOOP_ONCE 3
      one_shot_reader).2.st :=
  ⟨by decide, by decide,
    (outcome_flags_are_distinguishable (scenario_env [fd3_fd4_readable])
      (scenario_keeps_outcome _) 0 3 two_readers_first_breaks (by decide)).2.1.2 (by decide),
    by decide, by decide,
    (outcome_flags_are_distinguishable (scenario_env [fd3_fd4_readable])
      (scenario_keeps_outcome _) 0 3 two_readers_first_exits (by decide)).2.2.1.2 (by decide),
    by decide, by decide,
    ((outcome_flags_are_distinguishable (scenario_env [fd3_readable])
      (scenario_keeps_outcome _) SUDO_EVLOOP_ONCE 3 one_shot_reader (by decide)).2.2.2.2.2.2.1
      (by decide)).2.2⟩

theorem invocations_append (l1 l2 : List Call) :
    invocations (l1 ++ l2) = invocations l1 ++ invocations l2 := by
  induction l1 with
  | nil => rfl
  | cons c l ih =>
    cases c with
    | select nfds rs ws nb res => simpa [invocations] using ih
    | callback ev fd what closure mem => simp [invocations, ih]

/-- On a queue without repetition, with callbacks that keep the queue, the
events invoked by the dispatch traversal from the head of `rest` on are
events of `rest`, each at most once and in the order of the queue. -/
theorem dispatch_invokes_sublist (env : Env) (hq : keeps_queue env) :
    ∀ (rest pre : List Nat) (fuel : Nat) (r : Run),
      r.st.base.events = pre ++ rest → r.st.base.events.Nodup →
      ∃ new, (dispatch env fuel rest.head? r).2.log = r.log ++ new ∧
        (∀ c ∈ new, is_callback c = true) ∧
        ((invocations new).map Prod.fst).Sublist rest := by
  intro rest
  induction rest with
  | nil =>
    intro pre fuel r _ _
    exact ⟨[], by simp [dispatch_none], by simp, by simp [invocations]⟩
  | cons ev rest ih =>
    intro pre fuel r hev hnd
    cases fuel with
    | zero =>
      exact ⟨[], by simp [dispatch_zero], by simp, by simp [invocations]⟩
    | succ n =>
      have hnd1 := hnd
      rw [hev] at hnd1
      have hpre : ev ∉ pre := fun h =>
        (List.nodup_append.1 hnd1).2.2 h (List.mem_cons_self _ _)
      obtain ⟨hk1, hk2, hk3⟩ := service_keeps_queue env hq pre rest ev r hev hnd
      have hlog := service_log env ev (with_pending r rest.head?)
      simp only [List.head?_cons]
      rw [dispatch_succ, hev, TAILQ_NEXT_append _ _ _ hpre]
      have hone : ∀ c ∈ (if fired env.NFDBITS ((with_pending r rest.head?).st.evs ev)
            (with_pending r rest.head?).st.base = 0 then []
          else [invocation env ev (with_pending r rest.head?).st]), is_callback c = true := by
        intro c hc
        split at hc
        · cases hc
        · rw [List.mem_singleton.1 hc]; rfl
      have hsub : ((invocations (if fired env.NFDBITS ((with_pending r rest.head?).st.evs ev)
            (with_pending r rest.head?).st.base = 0 then []
          else [invocation env ev (with_pending r rest.head?).st])).map Prod.fst).Sublist
          [ev] := by
        split
        · simp [invocations]
        · simp [invocations, invocation]
      rw [with_pending_log] at hlog
      generalize (if fired env.NFDBITS ((with_pending r rest.head?).st.evs ev)
            (with_pending r rest.head?).st.base = 0 then []
          else [invocation env ev (with_pending r rest.head?).st]) = svc at hone hsub hlog
      rcases hsv : service env ev (with_pending r rest.head?) with ⟨fl, r2⟩
      rw [hsv] at hk1 hk2 hk3 hlog
      cases fl with
      | next =>
        simp only at hk1 hk2 hk3 hlog ⊢
        rw [hk3 trivial]
        have hrec : ∃ new, (dispatch env n rest.head? r2).2.log = r2.log ++ new ∧
            (∀ c ∈ new, is_callback c = true) ∧
            ((invocations new).map Prod.fst).Sublist rest := by
          rcases hk2 with h | h
          · exact ih (pre ++ [ev]) n r2 (by rw [h]; simp) hk1
          · exact ih pre n r2 h hk1
        obtain ⟨new, hn1, hn2, hn3⟩ := hrec
        refine ⟨svc ++ new, by rw [hn1, hlog, List.append_assoc], ?_, ?_⟩
        · intro c hc
          rcases List.mem_append.1 hc with h | h
          · exact hone c h
          · exact hn2 c h
        · rw [invocations_append, List.map_append]
          exact List.Sublist.append hsub hn3
      | done =>
        refine ⟨svc, hlog, hone, ?_⟩
        exact hsub.trans (by simp)
      | rescan =>
        refine ⟨svc, hlog, hone, ?_⟩
        exact hsub.trans (by simp)

theorem is_callback_wait_call (env : Env) (flags : Nat) (r : Run) :
    is_callback (wait_call env flags r) = false := rfl

/-- Under `SUDO_EVLOOP_ONCE` or `SUDO_EVLOOP_NONBLOCK`, on a queue without
repetition and with callbacks that keep the queue: when no invocation of a
run asks for a continue, what the run adds to the log is calls of `select`
followed by invocations, and the events invoked are events of the queue, each
at most once and in the order of the queue. -/
theorem loop_once_shape (env : Env) (hq : keeps_queue env) (flags : Nat)
    (hf : (flags &&& (SUDO_EVLOOP_ONCE ||| SUDO_EVLOOP_NONBLOCK)) ≠ 0) :
    ∀ (fuel : Nat) (r : Run) (new : List Call), r.st.base.events.Nodup →
      (sudo_ev_loop_impl env flags fuel r).2.log = r.log ++ new →
      (∀ c ∈ new, asks_continue env c = false) →
      ∃ sels cbs, new = sels ++ cbs ∧ (∀ c ∈ sels, is_callback c = false) ∧
        (∀ c ∈ cbs, is_callback c = true) ∧
        ((invocations cbs).map Prod.fst).Sublist r.st.base.events := by
  have hfb : ((flags &&& (SUDO_EVLOOP_ONCE ||| SUDO_EVLOOP_NONBLOCK)) != 0) = true := by
    simpa using hf
  have stay : ∀ (r : Run) (new : List Call), r.log = r.log ++ new →
      ∃ sels cbs, new = sels ++ cbs ∧ (∀ c ∈ sels, is_callback c = false) ∧
        (∀ c ∈ cbs, is_callback c = true) ∧
        ((invocations cbs).map Prod.fst).Sublist r.st.base.events := by
    intro r new h
    have : new = [] := by simpa using h
    subst this
    exact ⟨[], [], rfl, by simp, by simp, by simp [invocations]⟩
  have one : ∀ (r : Run) (new cbs : List Call),
      (waited env flags r).log ++ cbs = r.log ++ new →
      (∀ c ∈ cbs, is_callback c = true) →
      ((invocations cbs).map Prod.fst).Sublist r.st.base.events →
      ∃ sels cbs, new = sels ++ cbs ∧ (∀ c ∈ sels, is_callback c = false) ∧
        (∀ c ∈ cbs, is_callback c = true) ∧
        ((invocations cbs).map Prod.fst).Sublist r.st.base.events := by
    intro r new cbs h hc hs
    rw [waited_log, List.append_assoc] at h
    have hnew := List.append_cancel_left h
    refine ⟨[wait_call env flags r], cbs, hnew.symm, ?_, hc, hs⟩
    intro c hcm
    rw [List.mem_singleton.1 hcm]
    rfl
  intro fuel
  induction fuel with
  | zero =>
    intro r new _ hlog _
    by_cases hn : r.st.base.nevents = 0
    · rw [loop_empty env flags 0 r hn] at hlog; exact stay r new hlog
    · rw [loop_zero env flags r hn] at hlog; exact stay r new hlog
  | succ n ih =>
    intro r new hnd hlog hcont
    by_cases hn : r.st.base.nevents = 0
    · rw [loop_empty env flags _ r hn] at hlog; exact stay r new hlog
    · rw [loop_succ env flags n r hn] at hlog
      by_cases h1 : (answer env flags r).nready = -1
      · by_cases ht : (answer env flags r).errno = env.EINTR ∨
            (answer env flags r).errno = env.ENOMEM
        · rw [iteration_transient env flags n r ⟨h1, ht⟩] at hlog
          simp only at hlog
          obtain ⟨more, hmore⟩ := loop_log_prefix env flags n (waited env flags r)
          have hnew : new = wait_call env flags r :: more := by
            rw [hmore, waited_log, List.append_assoc] at hlog
            exact (List.append_cancel_left hlog).symm
          obtain ⟨sels, cbs, h3, h4, h5, h6⟩ := ih (waited env flags r) more hnd hmore
            (fun c hc => hcont c (by rw [hnew]; exact List.mem_cons_of_mem _ hc))
          refine ⟨wait_call env flags r :: sels, cbs, by rw [hnew, h3]; rfl, ?_, h5, h6⟩
          intro c hc
          rcases List.mem_cons.1 hc with h | h
          · rw [h]; rfl
          · exact h4 c h
        · rw [iteration_fatal env flags n r
            ⟨h1, fun he => ht (Or.inl he), fun he => ht (Or.inr he)⟩] at hlog
          exact one r new [] (by simpa using hlog) (by simp) (by simp [invocations])
      · by_cases h0 : (answer env flags r).nready = 0
        · rw [iteration_zero_ready env flags n r h0, if_pos hfb] at hlog
          exact one r new [] (by simpa using hlog) (by simp) (by simp [invocations])
        · rw [iteration_dispatched env flags n r h1 h0] at hlog
          obtain ⟨nd, hd1, hd2, hd3⟩ := dispatch_invokes_sublist env hq
            (waited env flags r).st.base.events [] n (waited env flags r) rfl hnd
          obtain ⟨nd2, hs1, _, hshape⟩ := dispatch_shape env n
            (TAILQ_FIRST (waited env flags r).st.base.events) (waited env flags r)
          have hd1x : (dispatch env n (TAILQ_FIRST (waited env flags r).st.base.events)
              (waited env flags r)).2.log = (waited env flags r).log ++ nd := hd1
          have hnd2 : nd2 = nd := by
            rw [hs1] at hd1x
            exact List.append_cancel_left hd1x
          subst hnd2
          rcases hdis : dispatch env n (TAILQ_FIRST (waited env flags r).st.base.events)
            (waited env flags r) with ⟨fl, r2⟩
          rw [hdis] at hlog hd1x hshape
          simp only at hd1x
          cases fl with
          | none =>
            simp only at hlog
            rw [hd1x] at hlog
            exact one r new nd2 hlog hd2 hd3
          | some f =>
            cases f with
            | done =>
              simp only at hlog
              rw [hd1x] at hlog
              exact one r new nd2 hlog hd2 hd3
            | next =>
              simp only at hlog
              have hl2 : r2.log = r.log ++ new := by
                by_cases hx : ISSET r2.st.base.flags SUDO_EVBASE_LOOPEXIT = true
                · rw [if_pos hx] at hlog; exact hlog
                · rw [if_neg hx, if_pos hfb] at hlog; exact hlog
              rw [hd1x] at hl2
              exact one r new nd2 hl2 hd2 hd3
            | rescan =>
              exfalso
              simp only at hlog
              rcases hshape with ⟨hx, _⟩ | ⟨_, pre, ev, s0, hnew, _, hb, hc, _⟩ | ⟨hx, _⟩
              · cases hx
              · obtain ⟨more, hmore⟩ := loop_log_prefix env flags n r2
                rw [hmore, hd1x, waited_log, hnew] at hlog
                have hmem : invocation env ev s0 ∈ new := by
                  have := List.append_cancel_left
                    (by simpa [List.append_assoc] using hlog :
                      r.log ++ (wait_call env flags r :: (pre ++ invocation env ev s0 :: more)) =
                        r.log ++ new)
                  rw [← this]
                  simp
                have := hcont _ hmem
                rw [asks_continue_invocation, hb, hc] at this
                cases this
              · rcases hx with hx | hx <;> cases hx

/-- An iteration makes the function return exactly when `iteration_stop` names
a way of returning; the way is never the loop test, and it is the test of the
run flags only if one of them is set. -/
theorem iteration_stop_value (env : Env) (flags fuel : Nat) (r : Run) :
    ((iteration env flags fuel r).1.value = none ↔ iteration_stop env flags fuel r = none) ∧
    iteration_stop env flags fuel r ≠ some Stop.empty ∧
    (iteration_stop env flags fuel r = some Stop.once →
      (flags &&& (SUDO_EVLOOP_ONCE ||| SUDO_EVLOOP_NONBLOCK)) ≠ 0) := by
  by_cases h1 : (answer env flags r).nready = -1
  · by_cases ht : (answer env flags r).errno = env.EINTR ∨ (answer env flags r).errno = env.ENOMEM
    · have hs : iteration_stop env flags fuel r = none := by
        unfold iteration_stop; rw [if_pos h1, if_pos ht]
      rw [iteration_transient env flags fuel r ⟨h1, ht⟩, hs]
      simp [Iter.value]
    · have hs : iteration_stop env flags fuel r = some Stop.error := by
        unfold iteration_stop; rw [if_pos h1, if_neg ht]
      rw [iteration_fatal env flags fuel r
        ⟨h1, fun he => ht (Or.inl he), fun he => ht (Or.inr he)⟩, hs]
      simp [Iter.value]
  · by_cases h0 : (answer env flags r).nready = 0
    · rw [iteration_zero_ready env flags fuel r h0]
      by_cases hf : ((flags &&& (SUDO_EVLOOP_ONCE ||| SUDO_EVLOOP_NONBLOCK)) != 0) = true
      · have hs : iteration_stop env flags fuel r = some Stop.once := by
          unfold iteration_stop; rw [if_neg h1, if_pos h0, if_pos hf]
        rw [hs, if_pos hf]
        exact ⟨by simp [Iter.value], by simp, fun _ => by simpa using hf⟩
      · have hs : iteration_stop env flags fuel r = none := by
          unfold iteration_stop; rw [if_neg h1, if_pos h0, if_neg hf]
        rw [hs, if_neg hf]
        simp [Iter.value]
    · rw [iteration_dispatched env flags fuel r h1 h0,
        iteration_stop_dispatched env flags fuel r h1 h0]
      rcases dispatch env fuel (TAILQ_FIRST (waited env flags r).st.base.events)
        (waited env flags r) with ⟨fl, r2⟩
      cases fl with
      | none => simp [Iter.value]
      | some f =>
        cases f with
        | done => simp [Iter.value]
        | rescan => simp [Iter.value]
        | next =>
          dsimp only
          by_cases hx : ISSET r2.st.base.flags SUDO_EVBASE_LOOPEXIT = true
          · rw [if_pos hx, if_pos hx]
            simp [Iter.value]
          · rw [if_neg hx, if_neg hx]
            by_cases hf : ((flags &&& (SUDO_EVLOOP_ONCE ||| SUDO_EVLOOP_NONBLOCK)) != 0) = true
            · rw [if_pos hf, if_pos hf]
              exact ⟨by simp [Iter.value], by simp, fun _ => by simpa using hf⟩
            · rw [if_neg hf, if_neg hf]
              simp [Iter.value]

/-- A run returns exactly when `why` names a way of returning; it leaves by
the loop test only with `nevents == 0`, and by the test of the run flags only
if one of them is set. -/
theorem loop_stop_value (env : Env) (flags : Nat) :
    ∀ fuel r,
      ((sudo_ev_loop_impl env flags fuel r).1 = none ↔ why env flags fuel r = none) ∧
      (why env flags fuel r = some Stop.empty →
        (sudo_ev_loop_impl env flags fuel r).2.st.base.nevents = 0) ∧
      (why env flags fuel r = some Stop.once →
        (flags &&& (SUDO_EVLOOP_ONCE ||| SUDO_EVLOOP_NONBLOCK)) ≠ 0) := by
  intro fuel
  induction fuel with
  | zero =>
    intro r
    by_cases hn : r.st.base.nevents = 0
    · rw [why_empty env flags 0 r hn, loop_empty env flags 0 r hn]
      simp [hn]
    · rw [why_zero env flags r hn, loop_zero env flags r hn]
      simp
  | succ n ih =>
    intro r
    by_cases hn : r.st.base.nevents = 0
    · rw [why_empty env flags _ r hn, loop_empty env flags _ r hn]
      simp [hn]
    · rw [why_succ env flags n r hn, loop_succ env flags n r hn]
      have hi := iteration_stop_value env flags n r
      rcases hit : iteration env flags n r with ⟨it, r1⟩
      rw [hit] at hi
      cases it with
      | ret v =>
        dsimp only
        have hne : iteration_stop env flags n r ≠ none := fun h => by
          have := hi.1.2 h
          simp [Iter.value] at this
        exact ⟨⟨(fun h => by cases h), fun h => absurd h hne⟩, fun h => absurd h hi.2.1, hi.2.2⟩
      | again => exact ih r1
      | out =>
        dsimp only
        simp

/-- C19 (`SUDO_EVLOOP_ONCE` and `SUDO_EVLOOP_NONBLOCK` perform at most one
pass).  First part, with one of the two run flags set: an iteration (started
with events registered) whose wait returns 0 makes the function return 0 at
once, and so does one whose wait returns a positive count and whose dispatch
traversal ends at the end of the queue or on a break, that is without a
continue; the log and the collection are as the traversal left them,
whatever is still registered.  Second part, the consequence for a whole run
from an empty log with one of the flags set, on a queue without repetition
and with callbacks that do not add or remove events: when no invocation asks
for a continue, the log is calls of `select` followed by invocations (no wait
follows an invocation, so there is one dispatch pass at most), and the events
invoked are events of the collection in queue order, none twice.  Third
part, with neither flag: the run never leaves by the test of the run flags;
when it returns it does so by the loop test with `nevents == 0`, or on a
failed wait, a break or an exit. -/
theorem once_runs_one_pass (env : Env) (flags fuel : Nat) :
    (∀ r : Run, (flags &&& (SUDO_EVLOOP_ONCE ||| SUDO_EVLOOP_NONBLOCK)) ≠ 0 →
      r.st.base.nevents ≠ 0 → 0 ≤ (answer env flags r).nready →
      ((answer env flags r).nready = 0 →
        sudo_ev_loop_impl env flags (fuel + 1) r = (some 0, waited env flags r)) ∧
      ((answer env flags r).nready ≠ 0 →
        ((dispatch env fuel (TAILQ_FIRST (waited env flags r).st.base.events)
            (waited env flags r)).1 = some Flow.next ∨
          (dispatch env fuel (TAILQ_FIRST (waited env flags r).st.base.events)
            (waited env flags r)).1 = some Flow.done) →
        (sudo_ev_loop_impl env flags (fuel + 1) r).1 = some 0 ∧
        (sudo_ev_loop_impl env flags (fuel + 1) r).2.log =
          (dispatch env fuel (TAILQ_FIRST (waited env flags r).st.base.events)
            (waited env flags r)).2.log ∧
        (sudo_ev_loop_impl env flags (fuel + 1) r).2.st.base.events =
          (dispatch env fuel (TAILQ_FIRST (waited env flags r).st.base.events)
            (waited env flags r)).2.st.base.events ∧
        (sudo_ev_loop_impl env flags (fuel + 1) r).2.st.base.nevents =
          (dispatch env fuel (TAILQ_FIRST (waited env flags r).st.base.events)
            (waited env flags r)).2.st.base.nevents)) ∧
    (∀ s : State, (flags &&& (SUDO_EVLOOP_ONCE ||| SUDO_EVLOOP_NONBLOCK)) ≠ 0 →
      keeps_queue env → s.base.events.Nodup →
      (∀ c ∈ (sudo_ev_loop_impl env flags fuel { st := s, log := [] }).2.log,
        asks_continue env c = false) →
      ∃ sels cbs,
        (sudo_ev_loop_impl env flags fuel { st := s, log := [] }).2.log = sels ++ cbs ∧
        (∀ c ∈ sels, is_callback c = false) ∧ (∀ c ∈ cbs, is_callback c = true) ∧
        ((invocations (sudo_ev_loop_impl env flags fuel { st := s, log := [] }).2.log).map
          Prod.fst).Sublist s.base.events ∧
        ((invocations (sudo_ev_loop_impl env flags fuel { st := s, log := [] }).2.log).map
          Prod.fst).Nodup) ∧
    (∀ r : Run, (flags &&& (SUDO_EVLOOP_ONCE ||| SUDO_EVLOOP_NONBLOCK)) = 0 →
      why env flags fuel r ≠ some Stop.once ∧
      ((sudo_ev_loop_impl env flags fuel r).1 ≠ none →
        (why env flags fuel r = some Stop.empty ∧
          (sudo_ev_loop_impl env flags fuel r).2.st.base.nevents = 0) ∨
        why env flags fuel r = some Stop.error ∨
        why env flags fuel r = some Stop.broke ∨
        why env flags fuel r = some Stop.exited)) := by
  refine ⟨?_, ?_, ?_⟩
  · intro r hf hn hnn
    have hfb : ((flags &&& (SUDO_EVLOOP_ONCE ||| SUDO_EVLOOP_NONBLOCK)) != 0) = true := by
      simpa using hf
    have h1 : (answer env flags r).nready ≠ -1 := by omega
    constructor
    · intro h0
      rw [loop_succ env flags fuel r hn, iteration_zero_ready env flags fuel r h0, if_pos hfb]
    · intro h0 hfl
      rw [loop_succ env flags fuel r hn, iteration_dispatched env flags fuel r h1 h0]
      rcases hdis : dispatch env fuel (TAILQ_FIRST (waited env flags r).st.base.events)
        (waited env flags r) with ⟨fl, r2⟩
      rw [hdis] at hfl
      rcases hfl with hfl | hfl
      · have : fl = some Flow.next := hfl
        subst this
        dsimp only
        by_cases hx : ISSET r2.st.base.flags SUDO_EVBASE_LOOPEXIT = true
        · rw [if_pos hx]; exact ⟨rfl, rfl, rfl, rfl⟩
        · rw [if_neg hx, if_pos hfb]; exact ⟨rfl, rfl, rfl, rfl⟩
      · have : fl = some Flow.done := hfl
        subst this
        exact ⟨rfl, rfl, rfl, rfl⟩
  · intro s hf hq hnd hcont
    obtain ⟨new, hnew⟩ := loop_log_prefix env flags fuel { st := s, log := [] }
    have hnew1 : (sudo_ev_loop_impl env flags fuel { st := s, log := [] }).2.log = new := by
      simpa using hnew
    rw [hnew1] at hcont ⊢
    obtain ⟨sels, cbs, h1, h2, h3, h4⟩ :=
      loop_once_shape env hq flags hf fuel { st := s, log := [] } new hnd hnew hcont
    have hsel : invocations sels = [] := by
      clear h1
      induction sels with
      | nil => rfl
      | cons c l ih =>
        cases c with
        | select nfds rs ws nb res => exact ih (fun c hc => h2 c (List.mem_cons_of_mem _ hc))
        | callback ev fd what closure mem =>
          have := h2 _ (List.mem_cons_self _ _)
          cases this
    have hinv : invocations new = invocations cbs := by
      rw [h1, invocations_append, hsel, List.nil_append]
    refine ⟨sels, cbs, h1, h2, h3, ?_, ?_⟩
    · rw [hinv]; exact h4
    · rw [hinv]; exact h4.nodup hnd
  · intro r hf
    obtain ⟨hv1, hv2, hv3⟩ := loop_stop_value env flags fuel r
    refine ⟨fun h => hv3 h hf, ?_⟩
    intro hret
    rcases hw : why env flags fuel r with _ | st
    · exact absurd (hv1.2 hw) hret
    · cases st with
      | empty => exact Or.inl ⟨rfl, hv2 hw⟩
      | error => exact Or.inr (Or.inl rfl)
      | broke => exact Or.inr (Or.inr (Or.inl rfl))
      | exited => exact Or.inr (Or.inr (Or.inr rfl))
      | once => exact absurd hf (hv3 hw)

/-- Scenario B under `SUDO_EVLOOP_ONCE`: one wait, one invocation, the run
returns 0 and the persistent event is still registered. -/
theorem once_runs_one_pass_witness :
    (SUDO_EVLOOP_ONCE &&& (SUDO_EVLOOP_ONCE ||| SUDO_EVLOOP_NONBLOCK)) ≠ 0 ∧
    persistent_reader.st.base.nevents ≠ 0 ∧
    0 ≤ (answer (scenario_env [fd3_readable, fd3_readable]) SUDO_EVLOOP_ONCE
      persistent_reader).nready ∧
    (sudo_ev_loop_impl (scenario_env [fd3_readable, fd3_readable]) SUDO_EVLOOP_ONCE (2 + 1)
      persistent_reader).1 = some 0 ∧
    waits (sudo_ev_loop_impl (scenario_env [fd3_readable, fd3_readable]) SUDO_EVLOOP_ONCE 3
      persistent_reader).2.log = 1 ∧
    invocations (sudo_ev_loop_impl (scenario_env [fd3_readable, fd3_readable]) SUDO_EVLOOP_ONCE 3
      persistent_reader).2.log = [(0, 3, SUDO_EV_READ)] ∧
    (sudo_ev_loop_impl (scenario_env [fd3_readable, fd3_readable]) SUDO_EVLOOP_ONCE 3
      persistent_reader).2.st.base.nevents = 1 ∧
    ((invocations (sudo_ev_loop_impl (scenario_env [fd3_readable, fd3_readable])
      SUDO_EVLOOP_ONCE 3 { st := persistent_reader.st, log := [] }).2.log).map Prod.fst).Nodup ∧
    why (scenario_env [fd3_readable, nothing_ready]) 0 3 persistent_reader ≠ some Stop.once :=
  ⟨by decide, by decide, by decide,
    (((once_runs_one_pass (scenario_env [fd3_readable, fd3_readable]) SUDO_EVLOOP_ONCE 2).1
      persistent_reader (by decide) (by decide) (by decide)).2 (by decide)
        (Or.inl (by decide))).1,
    by decide, by decide, by decide,
    (match (once_runs_one_pass (scenario_env [fd3_readable, fd3_readable]) SUDO_EVLOOP_ONCE 3).2.1
        persistent_reader.st (by decide) (scenario_keeps_queue _) (by decide) (by decide) with
      | ⟨_, _, h⟩ => h.2.2.2.2),
    ((once_runs_one_pass (scenario_env [fd3_readable, nothing_ready]) 0 3).2.2
      persistent_reader (by decide)).1⟩

theorem FD_SET_length (N : Nat) (fd : Int) (s : fd_set) : (FD_SET N fd s).length = s.length := by
  unfold FD_SET
  split <;> simp

theorem testBit_mark (w b c : Nat) :
    (w ||| (1 <<< b)).testBit c = (w.testBit c || decide (b = c)) := by
  rw [Nat.testBit_or, Nat.one_shiftLeft, Nat.testBit_two_pow]

/-- `FD_SET(fd, set)` for a descriptor within the storage: afterwards a
descriptor is in the set exactly if it is `fd` or was in the set before. -/
theorem FD_ISSET_FD_SET (N : Nat) (fd d : Int) (s : fd_set) (hfd : 0 ≤ fd)
    (hin : fd.toNat / N < s.length) :
    FD_ISSET N d (FD_SET N fd s) = (FD_ISSET N d s || decide (fd = d)) := by
  unfold FD_ISSET FD_SET
  have hfd0 : ¬ fd < 0 := by omega
  by_cases hd : d < 0
  · have : fd ≠ d := by omega
    simp [hd, this]
  · simp only [hd, hfd0, ↓reduceIte]
    by_cases hw : fd.toNat / N = d.toNat / N
    · rw [hw, getD_set_self, if_pos (by rw [← hw]; exact hin), testBit_mark]
      congr 1
      by_cases hb : fd.toNat % N = d.toNat % N
      · have h1 := Nat.div_add_mod fd.toNat N
        have h2 := Nat.div_add_mod d.toNat N
        rw [hw, hb] at h1
        have h3 : fd.toNat = d.toNat := by omega
        have : fd = d := by omega
        simp [hb, this]
      · have : fd ≠ d := fun h => hb (by rw [h])
        simp [hb, this]
    · rw [getD_set_other _ _ _ _ hw]
      have : fd ≠ d := fun h => hw (by rw [h])
      simp [this]

theorem FD_ISSET_zeros (N : Nat) (d : Int) (k : Nat) :
    FD_ISSET N d (List.replicate k 0) = false := by
  unfold FD_ISSET
  split
  · rfl
  · by_cases h : d.toNat / N < k
    · simp [List.getD_eq_getElem?_getD, List.getElem?_replicate, h]
    · simp [List.getD_eq_getElem?_getD, List.getElem?_replicate, h]

theorem memset_zero_all (set : fd_set) (n : Int) (h : set.length = n.toNat) :
    memset_zero set n = List.replicate set.length 0 := by
  unfold memset_zero
  rw [← h]
  simp

/-- Marking the descriptors of the events of a list that satisfy `p`, all
within the storage: the set keeps its length, and a descriptor is in it
afterwards exactly if it was before or is the descriptor of such an event. -/
theorem mark_fold (N : Nat) (p : Nat → Bool) (fd : Nat → Int) :
    ∀ (l : List Nat) (set : fd_set),
      (∀ ev ∈ l, 0 ≤ fd ev ∧ (fd ev).toNat / N < set.length) →
      (l.foldl (fun acc ev => if p ev then FD_SET N (fd ev) acc else acc) set).length =
        set.length ∧
      ∀ d, FD_ISSET N d (l.foldl (fun acc ev => if p ev then FD_SET N (fd ev) acc else acc) set) =
        (FD_ISSET N d set || l.any (fun ev => p ev && decide (fd ev = d))) := by
  intro l
  induction l with
  | nil => intro set _; simp
  | cons ev l ih =>
    intro set h
    have hev := h ev (List.mem_cons_self _ _)
    rw [List.foldl_cons]
    by_cases hp : p ev = true
    · rw [if_pos hp]
      obtain ⟨h1, h2⟩ := ih (FD_SET N (fd ev) set) (fun e he => by
        rw [FD_SET_length]; exact h e (List.mem_cons_of_mem _ he))
      refine ⟨by rw [h1, FD_SET_length], fun d => ?_⟩
      rw [h2 d, FD_ISSET_FD_SET N (fd ev) d set hev.1 hev.2, List.any_cons, hp]
      simp [Bool.or_assoc]
    · rw [if_neg hp]
      obtain ⟨h1, h2⟩ := ih set (fun e he => h e (List.mem_cons_of_mem _ he))
      refine ⟨h1, fun d => ?_⟩
      rw [h2 d, List.any_cons]
      simp [hp]

theorem build_one_read (N : Nat) (e : sudo_event) (acc : fd_set × fd_set × Int) :
    (build_one N e acc).1 =
      if ISSET e.events SUDO_EV_READ then FD_SET N e.fd acc.1 else acc.1 := by
  unfold build_one
  cases ISSET e.events SUDO_EV_READ <;> cases ISSET e.events SUDO_EV_WRITE <;> rfl

theorem build_one_write (N : Nat) (e : sudo_event) (acc : fd_set × fd_set × Int) :
    (build_one N e acc).2.1 =
      if ISSET e.events SUDO_EV_WRITE then FD_SET N e.fd acc.2.1 else acc.2.1 := by
  unfold build_one
  cases ISSET e.events SUDO_EV_READ <;> cases ISSET e.events SUDO_EV_WRITE <;> rfl

theorem build_one_high (N : Nat) (e : sudo_event) (acc : fd_set × fd_set × Int) :
    (build_one N e acc).2.2 = if wants_io e then max acc.2.2 e.fd else acc.2.2 := by
  unfold build_one wants_io
  cases ISSET e.events SUDO_EV_READ <;> cases ISSET e.events SUDO_EV_WRITE <;>
    simp only [Bool.false_eq_true, ↓reduceIte, Bool.or_self, Bool.or_false, Bool.or_true] <;>
    (try split) <;> (try split) <;> omega

theorem build_fold (N : Nat) (evs : Nat → sudo_event) :
    ∀ (l : List Nat) (acc : fd_set × fd_set × Int),
      (l.foldl (fun acc ev => build_one N (evs ev) acc) acc).1 =
        l.foldl (fun set ev =>
          if ISSET (evs ev).events SUDO_EV_READ then FD_SET N (evs ev).fd set else set) acc.1 ∧
      (l.foldl (fun acc ev => build_one N (evs ev) acc) acc).2.1 =
        l.foldl (fun set ev =>
          if ISSET (evs ev).events SUDO_EV_WRITE then FD_SET N (evs ev).fd set else set) acc.2.1 ∧
      (l.foldl (fun acc ev => build_one N (evs ev) acc) acc).2.2 =
        l.foldl (fun h ev => if wants_io (evs ev) then max h (evs ev).fd else h) acc.2.2 := by
  intro l
  induction l with
  | nil => intro acc; exact ⟨rfl, rfl, rfl⟩
  | cons ev l ih =>
    intro acc
    simp only [List.foldl_cons]
    rw [← build_one_read, ← build_one_write, ← build_one_high]
    exact ih _

theorem high_fold (fd : Nat → Int) (p : Nat → Bool) :
    ∀ (l : List Nat) (h0 : Int),
      l.foldl (fun h ev => if p ev then max h (fd ev) else h) h0 =
        ((l.filter p).map fd).foldl max h0 ∧
      h0 ≤ l.foldl (fun h ev => if p ev then max h (fd ev) else h) h0 ∧
      (∀ ev ∈ l, p ev = true →
        fd ev ≤ l.foldl (fun h ev => if p ev then max h (fd ev) else h) h0) ∧
      (l.foldl (fun h ev => if p ev then max h (fd ev) else h) h0 = h0 ∨
        ∃ ev ∈ l, p ev = true ∧
          fd ev = l.foldl (fun h ev => if p ev then max h (fd ev) else h) h0) := by
  intro l
  induction l with
  | nil => intro h0; simp
  | cons ev l ih =>
    intro h0
    simp only [List.foldl_cons]
    by_cases hp : p ev = true
    · obtain ⟨h1, h2, h3, h4⟩ := ih (max h0 (fd ev))
      simp only [hp, ↓reduceIte] at h1 h2 h3 h4 ⊢
      refine ⟨by rw [h1, List.filter_cons_of_pos hp]; rfl, ?_, ?_, ?_⟩
      · exact le_trans (le_max_left _ _) h2
      · intro e he hpe
        rcases List.mem_cons.1 he with h | h
        · rw [h]; exact le_trans (le_max_right _ _) h2
        · exact h3 e h hpe
      · rcases h4 with h | ⟨e, he, hpe, hfe⟩
        · rcases le_total h0 (fd ev) with hle | hle
          · right
            exact ⟨ev, List.mem_cons_self _ _, hp, by rw [h, max_eq_right hle]⟩
          · left
            rw [h, max_eq_left hle]
        · right
          exact ⟨e, List.mem_cons_of_mem _ he, hpe, hfe⟩
    · obtain ⟨h1, h2, h3, h4⟩ := ih h0
      have hpf : p ev = false := by simpa using hp
      simp only [hpf, Bool.false_eq_true, ↓reduceIte] at h1 h2 h3 h4 ⊢
      refine ⟨by rw [h1, List.filter_cons_of_neg (by simp [hpf])], h2, ?_, ?_⟩
      · intro e he hpe
        rcases List.mem_cons.1 he with h | h
        · rw [h, hpf] at hpe; cases hpe
        · exact h3 e h hpe
      · rcases h4 with h | ⟨e, he, hpe, hfe⟩
        · exact Or.inl h
        · exact Or.inr ⟨e, List.mem_cons_of_mem _ he, hpe, hfe⟩

theorem in_storage (N : Nat) (hN : 0 < N) (maxfd fd : Int) (hfd : 0 ≤ fd) (hle : fd ≤ maxfd) :
    fd.toNat / N < (howmany (maxfd + 1) N).toNat := by
  rw [howmany_succ N hN maxfd (le_trans hfd hle)]
  obtain ⟨f, rfl⟩ := Int.eq_ofNat_of_zero_le hfd
  obtain ⟨m, rfl⟩ := Int.eq_ofNat_of_zero_le (le_trans hfd hle)
  have hfm : f ≤ m := by exact_mod_cast hle
  have h1 : ((m : Int) / (N : Int) + 1) = ((m / N + 1 : Nat) : Int) := by push_cast; rfl
  rw [h1, Int.toNat_ofNat, Int.toNat_ofNat]
  have := Nat.div_le_div_right (c := N) hfm
  omega

theorem any_interested (s : State) (what : Nat) (d : Int) :
    s.base.events.any (fun ev => ISSET (s.evs ev).events what && decide ((s.evs ev).fd = d)) =
      true ↔ interested s what d := by
  unfold interested
  rw [List.any_eq_true]
  constructor
  · rintro ⟨ev, hev, h⟩
    simp only [Bool.and_eq_true, decide_eq_true_eq] at h
    exact ⟨ev, hev, h.2, h.1⟩
  · rintro ⟨ev, hev, h1, h2⟩
    exact ⟨ev, hev, by simp [h1, h2]⟩

/-- C17 (build phase): for a word width `NFDBITS > 0`, at the wait of an
iteration started in a memory in which `maxfd >= 0`, both sets have the size
that goes with `maxfd`, and every registered event has `0 <= fd <= maxfd`:
the call of `select` logged by the iteration has the arguments
`highfd + 1`, `readfds`, `writefds` that the build phase computes; a
descriptor is marked in that `readfds` if and only if some registered event
has this descriptor and `SUDO_EV_READ` in its mask, and in that `writefds` if
and only if some registered event has this descriptor and `SUDO_EV_WRITE` (so
no mark from an earlier pass or a deleted event survives); and `highfd` is
the highest descriptor among the registered events with read or write
interest, 0 if there is none: it is at least the descriptor of each such
event, it is 0 or the descriptor of one of them, and `0 <= highfd <= maxfd`. -/
theorem build_marks_interest (env : Env) (flags fuel : Nat) (r : Run)
    (hN : 0 < env.NFDBITS) (hmax : 0 ≤ r.st.base.maxfd) (hs : sized env.NFDBITS r.st.base)
    (hfd : ∀ ev ∈ r.st.base.events,
      0 ≤ (r.st.evs ev).fd ∧ (r.st.evs ev).fd ≤ r.st.base.maxfd) :
    (∃ rest, (iteration env flags fuel r).2.log =
      r.log ++ Call.select ((build env.NFDBITS r.st).2.2 + 1) (build env.NFDBITS r.st).1
        (build env.NFDBITS r.st).2.1 (ISSET flags SUDO_EVLOOP_NONBLOCK)
        (answer env flags r) :: rest) ∧
    (∀ d, FD_ISSET env.NFDBITS d (build env.NFDBITS r.st).1 = true ↔
      interested r.st SUDO_EV_READ d) ∧
    (∀ d, FD_ISSET env.NFDBITS d (build env.NFDBITS r.st).2.1 = true ↔
      interested r.st SUDO_EV_WRITE d) ∧
    (build env.NFDBITS r.st).2.2 = highest r.st ∧
    (∀ ev ∈ r.st.base.events, wants_io (r.st.evs ev) = true →
      (r.st.evs ev).fd ≤ highest r.st) ∧
    (highest r.st = 0 ∨
      ∃ ev ∈ r.st.base.events, wants_io (r.st.evs ev) = true ∧
        (r.st.evs ev).fd = highest r.st) ∧
    0 ≤ highest r.st ∧ highest r.st ≤ r.st.base.maxfd := by
  obtain ⟨hb1, hb2, hb3⟩ := build_fold env.NFDBITS r.st.evs r.st.base.events
    (memset_zero r.st.base.readfds (howmany (r.st.base.maxfd + 1) env.NFDBITS),
      memset_zero r.st.base.writefds (howmany (r.st.base.maxfd + 1) env.NFDBITS), 0)
  have hbr : (build env.NFDBITS r.st).1 = _ := hb1
  have hbw : (build env.NFDBITS r.st).2.1 = _ := hb2
  have hbh : (build env.NFDBITS r.st).2.2 = _ := hb3
  simp only at hbr hbw hbh
  rw [memset_zero_all _ _ hs.1] at hbr
  rw [memset_zero_all _ _ hs.2] at hbw
  have hin : ∀ (len : Nat), len = (howmany (r.st.base.maxfd + 1) env.NFDBITS).toNat →
      ∀ ev ∈ r.st.base.events, 0 ≤ (r.st.evs ev).fd ∧
        (r.st.evs ev).fd.toNat / env.NFDBITS < (List.replicate len 0).length := by
    intro len hlen ev hev
    rw [List.length_replicate, hlen]
    exact ⟨(hfd ev hev).1, in_storage _ hN _ _ (hfd ev hev).1 (hfd ev hev).2⟩
  have hmr := (mark_fold env.NFDBITS (fun ev => ISSET (r.st.evs ev).events SUDO_EV_READ)
    (fun ev => (r.st.evs ev).fd) r.st.base.events _ (hin _ hs.1)).2
  have hmw := (mark_fold env.NFDBITS (fun ev => ISSET (r.st.evs ev).events SUDO_EV_WRITE)
    (fun ev => (r.st.evs ev).fd) r.st.base.events _ (hin _ hs.2)).2
  obtain ⟨hh1, hh2, hh3, hh4⟩ := high_fold (fun ev => (r.st.evs ev).fd)
    (fun ev => wants_io (r.st.evs ev)) r.st.base.events 0
  have hhigh : (build env.NFDBITS r.st).2.2 = highest r.st := by
    rw [hbh]; exact hh1
  rw [← hbh, hhigh] at hh2 hh3 hh4
  refine ⟨?_, ?_, ?_, hhigh, hh3, ?_, hh2, ?_⟩
  · obtain ⟨new, hlog, _⟩ := iteration_shape env flags fuel r
    exact ⟨new, by rw [hlog, waited_log, List.append_assoc]; rfl⟩
  · intro d
    rw [hbr, hmr d, FD_ISSET_zeros, Bool.false_or]
    exact any_interested r.st SUDO_EV_READ d
  · intro d
    rw [hbw, hmw d, FD_ISSET_zeros, Bool.false_or]
    exact any_interested r.st SUDO_EV_WRITE d
  · rcases hh4 with h | ⟨ev, hev, hp, hf⟩
    · exact Or.inl h
    · exact Or.inr ⟨ev, hev, hp, hf⟩
  · rcases hh4 with h | ⟨ev, hev, _, hf⟩
    · rw [h]; exact hmax
    · rw [← hf]; exact (hfd ev hev).2

/-- The build phase on a base with marks left over: descriptor 3 alone is
marked for reading, descriptor 70 alone for writing, and `select` is called
with 71. -/
theorem build_marks_interest_witness :
    0 < (scenario_env []).NFDBITS ∧ (0 : Int) ≤ stale_marks.st.base.maxfd ∧
    sized (scenario_env []).NFDBITS stale_marks.st.base ∧
    (∀ ev ∈ stale_marks.st.base.events,
      0 ≤ (stale_marks.st.evs ev).fd ∧ (stale_marks.st.evs ev).fd ≤ stale_marks.st.base.maxfd) ∧
    FD_ISSET 64 5 stale_marks.st.base.readfds = true ∧
    build 64 stale_marks.st = ([8, 0], [0, 64], 70) ∧
    (build (scenario_env []).NFDBITS stale_marks.st).2.2 = highest stale_marks.st ∧
    highest stale_marks.st ≤ stale_marks.st.base.maxfd :=
  ⟨by decide, by decide, by decide, by decide, by decide, by decide,
    (build_marks_interest (scenario_env []) 0 1 stale_marks (by decide) (by decide) (by decide)
      (by decide)).2.2.2.1,
    (build_marks_interest (scenario_env []) 0 1 stale_marks (by decide) (by decide) (by decide)
      (by decide)).2.2.2.2.2.2.2⟩

/-- The loss of the marks seen from the loop: two persistent READ events on
the descriptors 3 and 4 are both reported ready, and the callback of the
first adds an event.  When the new event is on descriptor 5, within the
capacity, the event on descriptor 4 is invoked in the same pass; when it is
on descriptor 64, `sudo_ev_add_impl` replaces the sets by zeroed ones and the
event on descriptor 4, registered and reported ready, is not invoked in the
pass. -/
theorem growth_in_a_pass_hides_readiness :
    (sudo_ev_loop_impl (adding_env [fd3_fd4_readable]) SUDO_EVLOOP_ONCE 5
      (reader_adds_event 5)).1 = some 0 ∧
    invocations (sudo_ev_loop_impl (adding_env [fd3_fd4_readable]) SUDO_EVLOOP_ONCE 5
      (reader_adds_event 5)).2.log = [(0, 3, SUDO_EV_READ), (1, 4, SUDO_EV_READ)] ∧
    (sudo_ev_loop_impl (adding_env [fd3_fd4_readable]) SUDO_EVLOOP_ONCE 5
      (reader_adds_event 64)).1 = some 0 ∧
    invocations (sudo_ev_loop_impl (adding_env [fd3_fd4_readable]) SUDO_EVLOOP_ONCE 5
      (reader_adds_event 64)).2.log = [(0, 3, SUDO_EV_READ)] ∧
    (sudo_ev_loop_impl (adding_env [fd3_fd4_readable]) SUDO_EVLOOP_ONCE 5
      (reader_adds_event 64)).2.st.base.events = [0, 1, 2] ∧
    (sudo_ev_loop_impl (adding_env [fd3_fd4_readable]) SUDO_EVLOOP_ONCE 5
      (reader_adds_event 64)).2.st.base.maxfd = 127 := by
  decide

theorem ecalloc_length (n : Int) (hn : 0 ≤ n) : ((ecalloc n).length : Int) = n := by
  unfold ecalloc
  rw [List.length_replicate]
  exact Int.toNat_of_nonneg hn

theorem storage_ok_alloc (N : Nat) (hN : 0 < N) (evs : Nat → sudo_event)
    (old : sudo_event_base) :
    storage_ok N evs (sudo_ev_base_alloc_impl N old).2 [] := by
  have hN0 : (0 : Int) < N := by exact_mod_cast hN
  have hdiv : ((N : Int) - 1 + 1) / (N : Int) = 1 := by
    rw [Int.sub_add_cancel]; exact Int.ediv_self (by omega)
  refine ⟨⟨1, by decide, ?_⟩, ?_, ?_, ?_⟩
  · show (N : Int) - 1 + 1 = 1 * N
    omega
  · show ((ecalloc 1).length : Int) = ((N : Int) - 1 + 1) / N
    rw [hdiv]; rfl
  · show ((ecalloc 1).length : Int) = ((N : Int) - 1 + 1) / N
    rw [hdiv]; rfl
  · intro ev hev
    cases hev

/-- One call of the backend with a non-negative descriptor keeps the storage
invariant and does not lower `maxfd`. -/
theorem storage_ok_step (N : Nat) (hN : 0 < N) (evs : Nat → sudo_event)
    (base : sudo_event_base) (reg : List Nat) (c : BackendCall)
    (h : storage_ok N evs base reg) (hfd : 0 ≤ (evs c.event).fd) :
    storage_ok N evs (BackendCall.apply N evs base c) (registered_after reg [c]) ∧
    base.maxfd ≤ (BackendCall.apply N evs base c).maxfd := by
  have hN0 : (0 : Int) < N := by exact_mod_cast hN
  obtain ⟨⟨k, hk, hmax⟩, hr, hw, hreg⟩ := h
  cases c with
  | add ev =>
    have hfd0 : 0 ≤ (evs ev).fd := hfd
    show storage_ok N evs (sudo_ev_add_impl N base (evs ev)).2 (ev :: reg) ∧
      base.maxfd ≤ (sudo_ev_add_impl N base (evs ev)).2.maxfd
    by_cases hg : (evs ev).fd > base.maxfd
    · rw [add_impl_grow N base (evs ev) hg]
      have hn := howmany_succ N hN (evs ev).fd hfd0
      have hb := (howmany_succ_bounds N hN (evs ev).fd hfd0).1
      have hq : 0 ≤ (evs ev).fd / (N : Int) := Int.ediv_nonneg hfd0 (by omega)
      have hpos : 0 < howmany ((evs ev).fd + 1) N := by rw [hn]; omega
      have hdiv : (howmany ((evs ev).fd + 1) N * N - 1 + 1) / (N : Int) =
          howmany ((evs ev).fd + 1) N := by
        rw [Int.sub_add_cancel]
        exact Int.mul_ediv_cancel _ (by omega)
      refine ⟨⟨⟨howmany ((evs ev).fd + 1) N, hpos, ?_⟩, ?_, ?_, ?_⟩, ?_⟩
      · show howmany ((evs ev).fd + 1) N * N - 1 + 1 = howmany ((evs ev).fd + 1) N * N
        omega
      · show ((ecalloc (howmany ((evs ev).fd + 1) N)).length : Int) =
          (howmany ((evs ev).fd + 1) N * N - 1 + 1) / N
        rw [hdiv, ecalloc_length _ (by omega)]
      · show ((ecalloc (howmany ((evs ev).fd + 1) N)).length : Int) =
          (howmany ((evs ev).fd + 1) N * N - 1 + 1) / N
        rw [hdiv, ecalloc_length _ (by omega)]
      · intro e he
        show 0 ≤ (evs e).fd ∧ (evs e).fd ≤ howmany ((evs ev).fd + 1) N * N - 1
        rcases List.mem_cons.1 he with h1 | h1
        · rw [h1]; exact ⟨hfd0, hb⟩
        · have := hreg e h1
          exact ⟨this.1, by omega⟩
      · show base.maxfd ≤ howmany ((evs ev).fd + 1) N * N - 1
        omega
    · rw [add_impl_keep N base (evs ev) hg]
      refine ⟨⟨⟨k, hk, hmax⟩, hr, hw, ?_⟩, le_refl _⟩
      intro e he
      rcases List.mem_cons.1 he with h1 | h1
      · rw [h1]; exact ⟨hfd0, by show (evs ev).fd ≤ base.maxfd; omega⟩
      · exact hreg e h1
  | del ev =>
    show storage_ok N evs (sudo_ev_del_impl N base (evs ev)).2 (reg.erase ev) ∧
      base.maxfd ≤ (sudo_ev_del_impl N base (evs ev)).2.maxfd
    refine ⟨⟨⟨k, hk, hmax⟩, ?_, ?_, ?_⟩, le_refl _⟩
    · show ((FD_CLR N (evs ev).fd base.readfds).length : Int) = (base.maxfd + 1) / N
      rw [FD_CLR_length]; exact hr
    · show ((FD_CLR N (evs ev).fd base.writefds).length : Int) = (base.maxfd + 1) / N
      rw [FD_CLR_length]; exact hw
    · intro e he
      exact hreg e (List.mem_of_mem_erase he)

theorem backend_run_cons (N : Nat) (evs : Nat → sudo_event) (base : sudo_event_base)
    (c : BackendCall) (calls : List BackendCall) :
    backend_run N evs base (c :: calls) =
      backend_run N evs (BackendCall.apply N evs base c) calls := rfl

theorem backend_run_append (N : Nat) (evs : Nat → sudo_event) (base : sudo_event_base)
    (l1 l2 : List BackendCall) :
    backend_run N evs base (l1 ++ l2) = backend_run N evs (backend_run N evs base l1) l2 := by
  unfold backend_run
  rw [List.foldl_append]

theorem registered_after_cons (reg : List Nat) (c : BackendCall) (calls : List BackendCall) :
    registered_after reg (c :: calls) = registered_after (registered_after reg [c]) calls := by
  cases c <;> rfl

/-- A sequence of calls of the backend with non-negative descriptors keeps
the storage invariant and does not lower `maxfd`. -/
theorem storage_ok_run (N : Nat) (hN : 0 < N) (evs : Nat → sudo_event) :
    ∀ (calls : List BackendCall) (base : sudo_event_base) (reg : List Nat),
      storage_ok N evs base reg → (∀ c ∈ calls, 0 ≤ (evs c.event).fd) →
      storage_ok N evs (backend_run N evs base calls) (registered_after reg calls) ∧
      base.maxfd ≤ (backend_run N evs base calls).maxfd := by
  intro calls
  induction calls with
  | nil => intro base reg h _; exact ⟨h, le_refl _⟩
  | cons c calls ih =>
    intro base reg h hfd
    obtain ⟨h1, h2⟩ := storage_ok_step N hN evs base reg c h (hfd c (List.mem_cons_self _ _))
    obtain ⟨h3, h4⟩ := ih _ _ h1 (fun c1 hc1 => hfd c1 (List.mem_cons_of_mem _ hc1))
    rw [backend_run_cons, registered_after_cons]
    exact ⟨h3, le_trans h2 h4⟩

theorem howmany_multiple (N : Nat) (hN : 0 < N) (k : Int) (hk : 0 < k) :
    howmany (k * N) N = k ∧ (k * N) / (N : Int) = k := by
  have hN0 : (0 : Int) < N := by exact_mod_cast hN
  have hkN : 0 ≤ k * (N : Int) := Int.mul_nonneg (by omega) (by omega)
  constructor
  · unfold howmany
    rw [Int.tdiv_eq_ediv (by omega) (by omega), Int.add_comm,
      Int.add_mul_ediv_right _ _ (by omega), Int.ediv_eq_zero_of_lt (by omega) (by omega)]
    omega
  · exact Int.mul_ediv_cancel _ (by omega)

/-- C21 (storage-size invariant): for a word width `NFDBITS > 0`, after
`sudo_ev_base_alloc_impl` and any sequence of calls of `sudo_ev_add_impl` and
`sudo_ev_del_impl` for events with non-negative descriptors (arithmetic on
`int` not overflowing): `maxfd + 1` is a positive multiple of `NFDBITS`;
`maxfd` never decreases along the sequence; `readfds` and `writefds` hold
exactly `(maxfd + 1) / NFDBITS` words each; and every registered event (added
and not deleted since) has `0 <= fd <= maxfd`.  Hence the number of words the
build phase clears, `howmany(maxfd + 1, NFDBITS)`, is the number of words
allocated, so that the `memset` zeroes each set entirely and nothing beyond,
and the word of the descriptor of every registered event, the one that
`FD_SET`, `FD_ISSET` and `FD_CLR` address in the build, dispatch and delete
steps, lies within both sets. -/
theorem storage_size_invariant (N : Nat) (hN : 0 < N) (old : sudo_event_base)
    (evs : Nat → sudo_event) (calls : List BackendCall)
    (hfd : ∀ c ∈ calls, 0 ≤ (evs c.event).fd) :
    (∃ k : Int, 0 < k ∧ (backend_after N old evs calls).maxfd + 1 = k * N) ∧
    (∀ i j, i ≤ j →
      (backend_after N old evs (calls.take i)).maxfd ≤
        (backend_after N old evs (calls.take j)).maxfd) ∧
    ((backend_after N old evs calls).readfds.length : Int) =
      ((backend_after N old evs calls).maxfd + 1) / N ∧
    ((backend_after N old evs calls).writefds.length : Int) =
      ((backend_after N old evs calls).maxfd + 1) / N ∧
    (∀ ev ∈ registered_after [] calls,
      0 ≤ (evs ev).fd ∧ (evs ev).fd ≤ (backend_after N old evs calls).maxfd) ∧
    howmany ((backend_after N old evs calls).maxfd + 1) N =
      (backend_after N old evs calls).readfds.length ∧
    howmany ((backend_after N old evs calls).maxfd + 1) N =
      (backend_after N old evs calls).writefds.length ∧
    memset_zero (backend_after N old evs calls).readfds
        (howmany ((backend_after N old evs calls).maxfd + 1) N) =
      List.replicate (backend_after N old evs calls).readfds.length 0 ∧
    memset_zero (backend_after N old evs calls).writefds
        (howmany ((backend_after N old evs calls).maxfd + 1) N) =
      List.replicate (backend_after N old evs calls).writefds.length 0 ∧
    (∀ ev ∈ registered_after [] calls,
      (evs ev).fd.toNat / N < (backend_after N old evs calls).readfds.length ∧
      (evs ev).fd.toNat / N < (backend_after N old evs calls).writefds.length) := by
  have h0 := storage_ok_alloc N hN evs old
  obtain ⟨⟨⟨k, hk, hmax⟩, hr, hw, hreg⟩, _⟩ :=
    storage_ok_run N hN evs calls (sudo_ev_base_alloc_impl N old).2 [] h0 hfd
  have hr1 : ((backend_after N old evs calls).readfds.length : Int) =
      ((backend_after N old evs calls).maxfd + 1) / N := hr
  have hw1 : ((backend_after N old evs calls).writefds.length : Int) =
      ((backend_after N old evs calls).maxfd + 1) / N := hw
  have hmax1 : (backend_after N old evs calls).maxfd + 1 = k * N := hmax
  have hreg1 : ∀ ev ∈ registered_after [] calls,
      0 ≤ (evs ev).fd ∧ (evs ev).fd ≤ (backend_after N old evs calls).maxfd := hreg
  obtain ⟨hh, hd⟩ := howmany_multiple N hN k hk
  have hhr : howmany ((backend_after N old evs calls).maxfd + 1) N =
      (backend_after N old evs calls).readfds.length := by
    rw [hr1, hmax1, hh, hd]
  have hhw : howmany ((backend_after N old evs calls).maxfd + 1) N =
      (backend_after N old evs calls).writefds.length := by
    rw [hw1, hmax1, hh, hd]
  refine ⟨⟨k, hk, hmax1⟩, ?_, hr1, hw1, hreg1, hhr, hhw, ?_, ?_, ?_⟩
  · intro i j hij
    obtain ⟨n, rfl⟩ := Nat.exists_eq_add_of_le hij
    rw [List.take_add]
    unfold backend_after
    rw [backend_run_append]
    have h1 := (storage_ok_run N hN evs (calls.take i) (sudo_ev_base_alloc_impl N old).2 [] h0
      (fun c hc => hfd c (List.mem_of_mem_take hc))).1
    exact (storage_ok_run N hN evs ((calls.drop i).take n) _ _ h1
      (fun c hc => hfd c (List.mem_of_mem_drop (List.mem_of_mem_take hc)))).2
  · exact memset_zero_all _ _ (by rw [hhr]; rfl)
  · exact memset_zero_all _ _ (by rw [hhw]; rfl)
  · intro ev hev
    have hb := hreg1 ev hev
    have hs := in_storage N hN _ _ hb.1 hb.2
    constructor
    · rw [hhr] at hs; exact hs
    · rw [hhw] at hs; exact hs

/-- Five calls on a freshly set up base of 64-bit words, with a shared
descriptor and a descriptor beyond the first word: `maxfd` goes from 63 to
127, both sets hold two words, and the event left registered, on descriptor
64, addresses the second word. -/
theorem storage_size_invariant_witness :
    0 < 64 ∧ (∀ c ∈ five_calls, 0 ≤ (heap three_events c.event).fd) ∧
    (backend_after 64 (scenario_base []) (heap three_events) (five_calls.take 3)).maxfd = 63 ∧
    (backend_after 64 (scenario_base []) (heap three_events) five_calls).maxfd = 127 ∧
    registered_after [] five_calls = [2] ∧
    ((backend_after 64 (scenario_base []) (heap three_events) five_calls).readfds.length : Int) =
      ((backend_after 64 (scenario_base []) (heap three_events) five_calls).maxfd + 1) /
        ((64 : Nat) : Int) ∧
    (backend_after 64 (scenario_base []) (heap three_events) five_calls).readfds.length = 2 ∧
    (backend_after 64 (scenario_base []) (heap three_events) (five_calls.take 3)).maxfd ≤
      (backend_after 64 (scenario_base []) (heap three_events) (five_calls.take 5)).maxfd :=
  ⟨by decide, by decide, by decide, by decide, by decide,
    (storage_size_invariant 64 (by decide) (scenario_base []) (heap three_events) five_calls
      (by decide)).2.2.1,
    by decide,
    (storage_size_invariant 64 (by decide) (scenario_base []) (heap three_events) five_calls
      (by decide)).2.1 3 5 (by decide)⟩

/-- The body of the build phase marks the interest of the collection: for a
word width `NFDBITS > 0`, in a memory in which both sets have the size that
goes with `maxfd` and every registered event has `0 <= fd <= maxfd`, after
the two sets have been zeroed over `howmany(maxfd + 1, NFDBITS)` words and
every event of the queue has marked its interest, a descriptor is marked in
the read set exactly if some registered event has it with `SUDO_EV_READ`, in
the write set exactly if some registered event has it with `SUDO_EV_WRITE`,
whatever the sets held before, and `highfd` is the highest descriptor with
read or write interest, 0 if there is none. -/
theorem rebuilt_interest (N : Nat) (hN : 0 < N) (s : State) (hs : sized N s.base)
    (hfd : ∀ ev ∈ s.base.events, 0 ≤ (s.evs ev).fd ∧ (s.evs ev).fd ≤ s.base.maxfd) :
    (∀ d, FD_ISSET N d (s.base.events.foldl (fun acc ev => build_one N (s.evs ev) acc)
        (memset_zero s.base.readfds (howmany (s.base.maxfd + 1) N),
          memset_zero s.base.writefds (howmany (s.base.maxfd + 1) N), 0)).1 = true ↔
      interested s SUDO_EV_READ d) ∧
    (∀ d, FD_ISSET N d (s.base.events.foldl (fun acc ev => build_one N (s.evs ev) acc)
        (memset_zero s.base.readfds (howmany (s.base.maxfd + 1) N),
          memset_zero s.base.writefds (howmany (s.base.maxfd + 1) N), 0)).2.1 = true ↔
      interested s SUDO_EV_WRITE d) ∧
    (s.base.events.foldl (fun acc ev => build_one N (s.evs ev) acc)
        (memset_zero s.base.readfds (howmany (s.base.maxfd + 1) N),
          memset_zero s.base.writefds (howmany (s.base.maxfd + 1) N), 0)).2.2 = highest s := by
  obtain ⟨hbr, hbw, hbh⟩ := build_fold N s.evs s.base.events
    (memset_zero s.base.readfds (howmany (s.base.maxfd + 1) N),
      memset_zero s.base.writefds (howmany (s.base.maxfd + 1) N), 0)
  simp only at hbr hbw hbh
  rw [memset_zero_all _ _ hs.1, memset_zero_all _ _ hs.2] at hbr hbw hbh ⊢
  have hin : ∀ (len : Nat), len = (howmany (s.base.maxfd + 1) N).toNat →
      ∀ ev ∈ s.base.events, 0 ≤ (s.evs ev).fd ∧
        (s.evs ev).fd.toNat / N < (List.replicate len 0).length := by
    intro len hlen ev hev
    rw [List.length_replicate, hlen]
    exact ⟨(hfd ev hev).1, in_storage _ hN _ _ (hfd ev hev).1 (hfd ev hev).2⟩
  have hmr := (mark_fold N (fun ev => ISSET (s.evs ev).events SUDO_EV_READ)
    (fun ev => (s.evs ev).fd) s.base.events _ (hin _ hs.1)).2
  have hmw := (mark_fold N (fun ev => ISSET (s.evs ev).events SUDO_EV_WRITE)
    (fun ev => (s.evs ev).fd) s.base.events _ (hin _ hs.2)).2
  refine ⟨?_, ?_, ?_⟩
  · intro d
    rw [hbr, hmr d, FD_ISSET_zeros, Bool.false_or]
    exact any_interested s SUDO_EV_READ d
  · intro d
    rw [hbw, hmw d, FD_ISSET_zeros, Bool.false_or]
    exact any_interested s SUDO_EV_WRITE d
  · rw [hbh]
    exact (high_fold (fun ev => (s.evs ev).fd) (fun ev => wants_io (s.evs ev))
      s.base.events 0).1

/-- The body of the build phase does not depend on what the sets hold: two
memories with the same collection, event records and `maxfd`, both with sets
of the size that goes with `maxfd`, give the same sets and the same
`highfd`. -/
theorem rebuilt_congr (N : Nat) (s t : State) (hev : t.base.events = s.base.events)
    (hevs : t.evs = s.evs) (hmax : t.base.maxfd = s.base.maxfd) (hs : sized N s.base)
    (ht : sized N t.base) :
    t.base.events.foldl (fun acc ev => build_one N (t.evs ev) acc)
        (memset_zero t.base.readfds (howmany (t.base.maxfd + 1) N),
          memset_zero t.base.writefds (howmany (t.base.maxfd + 1) N), 0) =
      s.base.events.foldl (fun acc ev => build_one N (s.evs ev) acc)
        (memset_zero s.base.readfds (howmany (s.base.maxfd + 1) N),
          memset_zero s.base.writefds (howmany (s.base.maxfd + 1) N), 0) := by
  rw [hev, hevs, hmax, memset_zero_all _ _ hs.1, memset_zero_all _ _ hs.2,
    memset_zero_all _ _ (by rw [← hmax]; exact ht.1),
    memset_zero_all _ _ (by rw [← hmax]; exact ht.2)]
  have h1 := hs.1
  have h2 := hs.2
  have h3 := ht.1
  have h4 := ht.2
  rw [hmax] at h3 h4
  rw [h1, h2, h3, h4]

/-- C11 (transient wait failure).  First part, the failing step: when the wait
of an iteration (started with events registered) returns -1 with `errno`
equal to `EINTR` or `ENOMEM`, then, whatever the run flags (`SUDO_EVLOOP_ONCE`
and `SUDO_EVLOOP_NONBLOCK` included), the iteration ends back at the loop
test instead of returning; the log gains the call of `select` and no
invocation; the collection, `nevents`, `base->flags`, the cursor, `maxfd`,
the event records and the rest of the memory are unchanged; and, given supply
for one more iteration, the next log entry is the call of `select` again, with
`highfd + 1` and the sets that the build phase computes from the memory the
failed call left.  These sets are rebuilt from the unchanged collection: for
`NFDBITS > 0`, when the sets the failed call left have the size that goes with
`maxfd` and every registered event has `0 <= fd <= maxfd`, a descriptor is
marked in the read set of the retry exactly if some event registered before
the failed wait has it with `SUDO_EV_READ`, in the write set exactly if some
such event has it with `SUDO_EV_WRITE`, whatever the failed call left in the
sets, and `highfd` is the highest descriptor with interest; and when the sets
had that size before the failed wait too, the retry hands `select` the very
arguments of the failed call.  Second part, a whole run from an empty log:
when no wait of the run fails with another `errno`, the value returned is not
-1: the run returns 0 unless the supply is exhausted. -/
theorem transient_wait_is_retried (env : Env) (flags fuel : Nat) :
    (∀ r : Run, r.st.base.nevents ≠ 0 → transient_answer env (answer env flags r) →
      iteration env flags fuel r = (Iter.again, waited env flags r) ∧
      sudo_ev_loop_impl env flags (fuel + 1) r =
        sudo_ev_loop_impl env flags fuel (waited env flags r) ∧
      (waited env flags r).log = r.log ++ [wait_call env flags r] ∧
      (waited env flags r).st.base.events = r.st.base.events ∧
      (waited env flags r).st.base.nevents = r.st.base.nevents ∧
      (waited env flags r).st.base.flags = r.st.base.flags ∧
      (waited env flags r).st.base.pending = r.st.base.pending ∧
      (waited env flags r).st.base.maxfd = r.st.base.maxfd ∧
      (waited env flags r).st.evs = r.st.evs ∧
      (waited env flags r).st.user = r.st.user ∧
      (∃ rest, (sudo_ev_loop_impl env flags (fuel + 2) r).2.log =
        r.log ++ wait_call env flags r :: wait_call env flags (waited env flags r) :: rest) ∧
      wait_call env flags (waited env flags r) =
        Call.select ((build env.NFDBITS (waited env flags r).st).2.2 + 1)
          (build env.NFDBITS (waited env flags r).st).1
          (build env.NFDBITS (waited env flags r).st).2.1
          (ISSET flags SUDO_EVLOOP_NONBLOCK) (answer env flags (waited env flags r)) ∧
      (0 < env.NFDBITS → sized env.NFDBITS (waited env flags r).st.base →
        (∀ ev ∈ r.st.base.events,
          0 ≤ (r.st.evs ev).fd ∧ (r.st.evs ev).fd ≤ r.st.base.maxfd) →
        (∀ d, FD_ISSET env.NFDBITS d (build env.NFDBITS (waited env flags r).st).1 = true ↔
          interested r.st SUDO_EV_READ d) ∧
        (∀ d, FD_ISSET env.NFDBITS d (build env.NFDBITS (waited env flags r).st).2.1 = true ↔
          interested r.st SUDO_EV_WRITE d) ∧
        (build env.NFDBITS (waited env flags r).st).2.2 = highest r.st) ∧
      (sized env.NFDBITS r.st.base → sized env.NFDBITS (waited env flags r).st.base →
        build env.NFDBITS (waited env flags r).st = build env.NFDBITS r.st)) ∧
    (∀ s : State,
      (∀ c ∈ (sudo_ev_loop_impl env flags fuel { st := s, log := [] }).2.log,
        fatal_wait env c = false) →
      (sudo_ev_loop_impl env flags fuel { st := s, log := [] }).1 ≠ some (-1) ∧
      ((sudo_ev_loop_impl env flags fuel { st := s, log := [] }).1 = some 0 ∨
        (sudo_ev_loop_impl env flags fuel { st := s, log := [] }).1 = none)) := by
  constructor
  · intro r hne ht
    have hi := iteration_transient env flags fuel r ht
    have hi1 := iteration_transient env flags (fuel + 1) r ht
    refine ⟨hi, ?_, rfl, rfl, rfl, rfl, rfl, rfl, rfl, rfl, ?_, rfl, ?_, ?_⟩
    · rw [loop_succ env flags fuel r hne, hi]
    · have h2 : sudo_ev_loop_impl env flags (fuel + 2) r =
          sudo_ev_loop_impl env flags (fuel + 1) (waited env flags r) := by
        rw [loop_succ env flags (fuel + 1) r hne, hi1]
      obtain ⟨rest, hrest⟩ := loop_first_wait env flags fuel (waited env flags r) hne
      refine ⟨rest, ?_⟩
      rw [h2, hrest, waited_log]
      simp
    · intro hN hs hfd
      exact rebuilt_interest env.NFDBITS hN (waited env flags r).st hs hfd
    · intro hs0 hs1
      exact rebuilt_congr env.NFDBITS r.st (waited env flags r).st rfl rfl rfl hs0 hs1
  · intro s hs
    rcases loop_fatal_shape env flags fuel { st := s, log := [] } (by simp) with
      ⟨_, r0, _, hf, h2⟩ | ⟨h1, _⟩
    · exfalso
      have hmem : wait_call env flags r0 ∈
          (sudo_ev_loop_impl env flags fuel { st := s, log := [] }).2.log := by
        rw [h2, waited_log]; simp
      have := hs _ hmem
      simp [wait_call, fatal_wait, hf.1, hf.2.1, hf.2.2] at this
    · refine ⟨?_, h1⟩
      rcases h1 with h1 | h1 <;> rw [h1] <;> simp

/-- One READ event on descriptor 3 whose first wait is interrupted and leaves
the descriptors 0 to 7 marked in both sets, under `SUDO_EVLOOP_ONCE`: the wait
is made again on the sets rebuilt from the collection (descriptor 3 for
reading, nothing for writing, `highfd` 3), the event fires once, and the run
returns 0. -/
theorem transient_wait_is_retried_witness :
    one_shot_reader.st.base.nevents ≠ 0 ∧
    transient_answer (scenario_env [interrupted_with_marks, fd3_readable])
      (answer (scenario_env [interrupted_with_marks, fd3_readable]) SUDO_EVLOOP_ONCE
        one_shot_reader) ∧
    sudo_ev_loop_impl (scenario_env [interrupted_with_marks, fd3_readable]) SUDO_EVLOOP_ONCE
        (2 + 1) one_shot_reader =
      sudo_ev_loop_impl (scenario_env [interrupted_with_marks, fd3_readable]) SUDO_EVLOOP_ONCE 2
        (waited (scenario_env [interrupted_with_marks, fd3_readable]) SUDO_EVLOOP_ONCE
          one_shot_reader) ∧
    (waited (scenario_env [interrupted_with_marks, fd3_readable]) SUDO_EVLOOP_ONCE
      one_shot_reader).st.base.readfds = [255] ∧
    (waited (scenario_env [interrupted_with_marks, fd3_readable]) SUDO_EVLOOP_ONCE
      one_shot_reader).st.base.writefds = [255] ∧
    0 < (scenario_env [interrupted_with_marks, fd3_readable]).NFDBITS ∧
    sized (scenario_env [interrupted_with_marks, fd3_readable]).NFDBITS
      (waited (scenario_env [interrupted_with_marks, fd3_readable]) SUDO_EVLOOP_ONCE
        one_shot_reader).st.base ∧
    (∀ ev ∈ one_shot_reader.st.base.events,
      0 ≤ (one_shot_reader.st.evs ev).fd ∧
        (one_shot_reader.st.evs ev).fd ≤ one_shot_reader.st.base.maxfd) ∧
    (build (scenario_env [interrupted_with_marks, fd3_readable]).NFDBITS
      (waited (scenario_env [interrupted_with_marks, fd3_readable]) SUDO_EVLOOP_ONCE
        one_shot_reader).st).2.2 = highest one_shot_reader.st ∧
    build 64 (waited (scenario_env [interrupted_with_marks, fd3_readable]) SUDO_EVLOOP_ONCE
      one_shot_reader).st = ([8], [0], 3) ∧
    (sudo_ev_loop_impl (scenario_env [interrupted_with_marks, fd3_readable]) SUDO_EVLOOP_ONCE 3
        one_shot_reader).1 = some 0 ∧
    invocations (sudo_ev_loop_impl (scenario_env [interrupted_with_marks, fd3_readable])
        SUDO_EVLOOP_ONCE 3 one_shot_reader).2.log = [(0, 3, SUDO_EV_READ)] ∧
    waits (sudo_ev_loop_impl (scenario_env [interrupted_with_marks, fd3_readable])
        SUDO_EVLOOP_ONCE 3 one_shot_reader).2.log = 2 ∧
    (sudo_ev_loop_impl (scenario_env [interrupted_with_marks, fd3_readable]) SUDO_EVLOOP_ONCE 3
        one_shot_reader).1 ≠ some (-1) :=
  ⟨by decide, by decide,
    ((transient_wait_is_retried (scenario_env [interrupted_with_marks, fd3_readable])
      SUDO_EVLOOP_ONCE 2).1 one_shot_reader (by decide) (by decide)).2.1,
    by decide, by decide, by decide, by decide, by decide,
    (((transient_wait_is_retried (scenario_env [interrupted_with_marks, fd3_readable])
      SUDO_EVLOOP_ONCE 2).1 one_shot_reader (by decide) (by decide)).2.2.2.2.2.2.2.2.2.2.2.2.1
        (by decide) (by decide) (by decide)).2.2,
    by decide, by decide, by decide, by decide,
    ((transient_wait_is_retried (scenario_env [interrupted_with_marks, fd3_readable])
      SUDO_EVLOOP_ONCE 3).2 one_shot_reader.st (by decide)).1⟩

/-- C7 (continue restarts the cycle): in one iteration of the loop of
`sudo_ev_loop_impl`, whatever the run flags, an invocation whose callback
returns with `SUDO_EVBASE_LOOPCONT` set and `SUDO_EVBASE_LOOPBREAK` clear is
the last entry the iteration logs (no further event of the traversal is
invoked); the iteration ends with control back at the loop test and not with a
return, `base->flags` is what the callback left with `LOOPCONT` cleared (so no
`GOT_EXIT` is recorded for a pending exit request), `base->pending` is `NULL`,
and the run goes on from that memory: with no event registered it returns 0,
otherwise its next step is a call of `select`, also under `ONCE` or `NONBLOCK`,
with `highfd + 1` and the sets that the build phase computes from that
memory.  These sets are rebuilt from the collection as the abandoned pass
left it: for `NFDBITS > 0`, when the sets have the size that goes with `maxfd`
and every registered event has `0 <= fd <= maxfd`, a descriptor is marked in
the read set of the new wait exactly if some registered event has it with
`SUDO_EV_READ`, in the write set exactly if some registered event has it with
`SUDO_EV_WRITE`, whatever the abandoned pass left in the sets, and `highfd` is
the highest descriptor with interest. -/
theorem continue_restarts_cycle (env : Env) (flags fuel : Nat) (r : Run)
    (pre : List Call) (c : Call) (post : List Call)
    (hlog : (iteration env flags fuel r).2.log = r.log ++ (pre ++ c :: post))
    (hcont : asks_continue env c = true) :
    post = [] ∧
    (iteration env flags fuel r).1 = Iter.again ∧
    (∀ s1, Call.after env c = some s1 →
      (iteration env flags fuel r).2.st.base.flags =
        CLR s1.base.flags SUDO_EVBASE_LOOPCONT) ∧
    ISSET (iteration env flags fuel r).2.st.base.flags SUDO_EVBASE_LOOPCONT = false ∧
    (iteration env flags fuel r).2.st.base.pending = none ∧
    (r.st.base.nevents ≠ 0 →
      sudo_ev_loop_impl env flags (fuel + 1) r =
        sudo_ev_loop_impl env flags fuel (iteration env flags fuel r).2) ∧
    ((iteration env flags fuel r).2.st.base.nevents = 0 →
      ∀ more, sudo_ev_loop_impl env flags more (iteration env flags fuel r).2 =
        (some 0, (iteration env flags fuel r).2)) ∧
    ((iteration env flags fuel r).2.st.base.nevents ≠ 0 →
      ∀ more, ∃ rest,
        (sudo_ev_loop_impl env flags (more + 1) (iteration env flags fuel r).2).2.log =
          (iteration env flags fuel r).2.log ++
            wait_call env flags (iteration env flags fuel r).2 :: rest) ∧
    wait_call env flags (iteration env flags fuel r).2 =
      Call.select ((build env.NFDBITS (iteration env flags fuel r).2.st).2.2 + 1)
        (build env.NFDBITS (iteration env flags fuel r).2.st).1
        (build env.NFDBITS (iteration env flags fuel r).2.st).2.1
        (ISSET flags SUDO_EVLOOP_NONBLOCK)
        (answer env flags (iteration env flags fuel r).2) ∧
    (0 < env.NFDBITS → sized env.NFDBITS (iteration env flags fuel r).2.st.base →
      (∀ ev ∈ (iteration env flags fuel r).2.st.base.events,
        0 ≤ ((iteration env flags fuel r).2.st.evs ev).fd ∧
        ((iteration env flags fuel r).2.st.evs ev).fd ≤
          (iteration env flags fuel r).2.st.base.maxfd) →
      (∀ d, FD_ISSET env.NFDBITS d (build env.NFDBITS (iteration env flags fuel r).2.st).1 =
          true ↔ interested (iteration env flags fuel r).2.st SUDO_EV_READ d) ∧
      (∀ d, FD_ISSET env.NFDBITS d (build env.NFDBITS (iteration env flags fuel r).2.st).2.1 =
          true ↔ interested (iteration env flags fuel r).2.st SUDO_EV_WRITE d) ∧
      (build env.NFDBITS (iteration env flags fuel r).2.st).2.2 =
        highest (iteration env flags fuel r).2.st) := by
  obtain ⟨new, hnew, _, hshape⟩ := iteration_shape env flags fuel r
  rw [hlog, waited_log, List.append_assoc] at hnew
  have hnew1 := List.append_cancel_left hnew
  have hsel : asks_continue env (wait_call env flags r) = false := rfl
  have hagain : (iteration env flags fuel r).1 = Iter.again →
      (r.st.base.nevents ≠ 0 →
        sudo_ev_loop_impl env flags (fuel + 1) r =
          sudo_ev_loop_impl env flags fuel (iteration env flags fuel r).2) := by
    intro h1 hne
    rw [loop_succ env flags fuel r hne]
    split
    · next v r1 heq => rw [heq] at h1; cases h1
    · next r1 heq => rw [heq]
    · next r1 heq => rw [heq] at h1; cases h1
  rcases hshape with ⟨_, pre1, ev, s0, hn, hq, hb, _⟩ |
      ⟨h1, pre1, ev, s0, hn, hq, hb, hc, hst⟩ | hq
  · -- the iteration ended on a break: no entry requests a continue
    exfalso
    have hmem : c ∈ [wait_call env flags r] ++ new := by rw [← hnew1]; simp
    rw [hn, ← List.append_assoc] at hmem
    rcases List.mem_append.1 hmem with hm | hm
    · rcases List.mem_append.1 hm with hm1 | hm1
      · rw [List.mem_singleton.1 hm1, hsel] at hcont; cases hcont
      · rw [(hq c hm1).2] at hcont; cases hcont
    · rw [List.mem_singleton.1 hm, asks_continue_invocation, hb] at hcont
      cases hcont
  · rw [hn, ← List.append_assoc] at hnew1
    have hc1 : c ∉ [wait_call env flags r] ++ pre1 := by
      intro hm
      rcases List.mem_append.1 hm with hm1 | hm1
      · rw [List.mem_singleton.1 hm1, hsel] at hcont; cases hcont
      · rw [(hq c hm1).2] at hcont; cases hcont
    obtain ⟨hpost, _, hceq⟩ := split_last _ pre post _ c hnew1.symm hc1
    refine ⟨hpost, h1, ?_, ?_, ?_, hagain h1, ?_, ?_, rfl,
      fun hN hs hfd => rebuilt_interest env.NFDBITS hN _ hs hfd⟩
    · intro s1 hs1
      rw [hceq, after_invocation] at hs1
      rw [hst, ← Option.some.inj hs1, ← settled_flags]
      rfl
    · rw [hst]
      exact isset_clr_self _ _ (by decide)
    · rw [hst]; rfl
    · intro h0 more
      exact loop_empty env flags more _ h0
    · intro h0 more
      exact loop_first_wait env flags more _ h0
  · exfalso
    have hmem : c ∈ [wait_call env flags r] ++ new := by rw [← hnew1]; simp
    rcases List.mem_append.1 hmem with hm | hm
    · rw [List.mem_singleton.1 hm, hsel] at hcont; cases hcont
    · rw [(hq c hm).2] at hcont; cases hcont

/-- Scenario D under `ONCE`, with a wait that also reports descriptor 3
writable: the pass ends at the loop test with that mark still in the write
set, and the run calls `select` a second time, on the sets rebuilt from the
collection (descriptor 3 for reading, nothing for writing, `highfd` 3). -/
theorem continue_restarts_cycle_witness :
    (iteration (scenario_env [fd3_readable_writable]) SUDO_EVLOOP_ONCE 2
        persistent_reader_continues).2.log =
      persistent_reader_continues.log ++
        ([wait_call (scenario_env [fd3_readable_writable]) SUDO_EVLOOP_ONCE
            persistent_reader_continues] ++
          invocation (scenario_env [fd3_readable_writable]) 0
            (with_pending (waited (scenario_env [fd3_readable_writable]) SUDO_EVLOOP_ONCE
              persistent_reader_continues) none).st :: []) ∧
    asks_continue (scenario_env [fd3_readable_writable])
      (invocation (scenario_env [fd3_readable_writable]) 0
        (with_pending (waited (scenario_env [fd3_readable_writable]) SUDO_EVLOOP_ONCE
          persistent_reader_continues) none).st) = true ∧
    (iteration (scenario_env [fd3_readable_writable]) SUDO_EVLOOP_ONCE 2
        persistent_reader_continues).1 = Iter.again ∧
    (iteration (scenario_env [fd3_readable_writable]) SUDO_EVLOOP_ONCE 2
        persistent_reader_continues).2.st.base.writefds = [8] ∧
    0 < (scenario_env [fd3_readable_writable]).NFDBITS ∧
    sized (scenario_env [fd3_readable_writable]).NFDBITS
      (iteration (scenario_env [fd3_readable_writable]) SUDO_EVLOOP_ONCE 2
        persistent_reader_continues).2.st.base ∧
    (build (scenario_env [fd3_readable_writable]).NFDBITS
      (iteration (scenario_env [fd3_readable_writable]) SUDO_EVLOOP_ONCE 2
        persistent_reader_continues).2.st).2.2 =
      highest (iteration (scenario_env [fd3_readable_writable]) SUDO_EVLOOP_ONCE 2
        persistent_reader_continues).2.st ∧
    build 64 (iteration (scenario_env [fd3_readable_writable]) SUDO_EVLOOP_ONCE 2
      persistent_reader_continues).2.st = ([8], [0], 3) ∧
    waits (sudo_ev_loop_impl (scenario_env [fd3_readable_writable]) SUDO_EVLOOP_ONCE 3
        persistent_reader_continues).2.log = 2 :=
  ⟨rfl, by decide,
    (continue_restarts_cycle (scenario_env [fd3_readable_writable]) SUDO_EVLOOP_ONCE 2
      persistent_reader_continues
      [wait_call (scenario_env [fd3_readable_writable]) SUDO_EVLOOP_ONCE
        persistent_reader_continues]
      (invocation (scenario_env [fd3_readable_writable]) 0
        (with_pending (waited (scenario_env [fd3_readable_writable]) SUDO_EVLOOP_ONCE
          persistent_reader_continues) none).st) [] rfl (by decide)).2.1,
    by decide, by decide, by decide,
    ((continue_restarts_cycle (scenario_env [fd3_readable_writable]) SUDO_EVLOOP_ONCE 2
      persistent_reader_continues
      [wait_call (scenario_env [fd3_readable_writable]) SUDO_EVLOOP_ONCE
        persistent_reader_continues]
      (invocation (scenario_env [fd3_readable_writable]) 0
        (with_pending (waited (scenario_env [fd3_readable_writable]) SUDO_EVLOOP_ONCE
          persistent_reader_continues) none).st) [] rfl (by decide)).2.2.2.2.2.2.2.2.2
        (by decide) (by decide) (by decide)).2.2,
    by decide, by decide⟩

/-- The exit check comes after the traversal.  First part: the dispatch
traversal does not consult `SUDO_EVBASE_LOOPEXIT`; an event whose mask,
computed on the sets of the base when the traversal reaches it, is not zero is
invoked, and when its callback returns with neither a break nor a continue
requested the traversal goes on to the next event with `base->flags` as the
callback left them.  Second part: when the traversal of a pass has run to the
end of the queue and `SUDO_EVBASE_LOOPEXIT` is then set, `sudo_ev_loop_impl`
sets `SUDO_EVBASE_GOT_EXIT` and returns 0 without another call of `select`,
whatever the run flags and with the events still registered. -/
theorem exit_after_traversal (env : Env) (flags fuel : Nat) (r : Run) :
    (∀ ev, fired env.NFDBITS (r.st.evs ev) r.st.base ≠ 0 →
      ISSET (settled env ev r.st).base.flags SUDO_EVBASE_LOOPBREAK = false →
      ISSET (settled env ev r.st).base.flags SUDO_EVBASE_LOOPCONT = false →
      service env ev r = (Flow.next,
        { st := settled env ev r.st, log := r.log ++ [invocation env ev r.st] }) ∧
      (settled env ev r.st).base.flags = (returned env ev r.st).base.flags) ∧
    (∀ r2, r.st.base.nevents ≠ 0 →
      (answer env flags r).nready ≠ -1 → (answer env flags r).nready ≠ 0 →
      dispatch env fuel (TAILQ_FIRST (waited env flags r).st.base.events)
        (waited env flags r) = (some Flow.next, r2) →
      ISSET r2.st.base.flags SUDO_EVBASE_LOOPEXIT = true →
      (sudo_ev_loop_impl env flags (fuel + 1) r).1 = some 0 ∧
      (sudo_ev_loop_impl env flags (fuel + 1) r).2.log = r2.log ∧
      (sudo_ev_loop_impl env flags (fuel + 1) r).2.st.base.flags =
        r2.st.base.flags ||| SUDO_EVBASE_GOT_EXIT ∧
      ISSET (sudo_ev_loop_impl env flags (fuel + 1) r).2.st.base.flags
        SUDO_EVBASE_GOT_EXIT = true ∧
      (sudo_ev_loop_impl env flags (fuel + 1) r).2.st.base.events = r2.st.base.events ∧
      (sudo_ev_loop_impl env flags (fuel + 1) r).2.st.base.nevents = r2.st.base.nevents) := by
  refine ⟨?_, ?_⟩
  · intro ev hf hb hc
    refine ⟨?_, settled_flags env ev r.st⟩
    rw [service_fire env ev r hf]
    simp [hb, hc]
  · intro r2 hne h1 h0 hd hexit
    rw [loop_succ env flags fuel r hne, iteration_pass_end env flags fuel r r2 h1 h0 hd]
    rw [if_pos hexit]
    exact ⟨rfl, rfl, rfl, isset_or_self _ _ (by decide), rfl, rfl⟩

/-- Two events ready on the descriptors 3 and 4, the first callback requests
an exit: both are invoked, then the run returns 0 with `GOT_EXIT`, after one
wait and with both events still registered. -/
theorem exit_after_traversal_witness :
    (sudo_ev_loop_impl (scenario_env [fd3_fd4_readable]) 0 (2 + 1)
      two_readers_first_exits).1 = some 0 ∧
    invocations (sudo_ev_loop_impl (scenario_env [fd3_fd4_readable]) 0 (2 + 1)
      two_readers_first_exits).2.log = [(0, 3, SUDO_EV_READ), (1, 4, SUDO_EV_READ)] ∧
    waits (sudo_ev_loop_impl (scenario_env [fd3_fd4_readable]) 0 (2 + 1)
      two_readers_first_exits).2.log = 1 ∧
    ISSET (sudo_ev_loop_impl (scenario_env [fd3_fd4_readable]) 0 (2 + 1)
      two_readers_first_exits).2.st.base.flags SUDO_EVBASE_GOT_EXIT = true ∧
    (sudo_ev_loop_impl (scenario_env [fd3_fd4_readable]) 0 (2 + 1)
      two_readers_first_exits).2.st.base.events = [0, 1] :=
  ⟨((exit_after_traversal (scenario_env [fd3_fd4_readable]) 0 2 two_readers_first_exits).2
      (dispatch (scenario_env [fd3_fd4_readable]) 2
        (TAILQ_FIRST (waited (scenario_env [fd3_fd4_readable]) 0
          two_readers_first_exits).st.base.events)
        (waited (scenario_env [fd3_fd4_readable]) 0 two_readers_first_exits)).2
      (by decide) (by decide) (by decide) (Prod.ext (by decide) rfl) (by decide)).1,
    by decide, by decide,
    ((exit_after_traversal (scenario_env [fd3_fd4_readable]) 0 2 two_readers_first_exits).2
      (dispatch (scenario_env [fd3_fd4_readable]) 2
        (TAILQ_FIRST (waited (scenario_env [fd3_fd4_readable]) 0
          two_readers_first_exits).st.base.events)
        (waited (scenario_env [fd3_fd4_readable]) 0 two_readers_first_exits)).2
      (by decide) (by decide) (by decide) (Prod.ext (by decide) rfl) (by decide)).2.2.2.1,
    by decide⟩

/-- C6 fails on the code when the event whose callback requests the exit
shares its descriptor with a later event of the pass.  A READ event and a
WRITE event are registered on descriptor 3, neither with `SUDO_EV_PERSIST`,
and `select` reports the descriptor readable and writable, so the fired mask
of each is not zero on the sets `select` returned.  The callback of the first
sets `SUDO_EVBASE_LOOPEXIT` and requests neither a break nor a continue.  The
loop then unregisters the first event, and `sudo_ev_del_impl` clears
descriptor 3 from `base->readfds` and `base->writefds`, the sets that hold the
answer of `select`; the mask computed for the second event is 0 and it is not
invoked.  The traversal ends, the loop sets `SUDO_EVBASE_GOT_EXIT` and returns
0 after this one wait, with the second event still registered and never
invoked. -/
theorem exit_pass_skips_ready_event :
    (answer (scenario_env [fd3_readable_writable]) 0 exiting_reader_and_writer).nready = 2 ∧
    intersection 64 (exiting_reader_and_writer.st.evs 0)
      (answer (scenario_env [fd3_readable_writable]) 0 exiting_reader_and_writer).readfds
      (answer (scenario_env [fd3_readable_writable]) 0 exiting_reader_and_writer).writefds =
        SUDO_EV_READ ∧
    intersection 64 (exiting_reader_and_writer.st.evs 1)
      (answer (scenario_env [fd3_readable_writable]) 0 exiting_reader_and_writer).readfds
      (answer (scenario_env [fd3_readable_writable]) 0 exiting_reader_and_writer).writefds =
        SUDO_EV_WRITE ∧
    fired 64 (exiting_reader_and_writer.st.evs 1)
      (waited (scenario_env [fd3_readable_writable]) 0 exiting_reader_and_writer).st.base =
        SUDO_EV_WRITE ∧
    ISSET (settled (scenario_env [fd3_readable_writable]) 0
      (with_pending (waited (scenario_env [fd3_readable_writable]) 0
        exiting_reader_and_writer) (some 1)).st).base.flags SUDO_EVBASE_LOOPEXIT = true ∧
    ISSET (settled (scenario_env [fd3_readable_writable]) 0
      (with_pending (waited (scenario_env [fd3_readable_writable]) 0
        exiting_reader_and_writer) (some 1)).st).base.flags SUDO_EVBASE_LOOPBREAK = false ∧
    ISSET (settled (scenario_env [fd3_readable_writable]) 0
      (with_pending (waited (scenario_env [fd3_readable_writable]) 0
        exiting_reader_and_writer) (some 1)).st).base.flags SUDO_EVBASE_LOOPCONT = false ∧
    fired 64 (exiting_reader_and_writer.st.evs 1)
      (settled (scenario_env [fd3_readable_writable]) 0
        (with_pending (waited (scenario_env [fd3_readable_writable]) 0
          exiting_reader_and_writer) (some 1)).st).base = 0 ∧
    (sudo_ev_loop_impl (scenario_env [fd3_readable_writable]) 0 5
      exiting_reader_and_writer).1 = some 0 ∧
    invocations (sudo_ev_loop_impl (scenario_env [fd3_readable_writable]) 0 5
      exiting_reader_and_writer).2.log = [(0, 3, SUDO_EV_READ)] ∧
    waits (sudo_ev_loop_impl (scenario_env [fd3_readable_writable]) 0 5
      exiting_reader_and_writer).2.log = 1 ∧
    ISSET (sudo_ev_loop_impl (scenario_env [fd3_readable_writable]) 0 5
      exiting_reader_and_writer).2.st.base.flags SUDO_EVBASE_GOT_EXIT = true ∧
    (sudo_ev_loop_impl (scenario_env [fd3_readable_writable]) 0 5
      exiting_reader_and_writer).2.st.base.events = [1] ∧
    (sudo_ev_loop_impl (scenario_env [fd3_readable_writable]) 0 5
      exiting_reader_and_writer).2.st.base.nevents = 1 := by
  decide

/-- C4 fails on the code when the persistent event shares its descriptor with
an event that the loop unregisters earlier in the pass.  A READ event without
`SUDO_EV_PERSIST` and a WRITE event with `SUDO_EV_PERSIST` are registered on
descriptor 3, in this order, with callbacks that do not touch the base.  In
the first pass `select` reports the descriptor writable: the persistent event
is invoked and stays registered with its mask, and `nevents` is still 2.  In
the second pass `select` reports the descriptor readable and writable, so the
persistent event is ready for the interest it requested; the loop invokes the
READ event, unregisters it, and `sudo_ev_del_impl` clears descriptor 3 from
`base->readfds` and `base->writefds`, the sets that hold the answer of
`select`; the mask computed for the persistent event is 0 and it is not
invoked in this pass, although it is still registered.  In the third pass it
is alone and invoked again. -/
theorem persistent_event_is_passed_over :
    ISSET (reader_and_persistent_writer.st.evs 1).events SUDO_EV_PERSIST = true ∧
    invocations (iteration writable_then_both 0 4 reader_and_persistent_writer).2.log =
      [(1, 3, SUDO_EV_WRITE)] ∧
    (iteration writable_then_both 0 4 reader_and_persistent_writer).2.st.base.events =
      [0, 1] ∧
    (iteration writable_then_both 0 4 reader_and_persistent_writer).2.st.base.nevents = 2 ∧
    ((iteration writable_then_both 0 4 reader_and_persistent_writer).2.st.evs 1).events =
      SUDO_EV_WRITE ||| SUDO_EV_PERSIST ∧
    (answer writable_then_both 0
      (iteration writable_then_both 0 4 reader_and_persistent_writer).2).nready = 2 ∧
    intersection 64
      ((iteration writable_then_both 0 4 reader_and_persistent_writer).2.st.evs 1)
      (answer writable_then_both 0
        (iteration writable_then_both 0 4 reader_and_persistent_writer).2).readfds
      (answer writable_then_both 0
        (iteration writable_then_both 0 4 reader_and_persistent_writer).2).writefds =
        SUDO_EV_WRITE ∧
    invocations (iteration writable_then_both 0 4
      (iteration writable_then_both 0 4 reader_and_persistent_writer).2).2.log =
        [(1, 3, SUDO_EV_WRITE), (0, 3, SUDO_EV_READ)] ∧
    (iteration writable_then_both 0 4
      (iteration writable_then_both 0 4 reader_and_persistent_writer).2).2.st.base.events =
        [1] ∧
    (sudo_ev_loop_impl writable_then_both 0 5 reader_and_persistent_writer).1 = some (-1) ∧
    invocations (sudo_ev_loop_impl writable_then_both 0 5
      reader_and_persistent_writer).2.log =
        [(1, 3, SUDO_EV_WRITE), (0, 3, SUDO_EV_READ), (1, 3, SUDO_EV_WRITE)] ∧
    waits (sudo_ev_loop_impl writable_then_both 0 5 reader_and_persistent_writer).2.log =
      4 := by
  decide

end SudoEvent
